import Mathlib

/-!
# Speech-pipeline server (`src/nodejs/server.js`): shallow embedding

The Express handlers of `server.js` are embedded as pure functions of the
request and of an environment `Env` that answers for everything outside the
process (file system, duration probe, the FastAPI backend, clock).  A handler
returns the HTTP response together with the ordered list of effects it
performed (backend calls, console output, deletion requests).

Modelling conventions
* A JavaScript number is `JsNum`: a finite value carried as an exact rational,
  or `NaN`.  The operators `+`, `-` and `*` give the exact result rounded to
  binary64 (`roundBinary64`: nearest value, a tie to the even significand,
  subnormals included), and a decimal literal that takes part in them stands
  for the binary64 value nearest to it (`JsNum.literal`).  The infinities are
  not represented: the exponent is unbounded above, so a result of magnitude
  `2^1024` or more, where JavaScript gives an infinity, lies outside the
  model.  The remainder `%` is exact in binary64, and so are comparisons and
  `Math.abs`.  The quotient `/` occurs only under `Math.floor` with the
  divisors 3600 and 60 and is taken exactly: for a binary64 dividend below
  `2^53` the rounded quotient has the same floor.  For a binary64 value `d`
  the test `d >= 0.1` agrees with the rational test `1/10 ≤ d`, because the
  literal `0.1` denotes the least binary64 value above `1/10`.
* The environment is read consistently during one handler run: two reads of
  the same path within one request see the same answer.
* A thrown JavaScript value is a `JsError` (`message`, optional `response`, as
  on an axios error).
* A JSON array in a request body holds strings (file paths).
-/

namespace Clone

/-! ## JavaScript values -/

abbrev Path := String

abbrev Bytes := List Nat

/-! ## Binary64 rounding -/

/-- Rounding to the nearest integer, a tie going to the even one. -/
def roundHalfEven (y : ℚ) : Int :=
  if y - ⌊y⌋ < 1 / 2 then ⌊y⌋
  else if 1 / 2 < y - ⌊y⌋ then ⌊y⌋ + 1
  else if ⌊y⌋ % 2 = 0 then ⌊y⌋ else ⌊y⌋ + 1

/-- The exponent `q` of the spacing `2^q` of the binary64 values around a
magnitude `x > 0`: 52 below the binade of `x`, and `-1074` for subnormals. -/
def quantumExponent (x : ℚ) : Int :=
  max (Int.log 2 x) (-1022) - 52

/-- A magnitude rounded to the binary64 grid around it. -/
def roundMagnitude (x : ℚ) : ℚ :=
  roundHalfEven (x / 2 ^ quantumExponent x) * 2 ^ quantumExponent x

/-- The binary64 value of an exact result: round to nearest, ties to even. -/
def roundBinary64 (x : ℚ) : ℚ :=
  if 0 ≤ x then roundMagnitude x else -roundMagnitude (-x)

/-- The loop `total += d` from 0 over a list, in binary64: every sum is
rounded before the next value is added. -/
def binary64Sum (ds : List ℚ) : ℚ :=
  ds.foldl (fun total d => roundBinary64 (total + d)) 0

/-- A JavaScript number: a finite value (exact rational) or `NaN`. -/
inductive JsNum where
  | num (q : ℚ)
  | nan
  deriving DecidableEq

namespace JsNum

/-- A decimal literal of the source: the binary64 value nearest to it. -/
def literal (q : ℚ) : JsNum :=
  num (roundBinary64 q)

/-- Binary `+`: the exact sum, rounded to binary64. -/
def add : JsNum → JsNum → JsNum
  | num a, num b => num (roundBinary64 (a + b))
  | _, _ => nan

/-- Binary `-`: the exact difference, rounded to binary64. -/
def sub : JsNum → JsNum → JsNum
  | num a, num b => num (roundBinary64 (a - b))
  | _, _ => nan

/-- Binary `*`: the exact product, rounded to binary64. -/
def mul : JsNum → JsNum → JsNum
  | num a, num b => num (roundBinary64 (a * b))
  | _, _ => nan

/-- The function `Math.abs`. -/
def abs : JsNum → JsNum
  | num a => num |a|
  | nan => nan

/-- Comparison `a > b`; false as soon as one side is `NaN`. -/
def gt : JsNum → JsNum → Bool
  | num a, num b => decide (b < a)
  | _, _ => false

/-- Comparison `a >= b`; false as soon as one side is `NaN`. -/
def ge : JsNum → JsNum → Bool
  | num a, num b => decide (b ≤ a)
  | _, _ => false

/-- Truthiness of a number: `0` and `NaN` are falsy. -/
def truthy : JsNum → Bool
  | num q => decide (q ≠ 0)
  | nan => false

end JsNum

/-- A JSON-like JavaScript value.  Arrays hold strings. -/
inductive JsValue where
  | undefined
  | null
  | bool (b : Bool)
  | number (n : JsNum)
  | string (s : String)
  | array (xs : List String)
  | object (fields : List (String × JsValue))

namespace JsValue

/-- JavaScript truthiness (`!v` is its negation). -/
def truthy : JsValue → Bool
  | undefined => false
  | null => false
  | bool b => b
  | number n => n.truthy
  | string s => decide (s ≠ "")
  | array _ => true
  | object _ => true

/-- The function `Array.isArray`. -/
def isArray : JsValue → Bool
  | array _ => true
  | _ => false

/-- The operator `a || b`. -/
def or (a b : JsValue) : JsValue :=
  if a.truthy then a else b

/-- Optional property read `v?.name`: `undefined` on `null` and `undefined`,
on a value without that property, and on a non-object. -/
def optField (v : JsValue) (name : String) : JsValue :=
  match v with
  | object fields => (fields.lookup name).getD undefined
  | _ => undefined

end JsValue

/-- The `response` of an axios error: upstream status and body.  A status that
is absent is `0` (falsy, like `undefined`). -/
structure UpstreamResponse where
  status : Nat
  data : JsValue

/-- A thrown value. -/
structure JsError where
  message : String
  response : Option UpstreamResponse

/-- The value `new Error(message)`: no `response` property. -/
def mkError (message : String) : JsError :=
  { message := message, response := none }

/-- Plain property read `v.name`, which throws a `TypeError` on `null` and
`undefined`. -/
def JsValue.getField (v : JsValue) (name : String) : Except JsError JsValue :=
  match v with
  | .undefined =>
      .error (mkError ("Cannot read properties of undefined (reading '" ++ name ++ "')"))
  | .null =>
      .error (mkError ("Cannot read properties of null (reading '" ++ name ++ "')"))
  | v => .ok (v.optField name)

/-- A multipart text field `req.body.x`: absent or a string.  Truthy when it
is a non-empty string. -/
def fieldTruthy : Option String → Bool
  | some s => decide (s ≠ "")
  | none => false

/-- The expression `req.body.x || dflt` on a multipart text field. -/
def fieldOr (v : Option String) (dflt : String) : String :=
  match v with
  | some s => if s ≠ "" then s else dflt
  | none => dflt

/-! ## Backend, environment, effects, responses -/

/-- The multipart form sent to `POST /generate-audio/` of the backend. -/
structure GenerateForm where
  ref_audio : Path
  ref_text : String
  gen_text : String
  remove_silence : String
  cross_fade_duration : String
  speed : String
  segment_index : String
  deriving DecidableEq

/-- A call issued with `axios.post` to the FastAPI backend. -/
inductive BackendCall where
  | generateAudio (form : GenerateForm)
  | combineAudioSegments (paths : List Path)
  | generateSrt (audio_path : Path)
  | generateCombinedSrt (paths : List Path)
  deriving DecidableEq

/-- The JSON object the backend answers with: `full_path` and further fields
that the server passes through untouched. -/
structure BackendData where
  full_path : Path
  extra : List (String × JsValue)

/-- Everything outside the server process. -/
structure Env where
  /-- The call `fs.existsSync`. -/
  existsSync : Path → Bool
  /-- The duration probe of package `get-audio-duration`. -/
  getAudioDurationInSeconds : Path → Except JsError JsNum
  /-- The call `fs.readFileSync`. -/
  readFileSync : Path → Except JsError Bytes
  /-- The function `JSON.parse` on the decoded content of a file. -/
  jsonParse : Bytes → Except JsError JsValue
  /-- Outcome reported to the callback of `fs.unlink`. -/
  unlinkError : Path → Option JsError
  /-- Backend endpoint `/generate-audio/`. -/
  postGenerateAudio : GenerateForm → Except JsError BackendData
  /-- Backend endpoint `/combine-audio-segments/`. -/
  postCombineAudioSegments : List Path → Except JsError BackendData
  /-- Backend endpoint `/generate-srt/`. -/
  postGenerateSrt : Path → Except JsError Bytes
  /-- Backend endpoint `/generate-combined-srt/`. -/
  postGenerateCombinedSrt : List Path → Except JsError Bytes
  /-- Value of `Date.now()` on entry of `/generate-audio`. -/
  startTime : Int
  /-- Value of `Date.now()` when `/generate-audio` builds its answer. -/
  endTime : Int
  /-- Value of `new Date().toISOString()` when an error is reported. -/
  timestamp : String
  /-- Conversion of a number inside a template string. -/
  showNum : JsNum → String
  /-- Node's check for characters that a header value may not contain. -/
  checkInvalidHeaderChar : JsValue → Bool

/-- Console channel. -/
inductive Level where
  | log
  | warn
  | error
  deriving DecidableEq

/-- An observable action of a handler. -/
inductive Effect where
  | post (call : BackendCall)
  | console (level : Level) (text : String)
  | unlink (path : Path)
  | finalize
  deriving DecidableEq

/-- Name of an entry of the bulk archive: `segment_<n>.srt` or
`segment_<n>_metadata.json`. -/
inductive EntryName where
  | srt (n : Nat)
  | metadata (n : Nat)
  deriving DecidableEq

namespace EntryName

/-- The file name as written into the archive. -/
def render : EntryName → String
  | srt n => "segment_" ++ toString n ++ ".srt"
  | metadata n => "segment_" ++ toString n ++ "_metadata.json"

/-- The segment number `<n>` carried by the name. -/
def segment : EntryName → Nat
  | srt n => n
  | metadata n => n

/-- Whether the entry is a subtitle document. -/
def isSrt : EntryName → Bool
  | srt _ => true
  | metadata _ => false

end EntryName

/-- One `archive.append(data, { name })`. -/
structure ArchiveEntry where
  name : EntryName
  data : Bytes
  deriving DecidableEq

/-- What a handler writes as the body of its answer. -/
inductive Body where
  /-- Answer `res.json(response.data)` of `/generate-audio`. -/
  | generated (data : BackendData) (duration : JsNum) (processTime : JsNum)
  /-- Answer `res.json(response.data)` of `/combine-audio`. -/
  | combined (data : BackendData) (total_duration : JsNum)
  /-- The object `{ error, status, timestamp }` written by `handleError`. -/
  | errorObj (error : JsValue) (status : Nat) (timestamp : String)
  /-- Answer `res.send(Buffer.from(response.data))`. -/
  | bytes (b : Bytes)
  /-- The zip archive piped into the answer. -/
  | zip (entries : List ArchiveEntry)

/-- An HTTP answer: status, the headers set with `res.setHeader`, body. -/
structure Response where
  status : Nat
  headers : List (String × JsValue)
  body : Body

/-- Result of running a handler. -/
structure Outcome where
  response : Response
  effects : List Effect

/-- The answer is the error object of `handleError`. -/
def Response.isError (r : Response) : Bool :=
  match r.body with
  | .errorObj _ _ _ => true
  | _ => false

/-- The `error` member of an error answer. -/
def Response.errorMessage (r : Response) : Option JsValue :=
  match r.body with
  | .errorObj m _ _ => some m
  | _ => none

/-- The backend calls among the effects, in order. -/
def backendCalls (effects : List Effect) : List BackendCall :=
  effects.filterMap fun e =>
    match e with
    | .post c => some c
    | _ => none

/-- The texts written with `console.warn`, in order. -/
def warnings (effects : List Effect) : List String :=
  effects.filterMap fun e =>
    match e with
    | .console .warn t => some t
    | _ => none

/-! ## `validateAudioDuration` and `handleError` -/

/-- Source: `validateAudioDuration` (server.js 20-31).  Returns the verdict and
the console output. -/
def validateAudioDuration (env : Env) (filePath : Path) : Bool × List Effect :=
  match env.getAudioDurationInSeconds filePath with
  | .ok duration =>
      (duration.ge (.num (1 / 10)),
        [.console .log ("Audio duration: " ++ env.showNum duration ++ " seconds")])
  | .error error =>
      (false, [.console .error ("Error validating audio duration: " ++ error.message)])

/-- Source: `handleError` (server.js 292-309).  The argument `headers` holds
what the handler had set on `res` before the failure. -/
def handleError (env : Env) (error : JsError) (headers : List (String × JsValue)) : Response :=
  match error.response with
  | some response =>
      let status := if response.status = 0 then 500 else response.status
      let message :=
        ((response.data.optField "detail").or response.data).or (.string error.message)
      { status := status, headers := headers,
        body := .errorObj message status env.timestamp }
  | none =>
      { status := 500, headers := headers,
        body := .errorObj (.string error.message) 500 env.timestamp }

/-! ## `POST /generate-audio` -/

/-- The file stored by `upload.single('ref_audio')`. -/
structure UploadedFile where
  path : Path

/-- Request of `/generate-audio`: the uploaded file and the text fields. -/
structure GenerateRequest where
  file : Option UploadedFile
  ref_text : Option String
  gen_text : Option String
  remove_silence : Option String
  cross_fade_duration : Option String
  speed : Option String
  segment_index : Option String

/-- The form built in lines 60-70. -/
def GenerateRequest.form (req : GenerateRequest) (file : UploadedFile) : GenerateForm :=
  { ref_audio := file.path
    ref_text := req.ref_text.getD ""
    gen_text := req.gen_text.getD ""
    remove_silence := fieldOr req.remove_silence "false"
    cross_fade_duration := fieldOr req.cross_fade_duration "0.15"
    speed := fieldOr req.speed "1.0"
    segment_index := fieldOr req.segment_index "0" }

/-- The `try` block of `/generate-audio` (server.js 47-98): the effects up to
the first throw, and the answer or the thrown value. -/
def generateAudioTry (env : Env) (req : GenerateRequest) :
    List Effect × Except JsError Response :=
  let fx0 : List Effect := [.console .log "🔵 Processing audio generation request"]
  match req.file with
  | none => (fx0, .error (mkError "No reference audio file uploaded"))
  | some file =>
    if !fieldTruthy req.ref_text || !fieldTruthy req.gen_text then
      (fx0, .error (mkError "Reference text and generation text are required"))
    else
      let form := req.form file
      let fx1 := fx0 ++ [.console .log "🔵 Sending request to FastAPI",
                         .post (.generateAudio form)]
      match env.postGenerateAudio form with
      | .error error => (fx1, .error error)
      | .ok data =>
        let verdict := validateAudioDuration env data.full_path
        let fx2 := fx1 ++ verdict.2
        if !verdict.1 then
          match env.getAudioDurationInSeconds data.full_path with
          | .error error => (fx2, .error error)
          | .ok duration =>
            (fx2 ++ [.console .error
                      ("Invalid audio duration: " ++ env.showNum duration ++ " seconds")],
              .error (mkError ("Generated audio validation failed. Duration: "
                        ++ env.showNum duration ++ " seconds")))
        else
          match env.getAudioDurationInSeconds data.full_path with
          | .error error => (fx2, .error error)
          | .ok duration =>
            let processTime := JsNum.num ((env.endTime - env.startTime : ℤ) / 1000)
            (fx2, .ok { status := 200, headers := [],
                        body := .generated data duration processTime })

/-- The `finally` block of `/generate-audio` (server.js 103-110). -/
def generateAudioFinally (env : Env) (uploadedFilePath : Option Path) : List Effect :=
  match uploadedFilePath with
  | none => []
  | some p =>
    if p ≠ "" && env.existsSync p then
      match env.unlinkError p with
      | none => [.unlink p]
      | some err => [.unlink p, .console .error ("🔴 Error deleting uploaded file: " ++ err.message)]
    else []

/-- Source: `app.post('/generate-audio', ...)` (server.js 43-111). -/
def generateAudio (env : Env) (req : GenerateRequest) : Outcome :=
  let uploadedFilePath := req.file.map fun f => f.path
  let run := generateAudioTry env req
  match run.2 with
  | .ok response =>
      { response := response
        effects := run.1 ++ generateAudioFinally env uploadedFilePath }
  | .error error =>
      { response := handleError env error []
        effects := run.1 ++ [.console .error ("🔴 Error: " ++ error.message)]
                    ++ generateAudioFinally env uploadedFilePath }

/-! ## `POST /combine-audio` -/

/-- A JSON request body with the member `paths` (`undefined` when absent). -/
structure PathsRequest where
  paths : JsValue

/-- The guard `!paths || !Array.isArray(paths) || paths.length === 0` shared by
`/combine-audio`, `/generate-combined-srt` and `/generate-all-srt`: the array
when the guard lets the request through, `none` when it throws. -/
def validPaths (paths : JsValue) : Option (List Path) :=
  if !paths.truthy || !paths.isArray then none
  else
    match paths with
    | .array xs => if xs.length = 0 then none else some xs
    | _ => none

/-- The loop of server.js 123-131, started with the running `totalDuration`:
the sum, or the first thrown value. -/
def sumDurations (env : Env) : List Path → JsNum → Except JsError JsNum
  | [], totalDuration => .ok totalDuration
  | path :: rest, totalDuration =>
    if !env.existsSync path then
      .error (mkError ("Audio file not found: " ++ path))
    else
      match env.getAudioDurationInSeconds path with
      | .error error => .error error
      | .ok duration => sumDurations env rest (totalDuration.add duration)

/-- The `try` block of `/combine-audio` (server.js 115-149). -/
def combineAudioTry (env : Env) (req : PathsRequest) :
    List Effect × Except JsError Response :=
  match validPaths req.paths with
  | none => ([], .error (mkError "Valid array of audio paths is required"))
  | some paths =>
    match sumDurations env paths (.num 0) with
    | .error error => ([], .error error)
    | .ok totalDuration =>
      let fx1 : List Effect := [.post (.combineAudioSegments paths)]
      match env.postCombineAudioSegments paths with
      | .error error => (fx1, .error error)
      | .ok data =>
        match env.getAudioDurationInSeconds data.full_path with
        | .error error => (fx1, .error error)
        | .ok finalDuration =>
          let fx2 :=
            if ((finalDuration.sub totalDuration).abs).gt
                ((JsNum.num paths.length).mul (JsNum.literal (1 / 10))) then
              fx1 ++ [.console .warn ("Duration mismatch - Expected: "
                        ++ env.showNum totalDuration ++ ", Actual: "
                        ++ env.showNum finalDuration)]
            else fx1
          (fx2, .ok { status := 200, headers := [],
                      body := .combined data finalDuration })

/-- Source: `app.post('/combine-audio', ...)` (server.js 114-155). -/
def combineAudio (env : Env) (req : PathsRequest) : Outcome :=
  let run := combineAudioTry env req
  match run.2 with
  | .ok response => { response := response, effects := run.1 }
  | .error error =>
      { response := handleError env error []
        effects := run.1 ++ [.console .error ("🔴 Error combining audio: " ++ error.message)] }

/-! ## `POST /generate-srt` -/

/-- The method `String.prototype.replace` with a string pattern, on character
lists: only the first occurrence of `pat` is replaced. -/
def replaceFirstChars (pat rep : List Char) : List Char → List Char
  | [] => if pat = [] then rep else []
  | c :: cs =>
    if pat.isPrefixOf (c :: cs) then rep ++ (c :: cs).drop pat.length
    else c :: replaceFirstChars pat rep cs

/-- The expression `audioPath.replace('.wav', '.json')`. -/
def metadataPathOf (audioPath : Path) : Path :=
  String.mk (replaceFirstChars ".wav".data ".json".data audioPath.data)

/-- The call `res.setHeader(name, value)` on the headers set so far: throws on
`undefined` and on a value with a forbidden character. -/
def setHeader (env : Env) (headers : List (String × JsValue)) (name : String)
    (value : JsValue) : Except JsError (List (String × JsValue)) :=
  match value with
  | .undefined =>
      .error (mkError ("Invalid value \"undefined\" for header \"" ++ name ++ "\""))
  | value =>
      if env.checkInvalidHeaderChar value then
        .error (mkError ("Invalid character in header content [\"" ++ name ++ "\"]"))
      else .ok (headers ++ [(name, value)])

/-- The sidecar block of `/generate-srt` (server.js 181-186): the headers set
on `res`, and the thrown value when the block throws. -/
def attachMetadata (env : Env) (audioPath : Path) :
    List (String × JsValue) × Option JsError :=
  let metadataPath := metadataPathOf audioPath
  if env.existsSync metadataPath then
    match env.readFileSync metadataPath with
    | .error error => ([], some error)
    | .ok content =>
      match env.jsonParse content with
      | .error error => ([], some error)
      | .ok metadata =>
        match metadata.getField "actual_duration" with
        | .error error => ([], some error)
        | .ok actual_duration =>
          match setHeader env [] "X-Audio-Duration" actual_duration with
          | .error error => ([], some error)
          | .ok headers1 =>
            match metadata.getField "scale_factor" with
            | .error error => (headers1, some error)
            | .ok scale_factor =>
              match setHeader env headers1 "X-Scale-Factor" scale_factor with
              | .error error => (headers1, some error)
              | .ok headers2 => (headers2, none)
  else ([], none)

/-- The call `fs.existsSync` on an arbitrary value: false off strings. -/
def existsSyncValue (env : Env) : JsValue → Bool
  | .string s => env.existsSync s
  | _ => false

/-- Request body of `/generate-srt`. -/
structure SrtRequest where
  audioPath : JsValue

/-- The `try` block of `/generate-srt` (server.js 159-191): effects, headers
set on `res`, and the body sent or the thrown value. -/
def generateSrtTry (env : Env) (req : SrtRequest) :
    List Effect × List (String × JsValue) × Except JsError Bytes :=
  if !req.audioPath.truthy || !existsSyncValue env req.audioPath then
    ([], [], .error (mkError "Valid audio path is required"))
  else
    match req.audioPath with
    | .string audioPath =>
      let fx1 : List Effect := [.post (.generateSrt audioPath)]
      match env.postGenerateSrt audioPath with
      | .error error => (fx1, [], .error error)
      | .ok data =>
        match attachMetadata env audioPath with
        | (headers, some error) => (fx1, headers, .error error)
        | (headers, none) =>
          (fx1,
            headers ++ [("Content-Type", .string "application/x-subrip"),
                        ("Content-Disposition", .string "attachment; filename=generated.srt")],
            .ok data)
    | _ => ([], [], .error (mkError "Valid audio path is required"))

/-- Source: `app.post('/generate-srt', ...)` (server.js 158-197). -/
def generateSrt (env : Env) (req : SrtRequest) : Outcome :=
  match generateSrtTry env req with
  | (fx, headers, .ok data) =>
      { response := { status := 200, headers := headers, body := .bytes data }
        effects := fx }
  | (fx, headers, .error error) =>
      { response := handleError env error headers
        effects := fx ++ [.console .error ("🔴 Error generating SRT: " ++ error.message)] }

/-! ## `POST /generate-combined-srt` -/

/-- The loop of server.js 209-213: the thrown value for the first path that
does not exist. -/
def checkPathsExist (env : Env) : List Path → Option JsError
  | [] => none
  | path :: rest =>
    if !env.existsSync path then some (mkError ("Audio file not found: " ++ path))
    else checkPathsExist env rest

/-- The `try` block of `/generate-combined-srt` (server.js 201-228). -/
def generateCombinedSrtTry (env : Env) (req : PathsRequest) :
    List Effect × Except JsError Response :=
  match validPaths req.paths with
  | none => ([], .error (mkError "Valid array of audio paths is required"))
  | some paths =>
    match checkPathsExist env paths with
    | some error => ([], .error error)
    | none =>
      let fx1 : List Effect := [.post (.generateCombinedSrt paths)]
      match env.postGenerateCombinedSrt paths with
      | .error error => (fx1, .error error)
      | .ok data =>
        (fx1, .ok { status := 200
                    headers := [("Content-Type", .string "application/x-subrip"),
                                ("Content-Disposition",
                                  .string "attachment; filename=combined.srt")]
                    body := .bytes data })

/-- Source: `app.post('/generate-combined-srt', ...)` (server.js 200-234). -/
def generateCombinedSrt (env : Env) (req : PathsRequest) : Outcome :=
  let run := generateCombinedSrtTry env req
  match run.2 with
  | .ok response => { response := response, effects := run.1 }
  | .error error =>
      { response := handleError env error []
        effects := run.1 ++
          [.console .error ("🔴 Error generating combined SRT: " ++ error.message)] }

/-! ## `POST /generate-all-srt` -/

/-- One turn of the loop of server.js 254-281 for `paths[i]`: the entries
appended to the archive and the effects.  A throw inside the inner `try` is
caught and only written to the console. -/
def allSrtStep (env : Env) (i : Nat) (path : Path) : List ArchiveEntry × List Effect :=
  match env.postGenerateSrt path with
  | .error error =>
      ([], [.post (.generateSrt path),
            .console .error ("🔴 Error processing segment " ++ toString (i + 1) ++ ": "
              ++ error.message)])
  | .ok data =>
    let srt : ArchiveEntry := { name := .srt (i + 1), data := data }
    let metadataPath := metadataPathOf path
    if env.existsSync metadataPath then
      match env.readFileSync metadataPath with
      | .error error =>
          ([srt], [.post (.generateSrt path),
                   .console .error ("🔴 Error processing segment " ++ toString (i + 1) ++ ": "
                     ++ error.message)])
      | .ok metadata =>
          ([srt, { name := .metadata (i + 1), data := metadata }],
            [.post (.generateSrt path)])
    else ([srt], [.post (.generateSrt path)])

/-- The loop `for (let i = 0; i < paths.length; i++)` of server.js 254-281,
run on the paths from index `i` on. -/
def allSrtLoop (env : Env) : Nat → List Path → List ArchiveEntry × List Effect
  | _, [] => ([], [])
  | i, path :: rest =>
    let step := allSrtStep env i path
    let tail := allSrtLoop env (i + 1) rest
    (step.1 ++ tail.1, step.2 ++ tail.2)

/-- Source: `app.post('/generate-all-srt', ...)` (server.js 237-289).  Creating
and finalizing the archive are taken not to throw. -/
def generateAllSrt (env : Env) (req : PathsRequest) : Outcome :=
  match validPaths req.paths with
  | none =>
      let error := mkError "Valid array of audio paths is required"
      { response := handleError env error []
        effects := [.console .error ("🔴 Error generating SRT ZIP: " ++ error.message)] }
  | some paths =>
      let run := allSrtLoop env 0 paths
      { response :=
          { status := 200
            headers := [("Content-Type", .string "application/zip"),
                        ("Content-Disposition",
                          .string "attachment; filename=all_segments.zip")]
            body := .zip run.1 }
        effects := run.2 ++ [.finalize] }

/-- The entries of the archive an answer carries (none for another body). -/
def Response.archiveEntries (r : Response) : List ArchiveEntry :=
  match r.body with
  | .zip entries => entries
  | _ => []

/-- The answer streams an archive. -/
def Response.isArchive (r : Response) : Bool :=
  match r.body with
  | .zip _ => true
  | _ => false

/-! ## Concrete environments and requests -/

/-- An environment in which nothing exists and every external call fails. -/
def emptyEnv : Env :=
  { existsSync := fun _ => false
    getAudioDurationInSeconds := fun _ => .error (mkError "No duration found!")
    readFileSync := fun _ => .error (mkError "ENOENT: no such file or directory")
    jsonParse := fun _ => .error (mkError "Unexpected end of JSON input")
    unlinkError := fun _ => none
    postGenerateAudio := fun _ => .error (mkError "connect ECONNREFUSED")
    postCombineAudioSegments := fun _ => .error (mkError "connect ECONNREFUSED")
    postGenerateSrt := fun _ => .error (mkError "connect ECONNREFUSED")
    postGenerateCombinedSrt := fun _ => .error (mkError "connect ECONNREFUSED")
    startTime := 0
    endTime := 0
    timestamp := "2024-01-01T00:00:00.000Z"
    showNum := fun _ => "n"
    checkInvalidHeaderChar := fun _ => false }

/-- The backend writes `out.wav`, whose probed duration is 0.05 s. -/
def shortArtifactEnv : Env :=
  { emptyEnv with
    existsSync := fun p => p == "uploads/ref" || p == "out.wav"
    getAudioDurationInSeconds := fun p =>
      if p == "out.wav" then .ok (.num (1 / 20)) else .error (mkError "No duration found!")
    postGenerateAudio := fun _ => .ok { full_path := "out.wav", extra := [] } }

/-- A complete `/generate-audio` request. -/
def sampleGenerateRequest : GenerateRequest :=
  { file := some { path := "uploads/ref" }
    ref_text := some "hello"
    gen_text := some "world"
    remove_silence := none
    cross_fade_duration := none
    speed := none
    segment_index := none }

/-- The probe reports 3600 s for `long.wav`. -/
def longArtifactEnv : Env :=
  { emptyEnv with
    getAudioDurationInSeconds := fun p =>
      if p == "long.wav" then .ok (.num 3600) else .error (mkError "No duration found!") }

/-- A multipart text field that is absent or the empty string. -/
def fieldMissingOrEmpty (v : Option String) : Prop :=
  v = none ∨ v = some ""

/-- The answer `handleError` writes for an `Error` thrown by the handler itself
with the given message: status 500 and the object `{ error, status: 500,
timestamp }`. -/
def localErrorAnswer (env : Env) (message : String) : Response :=
  { status := 500, headers := []
    body := .errorObj (.string message) 500 env.timestamp }

/-- A `/generate-audio` request without generation text. -/
def noGenTextRequest : GenerateRequest :=
  { sampleGenerateRequest with gen_text := some "" }

/-- An environment in which `a.wav` exists. -/
def oneFileEnv : Env :=
  { emptyEnv with existsSync := fun p => p == "a.wav" }

/-- The text of an error message contains the path `p`. -/
def textMentions (message : JsValue) (p : Path) : Prop :=
  match message with
  | .string text => p.data <:+: text.data
  | _ => False

/-- Only `notes.txt` exists, and it is not an audio file: the probe fails. -/
def unreadableEnv : Env :=
  { emptyEnv with existsSync := fun p => p == "notes.txt" }

/-- Three segments of 2.0 s, 1.5 s and 3.0 s; the backend assembles them into
`combined.wav`, which is probed at 100 s. -/
def threeSegmentsEnv : Env :=
  { emptyEnv with
    existsSync := fun p =>
      p == "s1.wav" || p == "s2.wav" || p == "s3.wav" || p == "combined.wav"
    getAudioDurationInSeconds := fun p =>
      if p == "s1.wav" then .ok (.num 2)
      else if p == "s2.wav" then .ok (.num (3 / 2))
      else if p == "s3.wav" then .ok (.num 3)
      else if p == "combined.wav" then .ok (.num 100)
      else .error (mkError "No duration found!")
    postCombineAudioSegments := fun _ => .ok { full_path := "combined.wav", extra := [] } }

/-- The three segment paths of `threeSegmentsEnv`. -/
def threeSegments : List Path := ["s1.wav", "s2.wav", "s3.wav"]

/-- The binary64 value of the literal `1.3`. -/
def binary64OnePointThree : ℚ := 5854679515581645 / 4503599627370496

/-- Three segments of 0.25 s, 0.25 s and 0.5 s; the backend assembles them
into `combined.wav`, which is probed at 1.3 s. -/
def quarterSegmentsEnv : Env :=
  { emptyEnv with
    existsSync := fun p =>
      p == "s1.wav" || p == "s2.wav" || p == "s3.wav" || p == "combined.wav"
    getAudioDurationInSeconds := fun p =>
      if p == "s1.wav" then .ok (.num (1 / 4))
      else if p == "s2.wav" then .ok (.num (1 / 4))
      else if p == "s3.wav" then .ok (.num (1 / 2))
      else if p == "combined.wav" then .ok (.num binary64OnePointThree)
      else .error (mkError "No duration found!")
    postCombineAudioSegments := fun _ => .ok { full_path := "combined.wav", extra := [] } }

/-- The subtitle documents among the entries of an archive, in order. -/
def srtDocuments (entries : List ArchiveEntry) : List ArchiveEntry :=
  entries.filter fun e => e.name.isSrt

/-- The subtitle document the bulk loop, started at index `i`, appends for
position `j` of `paths`: present when the backend call for that path
succeeds. -/
def srtDocumentAt (env : Env) (paths : List Path) (i j : Nat) : Option ArchiveEntry :=
  match paths[j]? with
  | some p =>
    match env.postGenerateSrt p with
    | .ok data => some { name := .srt (i + j + 1), data := data }
    | .error _ => none
  | none => none

/-- The subtitle backend fails on `b.wav` and answers every other path with
the bytes `[1, 2, 3]`. -/
def oneFailureEnv : Env :=
  { emptyEnv with
    postGenerateSrt := fun p =>
      if p == "b.wav" then .error (mkError "Request failed with status code 404")
      else .ok [1, 2, 3] }

/-- An existing `a.wav` with a sidecar `a.json` whose content parses to an
object with both metadata members; the subtitle backends answer `[7, 8]`. -/
def sidecarEnv : Env :=
  { emptyEnv with
    existsSync := fun p => p == "a.wav" || p == "a.json"
    readFileSync := fun p =>
      if p == "a.json" then .ok [123, 125]
      else .error (mkError "ENOENT: no such file or directory")
    jsonParse := fun _ =>
      .ok (.object [("actual_duration", .number (.num 2)),
                    ("scale_factor", .number (.num 1))])
    postGenerateSrt := fun _ => .ok [7, 8]
    postGenerateCombinedSrt := fun _ => .ok [7, 8] }

/-- The `status` member of the error object an answer carries. -/
def Response.statusMember (r : Response) : Option Nat :=
  match r.body with
  | .errorObj _ status _ => some status
  | _ => none

/-- The `timestamp` member of the error object an answer carries. -/
def Response.timestampMember (r : Response) : Option String :=
  match r.body with
  | .errorObj _ _ timestamp => some timestamp
  | _ => none

/-- An axios error with an upstream answer of status 500 whose body is
`{ detail }`. -/
def upstreamError (detail : String) : JsError :=
  { message := "Request failed with status code 500"
    response := some { status := 500, data := .object [("detail", .string detail)] } }

/-- The file `a.wav` exists and is probed at 2 s; the combination backend
answers 500 with a `detail` text. -/
def backendDownEnv : Env :=
  { emptyEnv with
    existsSync := fun p => p == "a.wav"
    getAudioDurationInSeconds := fun _ => .ok (.num 2)
    postCombineAudioSegments := fun _ =>
      .error (upstreamError "Valid array of audio paths is required") }

/-! ## `handleApiError` (`frontend/src/app/services/api.js`) -/

/-- The object built by `handleApiError`. -/
structure ApiError where
  message : JsValue
  status : Nat
  timestamp : JsValue

/-- Source: `handleApiError` (api.js 67-81).  The argument `now` is the value
of `new Date().toISOString()`.  Reading `data.error` throws a `TypeError` when
the upstream body is `null` or `undefined`. -/
def handleApiError (now : String) (error : JsError) : Except JsError ApiError :=
  match error.response with
  | some response =>
    match response.data.getField "error" with
    | .error typeError => .error typeError
    | .ok err =>
      match response.data.getField "timestamp" with
      | .error typeError => .error typeError
      | .ok timestamp =>
        .ok { message := err.or (.string "Server error")
              status := response.status
              timestamp := timestamp }
  | none =>
    .ok { message := (JsValue.string error.message).or (.string "Network error")
          status := 500
          timestamp := .string now }

/-- The JSON body of an error answer as the frontend receives it:
`{ error, status, timestamp }`; `undefined` for another body. -/
def Response.errorJson (r : Response) : JsValue :=
  match r.body with
  | .errorObj error status timestamp =>
      .object [("error", error), ("status", .number (.num status)),
               ("timestamp", .string timestamp)]
  | _ => .undefined

/-- The axios error the frontend sees for an answer of the server with a
failure status. -/
def axiosErrorOf (r : Response) : JsError :=
  { message := "Request failed with status code " ++ toString r.status
    response := some { status := r.status, data := r.errorJson } }

/-- The paths handed to `fs.unlink`, in order. -/
def unlinkRequests (effects : List Effect) : List Path :=
  effects.filterMap fun e =>
    match e with
    | .unlink p => some p
    | _ => none

/-- Whether `p` exists once the deletions requested by a handler have finished:
a file goes away exactly when `fs.unlink` was called on it and reported no
error. -/
def existsAfter (env : Env) (effects : List Effect) (p : Path) : Bool :=
  env.existsSync p && !(decide (p ∈ unlinkRequests effects) && (env.unlinkError p).isNone)

/-- As `shortArtifactEnv`, but deleting the upload fails. -/
def unlinkFailsEnv : Env :=
  { shortArtifactEnv with
    unlinkError := fun _ => some (mkError "EPERM: operation not permitted") }

/-! ## Orchestrator of `public/client.js` (`handleFormSubmit`)

The browser side is embedded the same way: the page's requests to the Node
server and the audio element are answered by a `Browser` record, and a run
returns the ordered list of requests it issued together with the page state
it leaves.  Elements looked up in the document are taken to exist. -/

/-- A `FormData` object: its entries in order. -/
abbrev FormFields := List (String × String)

/-- The method `FormData.prototype.set`: the first entry of that name gets the
value and the other entries of that name are dropped; without such an entry
the pair is appended. -/
def formSet : FormFields → String → String → FormFields
  | [], name, value => [(name, value)]
  | (k, v) :: rest, name, value =>
    if k = name then (name, value) :: rest.filter (fun kv => kv.1 ≠ name)
    else (k, v) :: formSet rest name value

/-- The method `FormData.prototype.getAll`. -/
def formGetAll (form : FormFields) (name : String) : List String :=
  (form.filter fun kv => kv.1 = name).map fun kv => kv.2

/-- The JSON answer of `/generate-audio` as the orchestrators read it. -/
structure GeneratedData where
  full_path : Path
  filename : String
  duration : JsNum
  deriving DecidableEq

/-- The JSON answer of `/combine-audio` as the orchestrators read it. -/
structure CombinedData where
  filename : String
  deriving DecidableEq

/-- What `await fetch(...)` gives: a rejection, or an answer with its status
and the outcome of `response.json()`. -/
inductive FetchOutcome (α : Type) where
  | rejected (error : JsError)
  | answered (status : Nat) (json : Except JsError α)

/-- The property `response.ok`: status in 200-299. -/
def statusOk (status : Nat) : Bool :=
  decide (200 ≤ status) && decide (status ≤ 299)

/-- Everything outside the script of the page. -/
structure Browser where
  /-- The method `String.prototype.trim`. -/
  trim : String → String
  /-- The request `fetch('/generate-audio', { method: 'POST', body })`. -/
  fetchGenerateAudio : FormFields → FetchOutcome GeneratedData
  /-- The request `fetch('/combine-audio', ...)` with body `{ paths }`. -/
  fetchCombineAudio : List Path → FetchOutcome CombinedData
  /-- The duration of `new Audio(url)` once `loadedmetadata` fires; `none`
  when the event never fires. -/
  loadedmetadata : String → Option JsNum

/-- A request issued by an orchestrator. -/
inductive ClientRequest where
  | generateAudio (form : FormFields)
  | combineAudio (paths : List Path)
  deriving DecidableEq

/-- The form sent for segment `i` (client.js 118-120). -/
def clientForm (form : FormFields) (text : String) (i : Nat) : FormFields :=
  formSet (formSet form "gen_text" text) "segment_index" (toString i)

/-- Outcome of one pass through the loop body (client.js 122-142). -/
inductive SegmentStep where
  /-- The body throws. -/
  | thrown (error : JsError)
  /-- The answer was read; the wait for `loadedmetadata` never ends. -/
  | waiting (data : GeneratedData)
  /-- The answer was read and the duration extracted. -/
  | generated (data : GeneratedData) (duration : JsNum)

/-- The loop body of `handleFormSubmit` after the form is built (client.js
122-142). -/
def generateSegment (browser : Browser) (formData : FormFields) : SegmentStep :=
  match browser.fetchGenerateAudio formData with
  | .rejected error => .thrown error
  | .answered status json =>
    if !statusOk status then .thrown (mkError ("Server error: " ++ toString status))
    else
      match json with
      | .error error => .thrown error
      | .ok data =>
        match browser.loadedmetadata ("/generated_audio_files/" ++ data.filename) with
        | none => .waiting data
        | some duration => .generated data duration

/-- The variables the loop of `handleFormSubmit` writes. -/
structure ClientState where
  requests : List ClientRequest
  results : List GeneratedData
  currentSegmentPaths : List Path
  segmentDurations : List JsNum

/-- How the loop ends. -/
inductive Flow where
  | done
  | thrown (error : JsError)
  | waiting

/-- The loop `for (let i = 0; i < segments.length; i++)` of client.js 115-143,
run on the segments from index `i` on.  The assignment `segmentDurations[i] =
...` extends the array by one element, since it was emptied before the loop
and is filled in index order. -/
def handleFormSubmitLoop (browser : Browser) (form : FormFields) :
    Nat → List String → ClientState → ClientState × Flow
  | _, [], st => (st, .done)
  | i, text :: rest, st =>
    let formData := clientForm form text i
    let st1 := { st with requests := st.requests ++ [.generateAudio formData] }
    match generateSegment browser formData with
    | .thrown error => (st1, .thrown error)
    | .waiting data =>
        ({ st1 with results := st1.results ++ [data]
                    currentSegmentPaths := st1.currentSegmentPaths ++ [data.full_path] },
          .waiting)
    | .generated data duration =>
        handleFormSubmitLoop browser form (i + 1) rest
          { st1 with results := st1.results ++ [data]
                     currentSegmentPaths := st1.currentSegmentPaths ++ [data.full_path]
                     segmentDurations := st1.segmentDurations ++ [duration] }

/-- What a run of `handleFormSubmit` leaves behind. -/
structure ClientOutcome where
  /-- The requests issued, in order. -/
  requests : List ClientRequest
  /-- The global `currentSegmentPaths`. -/
  currentSegmentPaths : List Path
  /-- The global `segmentDurations`. -/
  segmentDurations : List JsNum
  /-- The text of the element `error`. -/
  errorText : String
  /-- The `src` given to the element `finalAudio`. -/
  finalAudioSrc : Option String
  /-- Whether the element `result` was made visible. -/
  resultShown : Bool
  /-- Whether the handler ran to its end (false: it waits for `loadedmetadata`
  for ever). -/
  finished : Bool

/-- Source: `handleFormSubmit` (client.js 93-172).  The argument `textareas`
holds the values of the `.gen-text-segment` elements. -/
def handleFormSubmit (browser : Browser) (form : FormFields) (textareas : List String) :
    ClientOutcome :=
  let segments := (textareas.map browser.trim).filter fun text => text.length > 0
  match handleFormSubmitLoop browser form 0 segments
      { requests := [], results := [], currentSegmentPaths := [], segmentDurations := [] } with
  | (st, .waiting) =>
      { requests := st.requests, currentSegmentPaths := st.currentSegmentPaths
        segmentDurations := st.segmentDurations, errorText := ""
        finalAudioSrc := none, resultShown := false, finished := false }
  | (st, .thrown error) =>
      { requests := st.requests, currentSegmentPaths := st.currentSegmentPaths
        segmentDurations := st.segmentDurations, errorText := error.message
        finalAudioSrc := none, resultShown := false, finished := true }
  | (st, .done) =>
    let requests := st.requests ++ [.combineAudio st.currentSegmentPaths]
    let failed (error : JsError) : ClientOutcome :=
      { requests := requests, currentSegmentPaths := st.currentSegmentPaths
        segmentDurations := st.segmentDurations, errorText := error.message
        finalAudioSrc := none, resultShown := false, finished := true }
    match browser.fetchCombineAudio st.currentSegmentPaths with
    | .rejected error => failed error
    | .answered status json =>
      if !statusOk status then failed (mkError "Failed to combine audio segments")
      else
        match json with
        | .error error => failed error
        | .ok combinedData =>
          { requests := requests, currentSegmentPaths := st.currentSegmentPaths
            segmentDurations := st.segmentDurations, errorText := ""
            finalAudioSrc := some ("/generated_audio_files/" ++ combinedData.filename)
            resultShown := true, finished := true }

/-! ## Orchestrator of the React page (`TextToSpeech.js`, `handleSubmit`) -/

/-- What the functions of `api.js` throw: the object of `handleApiError`, or
the `TypeError` raised inside `handleApiError`. -/
inductive Thrown where
  | apiError (e : ApiError)
  | error (e : JsError)

/-- The member `err.message` of a thrown value. -/
def Thrown.message : Thrown → JsValue
  | .apiError e => e.message
  | .error e => .string e.message

/-- The wrapper shared by the functions of `api.js` (5-65): the `data` of the
answer, or `throw handleApiError(error)`. -/
def apiCall {α : Type} (now : String) (result : Except JsError α) : Except Thrown α :=
  match result with
  | .ok data => .ok data
  | .error error =>
    match handleApiError now error with
    | .ok apiError => .error (.apiError apiError)
    | .error typeError => .error (.error typeError)

/-- Everything outside the React page.  The function `formatTime` of
`services/audioProcessing` is taken as a given total function. -/
structure Frontend where
  /-- The request `axios.post(BASE_URL + '/generate-audio', formData)`. -/
  postGenerateAudio : FormFields → Except JsError GeneratedData
  /-- The request `axios.post(BASE_URL + '/combine-audio', { paths })`. -/
  postCombineAudio : List Path → Except JsError CombinedData
  /-- Value of `new Date().toISOString()` inside `handleApiError`. -/
  now : String
  /-- The imported `formatTime`. -/
  formatTime : JsNum → String

/-- One entry of the state `segments`. -/
structure SegmentEntry where
  text : String
  duration : Option String
  deriving DecidableEq

/-- The form built for segment `i` (TextToSpeech.js 39-43). -/
def pageForm (refText audioFile text : String) (i : Nat) : FormFields :=
  [("ref_text", refText), ("gen_text", text), ("ref_audio", audioFile),
   ("segment_index", toString i)]

/-- The variables the loop of `handleSubmit` writes: requests issued, the local
`paths`, and the entries of `segments` already passed. -/
structure PageLoopState where
  requests : List ClientRequest
  paths : List Path
  passed : List SegmentEntry

/-- The loop of TextToSpeech.js 38-52, run on the entries from index `i` on:
the state reached, the entries not passed, and the thrown value if any. -/
def handleSubmitLoop (fe : Frontend) (refText audioFile : String) :
    Nat → List SegmentEntry → PageLoopState →
      PageLoopState × List SegmentEntry × Option Thrown
  | _, [], st => (st, [], none)
  | i, segment :: rest, st =>
    let formData := pageForm refText audioFile segment.text i
    let st1 := { st with requests := st.requests ++ [.generateAudio formData] }
    match apiCall fe.now (fe.postGenerateAudio formData) with
    | .error thrown => (st1, segment :: rest, some thrown)
    | .ok result =>
        handleSubmitLoop fe refText audioFile (i + 1) rest
          { st1 with paths := st1.paths ++ [result.full_path]
                     passed := st1.passed ++
                       [{ segment with duration := some (fe.formatTime result.duration) }] }

/-- The state of the page that `handleSubmit` reads and writes. -/
structure PageState where
  segments : List SegmentEntry
  refText : String
  audioFile : String
  currentSegmentPaths : List Path
  error : JsValue
  finalAudioUrl : Option String

/-- What a run of `handleSubmit` leaves behind. -/
structure PageOutcome where
  requests : List ClientRequest
  state : PageState

/-- Source: `handleSubmit` (TextToSpeech.js 32-65). -/
def handleSubmit (fe : Frontend) (page : PageState) : PageOutcome :=
  match handleSubmitLoop fe page.refText page.audioFile 0 page.segments
      { requests := [], paths := [], passed := [] } with
  | (st, rest, some thrown) =>
      { requests := st.requests
        state := { page with segments := st.passed ++ rest, error := thrown.message } }
  | (st, rest, none) =>
    let requests := st.requests ++ [.combineAudio st.paths]
    match apiCall fe.now (fe.postCombineAudio st.paths) with
    | .error thrown =>
        { requests := requests
          state := { page with segments := st.passed ++ rest
                               currentSegmentPaths := st.paths
                               error := thrown.message } }
    | .ok combineResult =>
        { requests := requests
          state := { page with segments := st.passed ++ rest
                               currentSegmentPaths := st.paths
                               error := .string ""
                               finalAudioUrl :=
                                 some ("/generated_audio_files/" ++ combineResult.filename) } }

/-- The list `segments` of `handleFormSubmit` (client.js 109-111): the values of
the text areas, trimmed, without the empty ones. -/
def clientSegments (browser : Browser) (textareas : List String) : List String :=
  (textareas.map browser.trim).filter fun text => text.length > 0

/-- The generation request with body `formData` fails with `error`: `fetch`
rejects, or the answer has a status outside 200-299, or its body is not
JSON. -/
def GenerationFails (browser : Browser) (formData : FormFields) (error : JsError) : Prop :=
  browser.fetchGenerateAudio formData = .rejected error
    ∨ (∃ status json, browser.fetchGenerateAudio formData = .answered status json
        ∧ statusOk status = false
        ∧ error = mkError ("Server error: " ++ toString status))
    ∨ (∃ status, browser.fetchGenerateAudio formData = .answered status (.error error)
        ∧ statusOk status = true)

/-- The value an `api.js` function throws for the axios error `error`. -/
def apiThrown (now : String) (error : JsError) : Thrown :=
  match handleApiError now error with
  | .ok apiError => .apiError apiError
  | .error typeError => .error typeError

/-- The generation requests for the given segments, numbered from `i`, as
`handleFormSubmit` builds them. -/
def clientGenerateRequests (form : FormFields) (i : Nat) (segments : List String) :
    List ClientRequest :=
  (segments.enumFrom i).map fun x => .generateAudio (clientForm form x.2 x.1)

/-- The generation requests for the given entries, numbered from `i`, as
`handleSubmit` builds them. -/
def pageGenerateRequests (refText audioFile : String) (i : Nat)
    (segments : List SegmentEntry) : List ClientRequest :=
  (segments.enumFrom i).map fun x => .generateAudio (pageForm refText audioFile x.2.text x.1)

/-- A server that answers 500 to the text `bad` and generates `out.wav` for
every other text. -/
def failOnBadBrowser : Browser :=
  { trim := fun s => s
    fetchGenerateAudio := fun form =>
      if formGetAll form "gen_text" = ["bad"] then
        .answered 500 (.ok { full_path := "", filename := "", duration := .nan })
      else .answered 200 (.ok { full_path := "out.wav", filename := "out.wav", duration := .num 1 })
    fetchCombineAudio := fun _ => .answered 200 (.ok { filename := "combined.wav" })
    loadedmetadata := fun _ => some (.num 1) }

/-- The same server behind the React page: the failing request is an axios
error carrying the 500 answer of `handleError`. -/
def failOnBadFrontend : Frontend :=
  { postGenerateAudio := fun form =>
      if formGetAll form "gen_text" = ["bad"] then
        .error (axiosErrorOf (localErrorAnswer emptyEnv "connect ECONNREFUSED"))
      else .ok { full_path := "out.wav", filename := "out.wav", duration := .num 1 }
    postCombineAudio := fun _ => .ok { filename := "combined.wav" }
    now := "2024-01-01T00:00:00.000Z"
    formatTime := fun _ => "00:00:01.000" }

/-- A page with the given segment texts. -/
def samplePage (texts : List String) : PageState :=
  { segments := texts.map fun t => { text := t, duration := none }
    refText := "hello"
    audioFile := "ref.wav"
    currentSegmentPaths := []
    error := .string ""
    finalAudioUrl := none }

/-- Value of a decimal digit character (0 for another character). -/
def digitValue (c : Char) : Nat :=
  if c = '1' then 1 else if c = '2' then 2 else if c = '3' then 3
  else if c = '4' then 4 else if c = '5' then 5 else if c = '6' then 6
  else if c = '7' then 7 else if c = '8' then 8 else if c = '9' then 9 else 0

/-- The number a list of decimal digit characters denotes. -/
def decimalValue (cs : List Char) : Nat :=
  cs.foldl (fun acc c => acc * 10 + digitValue c) 0

/-- The file `notes.txt` exists, the subtitle backend answers `[7, 8]` for it,
and its content `[104, 105]` is not JSON. -/
def plainFileEnv : Env :=
  { emptyEnv with
    existsSync := fun p => p == "notes.txt"
    readFileSync := fun p =>
      if p == "notes.txt" then .ok [104, 105]
      else .error (mkError "ENOENT: no such file or directory")
    jsonParse := fun _ => .error (mkError "Unexpected token h in JSON at position 0")
    postGenerateSrt := fun _ => .ok [7, 8] }

/-! ## Timing display of `public/client.js` (`formatTime`, `updateTimingDisplay`) -/

/-- The operator `/` on finite numbers with a non-zero divisor (`NaN`
otherwise). -/
def JsNum.div : JsNum → JsNum → JsNum
  | .num a, .num b => if b = 0 then .nan else .num (a / b)
  | _, _ => .nan

/-- Rounding toward zero. -/
def truncate (q : ℚ) : Int :=
  if 0 ≤ q then ⌊q⌋ else ⌈q⌉

/-- The operator `%`: the remainder `a - b * trunc(a / b)`, which has the sign
of the dividend. -/
def JsNum.mod : JsNum → JsNum → JsNum
  | .num a, .num b => if b = 0 then .nan else .num (a - b * truncate (a / b))
  | _, _ => .nan

/-- The function `Math.floor`. -/
def JsNum.floor : JsNum → JsNum
  | .num a => .num ⌊a⌋
  | .nan => .nan

/-- Decimal text of an integer. -/
def showInteger (i : Int) : String :=
  if i < 0 then "-" ++ toString i.natAbs else toString i.natAbs

/-- The method `Number.prototype.toString` on an integer value (as returned by
`Math.floor`, below 10^21 in magnitude) or `NaN`. -/
def integerToString : JsNum → String
  | .num q => showInteger ⌊q⌋
  | .nan => "NaN"

/-- The method `String.prototype.padStart` with a one-character filler. -/
def padStart (s : String) (targetLength : Nat) (fill : Char) : String :=
  String.mk (List.replicate (targetLength - s.length) fill) ++ s

/-- The integer `n` of `Number.prototype.toFixed`: the one for which
`n / 10^digits` is nearest to `x`, the larger one on a tie (`x >= 0`). -/
def fixedScaled (digits : Nat) (x : ℚ) : Nat :=
  ⌊x * (10 : ℚ) ^ digits + 1 / 2⌋.toNat

/-- The method `Number.prototype.toFixed(digits)` for `digits >= 1` (values
below 10^21 in magnitude). -/
def toFixed (digits : Nat) : JsNum → String
  | .nan => "NaN"
  | .num q =>
    let n := fixedScaled digits |q|
    (if q < 0 then "-" else "") ++ toString (n / 10 ^ digits) ++ "."
      ++ padStart (toString (n % 10 ^ digits)) digits '0'

/-- Source: `formatTime` (client.js 50-55). -/
def formatTime (seconds : JsNum) : String :=
  let hours := (seconds.div (.num 3600)).floor
  let minutes := ((seconds.mod (.num 3600)).div (.num 60)).floor
  let secs := toFixed 3 (seconds.mod (.num 60))
  padStart (integerToString hours) 2 '0' ++ ":" ++ padStart (integerToString minutes) 2 '0'
    ++ ":" ++ padStart secs 6 '0'

/-- The three texts written into the `.timing-info` element of a segment. -/
structure TimingTexts where
  duration : String
  start : String
  finish : String
  deriving DecidableEq

/-- What one turn of the `forEach` of `updateTimingDisplay` works with: the
duration used, the value of `currentTime` (start), the value of `currentTime +
duration` (end), and the texts written when the segment has a `.timing-info`
element. -/
structure TimingRow where
  duration : JsNum
  start : JsNum
  finish : JsNum
  texts : Option TimingTexts
  deriving DecidableEq

/-- The expression `segmentDurations[index] || 0`. -/
def durationOr0 (segmentDurations : List JsNum) (index : Nat) : JsNum :=
  match segmentDurations[index]? with
  | some d => if d.truthy then d else .num 0
  | none => .num 0

/-- The `forEach` of client.js 61-72 from `index` on, with the running
`currentTime`; the list holds, per `.segment-group` element, whether it has a
`.timing-info` element. -/
def updateTimingLoop (segmentDurations : List JsNum) :
    Nat → JsNum → List Bool → List TimingRow
  | _, _, [] => []
  | index, currentTime, timingInfo :: rest =>
    let duration := durationOr0 segmentDurations index
    let row : TimingRow :=
      { duration := duration
        start := currentTime
        finish := currentTime.add duration
        texts :=
          if timingInfo then
            some { duration := "Duration: " ++ toFixed 3 duration ++ "s"
                   start := "Start: " ++ formatTime currentTime
                   finish := "End: " ++ formatTime (currentTime.add duration) }
          else none }
    row :: updateTimingLoop segmentDurations (index + 1)
      (currentTime.add (duration.add (JsNum.literal (1 / 10)))) rest

/-- What `updateTimingDisplay` shows. -/
structure TimingDisplay where
  rows : List TimingRow
  totalDuration : JsNum
  totalText : String

/-- Source: `updateTimingDisplay` (client.js 57-77). -/
def updateTimingDisplay (segments : List Bool) (segmentDurations : List JsNum) :
    TimingDisplay :=
  let totalDuration := segmentDurations.foldl (fun sum duration => sum.add duration) (.num 0)
  { rows := updateTimingLoop segmentDurations 0 (.num 0) segments
    totalDuration := totalDuration
    totalText := "Total Duration: " ++ toFixed 3 totalDuration ++ "s" }

/-- The start time the display gives segment `i`: beginning at 0, each
segment `j` before it adds the binary64 sum `dj + 0.1`, the running value
being rounded to binary64 at every addition. -/
def startOf (ds : List ℚ) (i : Nat) : ℚ :=
  (ds.take i).foldl
    (fun currentTime d => roundBinary64 (currentTime + roundBinary64 (d + roundBinary64 (1 / 10))))
    0

/-- The end time the display gives segment `i` of duration `d`: the binary64
sum of its start and `d`. -/
def endOf (ds : List ℚ) (i : Nat) (d : ℚ) : ℚ :=
  roundBinary64 (startOf ds i + d)

/-- The row expected for segment `i` with duration `d`. -/
def expectedRow (ds : List ℚ) (timingInfo : Bool) (i : Nat) (d : ℚ) : TimingRow :=
  { duration := .num d
    start := .num (startOf ds i)
    finish := .num (endOf ds i d)
    texts :=
      if timingInfo then
        some { duration := "Duration: " ++ toFixed 3 (.num d) ++ "s"
               start := "Start: " ++ formatTime (.num (startOf ds i))
               finish := "End: " ++ formatTime (.num (endOf ds i d)) }
      else none }

/-! ## `parseSrtContent` (`ImportText.js`) and the split of `SubtitleEditor.js`

JavaScript strings are handled as lists of characters.  The regular expression
of `parseSrtContent` is written in a small syntax tree and run by a
backtracking matcher that tries the alternatives in the order of the
ECMAScript semantics (greedy: longest first; lazy: shortest first; `a|b`: `a`
first). -/

/-- The characters matched by `\s` and removed by `trim`: white space and line
terminators of ECMAScript. -/
def isWhiteSpace (c : Char) : Bool :=
  let n := c.toNat
  n = 9 || n = 10 || n = 11 || n = 12 || n = 13 || n = 32 || n = 160 || n = 5760
    || (decide (8192 ≤ n) && decide (n ≤ 8202)) || n = 8232 || n = 8233 || n = 8239
    || n = 8287 || n = 12288 || n = 65279

/-- The characters matched by `\d`. -/
def isDigit (c : Char) : Bool :=
  decide ('0'.toNat ≤ c.toNat) && decide (c.toNat ≤ '9'.toNat)

/-- The class `[\s\S]`. -/
def anyChar (c : Char) : Bool :=
  isWhiteSpace c || !isWhiteSpace c

/-- The part of the regular-expression syntax that the pattern uses;
repetition is over character classes. -/
inductive Regex where
  /-- One character of a class (`\d`, a literal character). -/
  | cls (p : Char → Bool)
  /-- Concatenation. -/
  | seq (a b : Regex)
  /-- Alternation `a|b`. -/
  | alt (a b : Regex)
  /-- Greedy `c?` on a class. -/
  | opt (p : Char → Bool)
  /-- Greedy `c+` on a class. -/
  | plus (p : Char → Bool)
  /-- Lazy `c*?` on a class. -/
  | lazyStar (p : Char → Bool)
  /-- The assertion `$` (no `m` flag): end of input. -/
  | endOfInput

/-- Greedy repetition of a class: the longest run is tried first, then the
shorter ones. -/
def greedyRun {α : Type} (p : Char → Bool) :
    List Char → (List Char → Option α) → Option α
  | [], k => k []
  | c :: cs, k =>
    if p c then
      match greedyRun p cs k with
      | some r => some r
      | none => k (c :: cs)
    else k (c :: cs)

/-- Lazy repetition of a class: the empty run is tried first, then the longer
ones. -/
def lazyRun {α : Type} (p : Char → Bool) :
    List Char → (List Char → Option α) → Option α
  | [], k => k []
  | c :: cs, k =>
    match k (c :: cs) with
    | some r => some r
    | none => if p c then lazyRun p cs k else none

/-- Backtracking match of a pattern at the start of the input; the
continuation receives the rest of the input and may reject it. -/
def Regex.run {α : Type} : Regex → List Char → (List Char → Option α) → Option α
  | .cls _, [], _ => none
  | .cls p, c :: cs, k => if p c then k cs else none
  | .seq a b, s, k => a.run s fun s1 => b.run s1 k
  | .alt a b, s, k =>
    match a.run s k with
    | some r => some r
    | none => b.run s k
  | .opt _, [], k => k []
  | .opt p, c :: cs, k =>
    if p c then
      match k cs with
      | some r => some r
      | none => k (c :: cs)
    else k (c :: cs)
  | .plus _, [], _ => none
  | .plus p, c :: cs, k => if p c then greedyRun p cs k else none
  | .lazyStar p, s, k => lazyRun p s k
  | .endOfInput, s, k => if s = [] then k s else none

/-- A literal character. -/
def Regex.chr (c : Char) : Regex :=
  .cls fun x => x = c

/-- The pattern `\r?\n`. -/
def lineBreak : Regex :=
  .seq (.opt fun x => x = '\r') (.chr '\n')

/-- The pattern `\d{2}`. -/
def twoDigits : Regex :=
  .seq (.cls isDigit) (.cls isDigit)

/-- The pattern `\d{2}:\d{2}:\d{2},\d{3}`. -/
def timestampPattern : Regex :=
  .seq twoDigits (.seq (.chr ':') (.seq twoDigits (.seq (.chr ':') (.seq twoDigits
    (.seq (.chr ',') (.seq (.cls isDigit) twoDigits))))))

/-- The pattern up to the fourth group:
`(\d+)\r?\n(\d{2}:\d{2}:\d{2},\d{3}) --> (\d{2}:\d{2}:\d{2},\d{3})\r?\n`. -/
def cueHead : Regex :=
  .seq (.plus isDigit) (.seq lineBreak (.seq timestampPattern
    (.seq (.chr ' ') (.seq (.chr '-') (.seq (.chr '-') (.seq (.chr '>') (.seq (.chr ' ')
      (.seq timestampPattern lineBreak))))))))

/-- The fourth group `([\s\S]*?)`. -/
def cueBody : Regex :=
  .lazyStar anyChar

/-- The end of the pattern, `(?:\r?\n\r?\n|$)`. -/
def cueEnd : Regex :=
  .alt (.seq lineBreak lineBreak) .endOfInput

/-- A match of the whole pattern at the start of the input: the text of the
fourth group and the input after the match. -/
def matchCueAt (s : List Char) : Option (List Char × List Char) :=
  cueHead.run s fun s1 =>
    cueBody.run s1 fun s2 =>
      cueEnd.run s2 fun s3 =>
        some (s1.take (s1.length - s2.length), s3)

/-- The call `regex.exec` on the input from `lastIndex` on (flag `g`): the
match at the first position where the pattern matches. -/
def execFrom : List Char → Option (List Char × List Char)
  | [] => matchCueAt []
  | c :: cs =>
    match matchCueAt (c :: cs) with
    | some r => some r
    | none => execFrom cs

/-- The method `String.prototype.trim`. -/
def jsTrim (s : List Char) : List Char :=
  ((s.dropWhile isWhiteSpace).reverse.dropWhile isWhiteSpace).reverse

/-- The `while` loop of `parseSrtContent` (ImportText.js 18-21) on the input
from `lastIndex` on, with the running `parsedText`; `none` when the given
number of turns does not reach the end of the loop. -/
def parseSrtLoop : Nat → List Char → List Char → Option (List Char)
  | 0, _, _ => none
  | turns + 1, s, parsedText =>
    match execFrom s with
    | none => some parsedText
    | some (group4, rest) =>
        parseSrtLoop turns rest (parsedText ++ jsTrim group4 ++ ['\n', '\n'])

/-- Source: `parseSrtContent` (ImportText.js 11-24).  Every match consumes at
least one character, so the loop makes at most `length + 1` turns. -/
def parseSrtContent (srtContent : String) : Option String :=
  (parseSrtLoop (srtContent.length + 1) srtContent.data []).map fun parsedText =>
    String.mk (jsTrim parsedText)

/-- The call `split('\n\n')`, with the piece being collected (reversed). -/
def splitBlankLines : List Char → List Char → List (List Char)
  | [], piece => [piece.reverse]
  | [c], piece => [(c :: piece).reverse]
  | c :: d :: rest, piece =>
    if c = '\n' ∧ d = '\n' then piece.reverse :: splitBlankLines rest []
    else splitBlankLines (d :: rest) (c :: piece)

/-- One element of the state `subtitles` of `SubtitleEditor`. -/
structure Subtitle where
  /-- The two parts of the id: `Date.now()` and the index. -/
  id : Nat × Nat
  text : String
  /-- Position in `imageList` of the image given to the subtitle. -/
  image : Nat
  deriving DecidableEq

/-- Source: the effect of `SubtitleEditor` (SubtitleEditor.js 23-34): the new
state `subtitles`; the old state is kept for an empty `subtitleText`. -/
def subtitlesOf (now imageCount : Nat) (previous : List Subtitle) (subtitleText : String) :
    List Subtitle :=
  if subtitleText ≠ "" then
    let paragraphs := (splitBlankLines subtitleText.data []).filter fun p => jsTrim p ≠ []
    paragraphs.enum.map fun x =>
      { id := (now, x.1), text := String.mk (jsTrim x.2), image := x.1 % imageCount }
  else previous

/-- What `\r?\n` leaves of the input, when it matches at its start. -/
def stripLineBreak : List Char → Option (List Char)
  | [] => none
  | c :: cs =>
    if c = '\n' then some cs
    else if c = '\r' then
      match cs with
      | [] => none
      | d :: ds => if d = '\n' then some ds else none
    else none

/-- The shape `HH:MM:SS,mmm` of a time stamp. -/
def isTimestamp : List Char → Bool
  | [a, b, p, c, d, q, e, f, r, g, h, i] =>
      isDigit a && isDigit b && decide (p = ':') && isDigit c && isDigit d && decide (q = ':')
        && isDigit e && isDigit f && decide (r = ',') && isDigit g && isDigit h && isDigit i
  | _ => false

/-- A cue of an SRT document. -/
structure Cue where
  number : List Char
  startTime : List Char
  endTime : List Char
  text : List Char

/-- The cue as written in the document: number, new line, the two time stamps
around ` --> `, new line, text. -/
def Cue.render (c : Cue) : List Char :=
  c.number ++ '\n' :: (c.startTime ++ (' ' :: '-' :: '-' :: '>' :: ' ' ::
    (c.endTime ++ '\n' :: c.text)))

/-- The cue has the form the SRT format asks for: a number of one or more
digits, two time stamps `HH:MM:SS,mmm`, and a text that is not empty, has no
blank line (neither an empty line nor a line holding a carriage return only)
and neither starts nor ends with white space. -/
def Cue.WellFormed (c : Cue) : Prop :=
  c.number ≠ [] ∧ (∀ x ∈ c.number, isDigit x = true)
    ∧ isTimestamp c.startTime = true ∧ isTimestamp c.endTime = true
    ∧ c.text ≠ []
    ∧ ¬ ['\n', '\n'] <:+: c.text ∧ ¬ ['\n', '\r', '\n'] <:+: c.text
    ∧ (∀ x, c.text.head? = some x → isWhiteSpace x = false)
    ∧ (∀ x, c.text.getLast? = some x → isWhiteSpace x = false)

/-- The pieces joined by one blank line (`\n\n`). -/
def joinBlank : List (List Char) → List Char
  | [] => []
  | [x] => x
  | x :: y :: rest => x ++ '\n' :: '\n' :: joinBlank (y :: rest)

/-- An SRT document: the cues separated by one blank line. -/
def renderCues (cues : List Cue) : List Char :=
  joinBlank (cues.map Cue.render)

/-- A two-cue document; the first text has two lines. -/
def sampleCues : List Cue :=
  [{ number := "1".data, startTime := "00:00:01,000".data, endTime := "00:00:02,000".data
     text := "Hello\nthere".data },
   { number := "2".data, startTime := "00:00:02,000".data, endTime := "00:00:03,500".data
     text := "World".data }]

/-- The binary64 value of the literal `1.1`. -/
def binary64OnePointOne : ℚ := 2476979795053773 / 2251799813685248

/-- One segment of 1.0 s; the backend's `combined.wav` is probed at 1.1 s. -/
def oneSecondEnv : Env :=
  { emptyEnv with
    existsSync := fun p => p == "s1.wav" || p == "combined.wav"
    getAudioDurationInSeconds := fun p =>
      if p == "s1.wav" then .ok (.num 1)
      else if p == "combined.wav" then .ok (.num binary64OnePointOne)
      else .error (mkError "No duration found!")
    postCombineAudioSegments := fun _ => .ok { full_path := "combined.wav", extra := [] } }

end Clone

/-! ## Theorems -/

namespace Clone

/-! ### Binary64 rounding -/

theorem roundHalfEven_cases (y : ℚ) : roundHalfEven y = ⌊y⌋ ∨ roundHalfEven y = ⌊y⌋ + 1 := by
  unfold roundHalfEven
  split_ifs <;> simp

theorem roundHalfEven_intCast (n : ℤ) : roundHalfEven (n : ℚ) = n := by
  unfold roundHalfEven
  simp

theorem abs_roundHalfEven_sub_le (y : ℚ) : |(roundHalfEven y : ℚ) - y| ≤ 1 / 2 := by
  have h1 := Int.floor_le y
  have h2 := Int.lt_floor_add_one y
  unfold roundHalfEven
  rw [abs_le]
  split_ifs with ha hb hc
  · constructor <;> linarith
  · push_cast
    constructor <;> linarith
  · constructor <;> linarith
  · push_cast
    constructor <;> linarith

theorem le_roundHalfEven (n : ℤ) (y : ℚ) (h : (n : ℚ) ≤ y) : n ≤ roundHalfEven y := by
  have hfloor : n ≤ ⌊y⌋ := Int.le_floor.mpr h
  rcases roundHalfEven_cases y with h1 | h1 <;> omega

theorem log_two_eq (x : ℚ) (e : ℤ) (hlo : (2 : ℚ) ^ e ≤ x) (hhi : x < 2 ^ (e + 1)) :
    Int.log 2 x = e := by
  have hx : 0 < x := lt_of_lt_of_le (by positivity) hlo
  have h1 : e ≤ Int.log 2 x := by
    have := (Int.zpow_le_iff_le_log (b := 2) (by norm_num) hx (x := e)).mp (by exact_mod_cast hlo)
    exact this
  have h2 : Int.log 2 x < e + 1 := by
    have := (Int.lt_zpow_iff_log_lt (b := 2) (by norm_num) hx (x := e + 1)).mp
      (by exact_mod_cast hhi)
    exact this
  omega

theorem zpow_log_le (x : ℚ) (hx : 0 < x) : (2 : ℚ) ^ Int.log 2 x ≤ x := by
  have := Int.zpow_log_le_self (b := 2) (by norm_num) hx
  exact_mod_cast this

theorem lt_zpow_log_succ (x : ℚ) : x < (2 : ℚ) ^ (Int.log 2 x + 1) := by
  have := Int.lt_zpow_succ_log_self (b := 2) (by norm_num) x
  exact_mod_cast this


theorem quantumExponent_ge (x : ℚ) : -1074 ≤ quantumExponent x := by
  unfold quantumExponent
  have := le_max_right (Int.log 2 x) (-1022)
  omega

theorem quantumExponent_of_binade (x : ℚ) (e : ℤ) (hlo : (2 : ℚ) ^ e ≤ x) (hhi : x < 2 ^ (e + 1))
    (he : -1022 ≤ e) : quantumExponent x = e - 52 := by
  unfold quantumExponent
  rw [log_two_eq x e hlo hhi, max_eq_left he]

theorem quantumExponent_le (x : ℚ) (E : ℤ) (hx : 0 < x) (hE : x < (2 : ℚ) ^ E) (h : -1021 ≤ E) :
    quantumExponent x ≤ E - 53 := by
  unfold quantumExponent
  have hlog : Int.log 2 x < E := by
    have := (Int.lt_zpow_iff_log_lt (b := 2) (by norm_num) hx (x := E)).mp (by exact_mod_cast hE)
    exact this
  have := max_le (show Int.log 2 x ≤ E - 1 by omega) (show (-1022 : ℤ) ≤ E - 1 by omega)
  omega

theorem quantumExponent_cases (x : ℚ) (hx : 0 < x) :
    (2 : ℚ) ^ (quantumExponent x + 52) ≤ x ∨ quantumExponent x = -1074 := by
  unfold quantumExponent
  rcases le_total (Int.log 2 x) (-1022) with h | h
  · right
    rw [max_eq_right h]
    norm_num
  · left
    rw [max_eq_left h]
    have := zpow_log_le x hx
    simpa using this

theorem roundMagnitude_zero : roundMagnitude 0 = 0 := by
  unfold roundMagnitude
  rw [zero_div]
  have := roundHalfEven_intCast 0
  simp only [Int.cast_zero] at this
  rw [this]
  simp

theorem roundBinary64_of_nonneg (x : ℚ) (hx : 0 ≤ x) : roundBinary64 x = roundMagnitude x := by
  unfold roundBinary64
  rw [if_pos hx]

theorem roundBinary64_neg (x : ℚ) : roundBinary64 (-x) = -roundBinary64 x := by
  unfold roundBinary64
  rcases lt_trichotomy x 0 with h | h | h
  · rw [if_pos (by linarith), if_neg (by linarith)]
    simp
  · subst h
    simp [roundMagnitude_zero]
  · rw [if_neg (by linarith), if_pos (by linarith)]
    simp

theorem roundMagnitude_eq (x : ℚ) (e n : ℤ) (hlo : (2 : ℚ) ^ e ≤ x) (hhi : x < 2 ^ (e + 1))
    (he : -1022 ≤ e) (hn : roundHalfEven (x / 2 ^ (e - 52)) = n) :
    roundMagnitude x = n * 2 ^ (e - 52) := by
  unfold roundMagnitude
  rw [quantumExponent_of_binade x e hlo hhi he, hn]

theorem roundBinary64_eq (x : ℚ) (e n : ℤ) (hlo : (2 : ℚ) ^ e ≤ x) (hhi : x < 2 ^ (e + 1))
    (he : -1022 ≤ e) (hn : roundHalfEven (x / 2 ^ (e - 52)) = n) :
    roundBinary64 x = n * 2 ^ (e - 52) := by
  have hx : 0 ≤ x := le_trans (by positivity) hlo
  rw [roundBinary64_of_nonneg x hx, roundMagnitude_eq x e n hlo hhi he hn]

theorem roundMagnitude_sub (x : ℚ) :
    roundMagnitude x - x =
      ((roundHalfEven (x / 2 ^ quantumExponent x) : ℚ) - x / 2 ^ quantumExponent x)
        * 2 ^ quantumExponent x := by
  unfold roundMagnitude
  have h : (2 : ℚ) ^ quantumExponent x ≠ 0 := by positivity
  field_simp

theorem abs_roundMagnitude_sub_le (x : ℚ) (E : ℤ) (hx : 0 ≤ x) (hE : x < (2 : ℚ) ^ E)
    (h : -1021 ≤ E) : |roundMagnitude x - x| ≤ 2 ^ (E - 54) := by
  rcases eq_or_lt_of_le hx with h0 | hpos
  · subst h0
    rw [roundMagnitude_zero]
    simp only [sub_zero, abs_zero]
    positivity
  · rw [roundMagnitude_sub, abs_mul, abs_of_pos (show (0 : ℚ) < 2 ^ quantumExponent x by positivity)]
    have hq := quantumExponent_le x E hpos hE h
    have hpow : (2 : ℚ) ^ quantumExponent x ≤ 2 ^ (E - 53) :=
      zpow_le_zpow_right₀ (by norm_num) hq
    have herr := abs_roundHalfEven_sub_le (x / 2 ^ quantumExponent x)
    have h54 : (2 : ℚ) ^ (E - 54) = 1 / 2 * 2 ^ (E - 53) := by
      rw [show E - 53 = (E - 54) + 1 by ring, zpow_add_one₀ (by norm_num)]
      ring
    rw [h54]
    exact mul_le_mul herr hpow (by positivity) (by norm_num)

theorem abs_roundBinary64_sub_le (x : ℚ) (E : ℤ) (hx : 0 ≤ x) (hE : x < (2 : ℚ) ^ E)
    (h : -1021 ≤ E) : |roundBinary64 x - x| ≤ 2 ^ (E - 54) := by
  rw [roundBinary64_of_nonneg x hx]
  exact abs_roundMagnitude_sub_le x E hx hE h

theorem roundBinary64_nonneg (x : ℚ) (hx : 0 ≤ x) : 0 ≤ roundBinary64 x := by
  rw [roundBinary64_of_nonneg x hx]
  unfold roundMagnitude
  have : (0 : ℤ) ≤ roundHalfEven (x / 2 ^ quantumExponent x) :=
    le_roundHalfEven 0 _ (by
      simp only [Int.cast_zero]
      positivity)
  have h2 : (0 : ℚ) ≤ (roundHalfEven (x / 2 ^ quantumExponent x) : ℚ) := by exact_mod_cast this
  positivity

theorem zpow_le_roundBinary64 (x : ℚ) (e : ℤ) (he : -1074 ≤ e) (hlo : (2 : ℚ) ^ e ≤ x) :
    (2 : ℚ) ^ e ≤ roundBinary64 x := by
  have hpos : 0 < x := lt_of_lt_of_le (by positivity) hlo
  rw [roundBinary64_of_nonneg x hpos.le]
  unfold roundMagnitude
  have hq0 : (0 : ℚ) < 2 ^ quantumExponent x := by positivity
  rcases le_or_lt (quantumExponent x) e with hqe | hqe
  · obtain ⟨k, hk⟩ := Int.eq_ofNat_of_zero_le (show 0 ≤ e - quantumExponent x by omega)
    have hsplit : (2 : ℚ) ^ e = ((2 ^ k : ℤ) : ℚ) * 2 ^ quantumExponent x := by
      rw [show e = (k : ℤ) + quantumExponent x by omega, zpow_add₀ (by norm_num), zpow_natCast]
      push_cast
      rfl
    have hy : (((2 : ℤ) ^ k : ℤ) : ℚ) ≤ x / 2 ^ quantumExponent x := by
      rw [le_div_iff₀ hq0, ← hsplit]
      exact hlo
    have := le_roundHalfEven _ _ hy
    have hcast : (((2 : ℤ) ^ k : ℤ) : ℚ) ≤ (roundHalfEven (x / 2 ^ quantumExponent x) : ℚ) := by
      exact_mod_cast this
    rw [hsplit]
    exact mul_le_mul_of_nonneg_right hcast hq0.le
  · rcases quantumExponent_cases x hpos with hc | hc
    · have hy : ((1 : ℤ) : ℚ) ≤ x / 2 ^ quantumExponent x := by
        rw [le_div_iff₀ hq0]
        simp only [Int.cast_one, one_mul]
        refine le_trans ?_ hc
        exact zpow_le_zpow_right₀ (by norm_num) (by omega)
      have := le_roundHalfEven _ _ hy
      have hcast : (1 : ℚ) ≤ (roundHalfEven (x / 2 ^ quantumExponent x) : ℚ) := by
        exact_mod_cast this
      have h1 : (2 : ℚ) ^ e ≤ 2 ^ quantumExponent x := zpow_le_zpow_right₀ (by norm_num) hqe.le
      calc (2 : ℚ) ^ e ≤ 1 * 2 ^ quantumExponent x := by simpa using h1
        _ ≤ _ := mul_le_mul_of_nonneg_right hcast hq0.le
    · omega

theorem roundBinary64_lt_zpow (x : ℚ) (e : ℤ) (he : -1074 ≤ e)
    (h : roundBinary64 x < (2 : ℚ) ^ e) : x < 2 ^ e := by
  by_contra hc
  exact absurd (zpow_le_roundBinary64 x e he (not_lt.mp hc)) (not_le.mpr h)

theorem roundBinary64_representable (m k : ℤ) (hm : |m| < 2 ^ 53) (hk : -1074 ≤ k) :
    roundBinary64 ((m : ℚ) * 2 ^ k) = (m : ℚ) * 2 ^ k := by
  have key : ∀ n : ℤ, 0 < n → n < 2 ^ 53 →
      roundMagnitude ((n : ℚ) * 2 ^ k) = (n : ℚ) * 2 ^ k := by
    intro n hn0 hn
    have hx : (0 : ℚ) < (n : ℚ) * 2 ^ k := by
      have : (0 : ℚ) < n := by exact_mod_cast hn0
      positivity
    have hq0 : (0 : ℚ) < 2 ^ quantumExponent ((n : ℚ) * 2 ^ k) := by positivity
    have hqk : quantumExponent ((n : ℚ) * 2 ^ k) ≤ k := by
      rcases quantumExponent_cases _ hx with hc | hc
      · have hlt : (n : ℚ) * 2 ^ k < 2 ^ (53 + k) := by
          rw [zpow_add₀ (by norm_num)]
          have : (n : ℚ) < 2 ^ (53 : ℤ) := by
            have h2 : ((2 ^ 53 : ℤ) : ℚ) = 2 ^ (53 : ℤ) := by norm_num
            rw [← h2]
            exact_mod_cast hn
          exact mul_lt_mul_of_pos_right this (by positivity)
        have := lt_of_le_of_lt hc hlt
        have := (zpow_lt_zpow_iff_right₀ (show (1 : ℚ) < 2 by norm_num)).mp this
        omega
      · omega
    obtain ⟨j, hj⟩ := Int.eq_ofNat_of_zero_le
      (show 0 ≤ k - quantumExponent ((n : ℚ) * 2 ^ k) by omega)
    have hsplit : (2 : ℚ) ^ k = ((2 ^ j : ℤ) : ℚ) * 2 ^ quantumExponent ((n : ℚ) * 2 ^ k) := by
      have hk2 : k = (j : ℤ) + quantumExponent ((n : ℚ) * 2 ^ k) := by omega
      conv_lhs => rw [hk2]
      rw [zpow_add₀ (by norm_num), zpow_natCast]
      push_cast
      rfl
    have hy : (n : ℚ) * 2 ^ k / 2 ^ quantumExponent ((n : ℚ) * 2 ^ k) = ((n * 2 ^ j : ℤ) : ℚ) := by
      rw [div_eq_iff hq0.ne.symm]
      conv_lhs => rw [hsplit]
      push_cast
      ring
    unfold roundMagnitude
    rw [hy, roundHalfEven_intCast]
    conv_rhs => rw [hsplit]
    push_cast
    ring
  rcases lt_trichotomy m 0 with h | h | h
  · have hneg : (m : ℚ) * 2 ^ k = -(((-m : ℤ) : ℚ) * 2 ^ k) := by
      push_cast
      ring
    rw [hneg, roundBinary64_neg, roundBinary64_of_nonneg]
    · rw [key (-m) (by omega) (by
        have := abs_lt.mp hm
        omega)]
    · have : (0 : ℚ) < ((-m : ℤ) : ℚ) := by exact_mod_cast (show (0 : ℤ) < -m by omega)
      positivity
  · subst h
    simp [roundBinary64_of_nonneg, roundMagnitude_zero]
  · rw [roundBinary64_of_nonneg]
    · exact key m h (abs_lt.mp hm).2
    · have : (0 : ℚ) < (m : ℚ) := by exact_mod_cast h
      positivity

theorem roundHalfEven_of_abs_lt (y : ℚ) (n : ℤ) (h : |y - n| < 1 / 2) : roundHalfEven y = n := by
  have habs := abs_lt.mp h
  have h1 := Int.floor_le y
  have h2 := Int.lt_floor_add_one y
  rcases le_or_lt (n : ℚ) y with hny | hny
  · have hfloor : ⌊y⌋ = n := by
      rw [Int.floor_eq_iff]
      constructor
      · exact hny
      · linarith [habs.2]
    unfold roundHalfEven
    rw [hfloor, if_pos (by linarith [habs.2])]
  · have hfloor : ⌊y⌋ = n - 1 := by
      rw [Int.floor_eq_iff]
      push_cast
      constructor
      · linarith [habs.1]
      · linarith
    unfold roundHalfEven
    rw [hfloor]
    push_cast
    rw [if_neg (by linarith [habs.1]), if_pos (by linarith [habs.1])]
    ring

theorem roundHalfEven_half_odd (n : ℤ) (hn : n % 2 = 1) :
    roundHalfEven ((n : ℚ) + 1 / 2) = n + 1 := by
  have hfloor : ⌊(n : ℚ) + 1 / 2⌋ = n := by
    rw [Int.floor_eq_iff]
    constructor <;> linarith
  unfold roundHalfEven
  rw [hfloor, if_neg (by norm_num), if_neg (by norm_num), if_neg (by omega)]

theorem roundHalfEven_half_even (n : ℤ) (hn : n % 2 = 0) :
    roundHalfEven ((n : ℚ) + 1 / 2) = n := by
  have hfloor : ⌊(n : ℚ) + 1 / 2⌋ = n := by
    rw [Int.floor_eq_iff]
    constructor <;> linarith
  unfold roundHalfEven
  rw [hfloor, if_neg (by norm_num), if_neg (by norm_num), if_pos hn]

/-- The literal `0.1` is the binary64 value `3602879701896397 / 2^55`. -/
theorem roundBinary64_tenth :
    roundBinary64 (1 / 10) = 3602879701896397 / 36028797018963968 := by
  rw [roundBinary64_eq (1 / 10) (-4) 7205759403792794 (by norm_num) (by norm_num) (by norm_num)
    (roundHalfEven_of_abs_lt _ _ (by
      rw [abs_lt]
      constructor <;> norm_num))]
  norm_num

theorem handleError_isError (env : Env) (error : JsError) (headers : List (String × JsValue)) :
    (handleError env error headers).isError = true := by
  unfold handleError
  cases error.response <;> rfl

theorem handleError_local (env : Env) (message : String) (headers : List (String × JsValue)) :
    handleError env (mkError message) headers =
      { status := 500, headers := headers,
        body := .errorObj (.string message) 500 env.timestamp } := rfl

/-- C1: a `/generate-audio` request with an uploaded file and non-empty texts
whose backend call succeeds, and whose artifact is probed at less than 0.1 s,
is answered with the error object (status 500, validation message) and not
with a success payload, for all texts. -/
theorem generateAudio_short_artifact_rejected (env : Env) (req : GenerateRequest)
    (file : UploadedFile) (data : BackendData) (q : ℚ)
    (hfile : req.file = some file)
    (href : fieldTruthy req.ref_text = true)
    (hgen : fieldTruthy req.gen_text = true)
    (hpost : env.postGenerateAudio (req.form file) = .ok data)
    (hprobe : env.getAudioDurationInSeconds data.full_path = .ok (.num q))
    (hshort : q < 1 / 10) :
    (generateAudio env req).response =
        { status := 500, headers := [],
          body := .errorObj
            (.string ("Generated audio validation failed. Duration: "
              ++ env.showNum (.num q) ++ " seconds")) 500 env.timestamp }
      ∧ (generateAudio env req).response.isError = true := by
  have hnot : ¬ (1 / 10 : ℚ) ≤ q := not_le.mpr hshort
  have hv : validateAudioDuration env data.full_path =
      (false, [.console .log ("Audio duration: " ++ env.showNum (.num q) ++ " seconds")]) := by
    simp only [validateAudioDuration, hprobe, JsNum.ge, decide_eq_false hnot]
  have hrun : (generateAudioTry env req).2 =
      .error (mkError ("Generated audio validation failed. Duration: "
              ++ env.showNum (.num q) ++ " seconds")) := by
    simp [generateAudioTry, hfile, href, hgen, hpost, hv, hprobe]
  unfold generateAudio
  simp only [hrun]
  exact ⟨rfl, rfl⟩

theorem generateAudio_short_artifact_rejected_witness :
    (generateAudio shortArtifactEnv sampleGenerateRequest).response.isError = true :=
  (generateAudio_short_artifact_rejected shortArtifactEnv sampleGenerateRequest
    { path := "uploads/ref" } { full_path := "out.wav", extra := [] } (1 / 20)
    rfl rfl rfl rfl rfl (by norm_num)).2

/-- C2: `validateAudioDuration` answers true exactly when the probe succeeds
with a duration of at least 0.1 s; there is no upper bound, a duration below
0.1 s gives false, and a probe failure gives false (the function returns in
every case). -/
theorem validateAudioDuration_spec (env : Env) (filePath : Path) :
    ((validateAudioDuration env filePath).1 = true ↔
        ∃ q : ℚ, env.getAudioDurationInSeconds filePath = .ok (.num q) ∧ 1 / 10 ≤ q)
      ∧ (∀ q : ℚ, env.getAudioDurationInSeconds filePath = .ok (.num q) → 1 / 10 ≤ q →
          (validateAudioDuration env filePath).1 = true)
      ∧ (∀ q : ℚ, env.getAudioDurationInSeconds filePath = .ok (.num q) → q < 1 / 10 →
          (validateAudioDuration env filePath).1 = false)
      ∧ (∀ e : JsError, env.getAudioDurationInSeconds filePath = .error e →
          (validateAudioDuration env filePath).1 = false) := by
  unfold validateAudioDuration
  cases hp : env.getAudioDurationInSeconds filePath with
  | error e => simp
  | ok d =>
    cases d with
    | nan => simp [JsNum.ge]
    | num r =>
      refine ⟨?_, ?_, ?_, ?_⟩
      · simp [JsNum.ge]
      · intro q hq hle
        cases hq
        simpa [JsNum.ge] using hle
      · intro q hq hlt
        cases hq
        simpa [JsNum.ge] using hlt
      · intro e he
        cases he

theorem validateAudioDuration_spec_witness :
    (validateAudioDuration longArtifactEnv "long.wav").1 = true :=
  (validateAudioDuration_spec longArtifactEnv "long.wav").2.1 3600 rfl (by norm_num)

theorem fieldTruthy_of_missingOrEmpty (v : Option String) (h : fieldMissingOrEmpty v) :
    fieldTruthy v = false := by
  rcases h with h | h <;> subst h <;> rfl

theorem backendCalls_append (xs ys : List Effect) :
    backendCalls (xs ++ ys) = backendCalls xs ++ backendCalls ys := by
  simp [backendCalls, List.filterMap_append]

theorem backendCalls_generateAudioFinally (env : Env) (p : Option Path) :
    backendCalls (generateAudioFinally env p) = [] := by
  unfold generateAudioFinally
  cases p with
  | none => rfl
  | some p =>
    simp only
    split
    · cases env.unlinkError p <;> rfl
    · rfl

/-- C3: a `/generate-audio` request whose reference text or generation text is
missing or empty is answered with the error object (status 500) and issues no
backend call; when a file was uploaded the message is the one of the text
check. -/
theorem generateAudio_missing_text_rejected (env : Env) (req : GenerateRequest)
    (h : fieldMissingOrEmpty req.ref_text ∨ fieldMissingOrEmpty req.gen_text) :
    (generateAudio env req).response.isError = true
      ∧ (generateAudio env req).response.status = 500
      ∧ backendCalls (generateAudio env req).effects = []
      ∧ (∀ file, req.file = some file →
          (generateAudio env req).response =
            localErrorAnswer env "Reference text and generation text are required") := by
  have hcond : (!fieldTruthy req.ref_text || !fieldTruthy req.gen_text) = true := by
    rcases h with h | h
    · simp [fieldTruthy_of_missingOrEmpty _ h]
    · simp [fieldTruthy_of_missingOrEmpty _ h]
  cases hfile : req.file with
  | none =>
    have hrun : generateAudioTry env req =
        ([.console .log "🔵 Processing audio generation request"],
          .error (mkError "No reference audio file uploaded")) := by
      simp [generateAudioTry, hfile]
    unfold generateAudio
    simp only [hrun, hfile]
    refine ⟨rfl, rfl, ?_, ?_⟩
    · rfl
    · intro file hf
      cases hf
  | some file =>
    have hrun : generateAudioTry env req =
        ([.console .log "🔵 Processing audio generation request"],
          .error (mkError "Reference text and generation text are required")) := by
      simp only [generateAudioTry, hfile, hcond, if_true]
    unfold generateAudio
    simp only [hrun, hfile]
    refine ⟨rfl, rfl, ?_, ?_⟩
    · simp only [backendCalls_append, backendCalls_generateAudioFinally]
      rfl
    · intro _ _
      rfl

theorem generateAudio_missing_text_rejected_witness :
    backendCalls (generateAudio shortArtifactEnv noGenTextRequest).effects = [] :=
  (generateAudio_missing_text_rejected shortArtifactEnv noGenTextRequest
    (Or.inr (Or.inr rfl))).2.2.1

theorem validPaths_none_of_invalid (paths : JsValue)
    (h : paths = .array [] ∨ paths.isArray = false) : validPaths paths = none := by
  rcases h with h | h
  · subst h
    rfl
  · unfold validPaths
    simp [h]

/-- C4: with an empty path list, or with `paths` missing or not an array,
`/combine-audio`, `/generate-combined-srt` and `/generate-all-srt` each answer
with the error object (status 500, message of the guard) and issue no backend
call. -/
theorem empty_paths_rejected (env : Env) (req : PathsRequest)
    (h : req.paths = .array [] ∨ req.paths.isArray = false) :
    ((combineAudio env req).response =
          localErrorAnswer env "Valid array of audio paths is required"
        ∧ backendCalls (combineAudio env req).effects = [])
      ∧ ((generateCombinedSrt env req).response =
          localErrorAnswer env "Valid array of audio paths is required"
        ∧ backendCalls (generateCombinedSrt env req).effects = [])
      ∧ ((generateAllSrt env req).response =
          localErrorAnswer env "Valid array of audio paths is required"
        ∧ backendCalls (generateAllSrt env req).effects = []) := by
  have hv := validPaths_none_of_invalid req.paths h
  refine ⟨?_, ?_, ?_⟩
  · simp only [combineAudio, combineAudioTry, hv]
    exact ⟨rfl, rfl⟩
  · simp only [generateCombinedSrt, generateCombinedSrtTry, hv]
    exact ⟨rfl, rfl⟩
  · simp only [generateAllSrt, hv]
    exact ⟨rfl, rfl⟩

theorem empty_paths_rejected_witness :
    (generateAllSrt oneFileEnv { paths := .array [] }).response =
      localErrorAnswer oneFileEnv "Valid array of audio paths is required" :=
  (empty_paths_rejected oneFileEnv { paths := .array [] } (Or.inl rfl)).2.2.1

/-- C10: a `/generate-srt` request whose `audioPath` is missing (falsy) or
does not exist on the file system is answered with the error object (status
500, message of the guard) and issues no call to the subtitle backend. -/
theorem generateSrt_missing_path_rejected (env : Env) (req : SrtRequest)
    (h : req.audioPath.truthy = false ∨ existsSyncValue env req.audioPath = false) :
    (generateSrt env req).response = localErrorAnswer env "Valid audio path is required"
      ∧ backendCalls (generateSrt env req).effects = [] := by
  have hcond : (!req.audioPath.truthy || !existsSyncValue env req.audioPath) = true := by
    rcases h with h | h <;> simp [h]
  have hrun : generateSrtTry env req =
      ([], [], .error (mkError "Valid audio path is required")) := by
    simp only [generateSrtTry, hcond, if_true]
  simp only [generateSrt, hrun]
  exact ⟨rfl, rfl⟩

theorem generateSrt_missing_path_rejected_witness :
    (generateSrt oneFileEnv { audioPath := .string "b.wav" }).response =
      localErrorAnswer oneFileEnv "Valid audio path is required" :=
  (generateSrt_missing_path_rejected oneFileEnv { audioPath := .string "b.wav" }
    (Or.inr rfl)).1

theorem validPaths_array_of_ne_nil (paths : List Path) (h : paths ≠ []) :
    validPaths (.array paths) = some paths := by
  cases paths with
  | nil => exact absurd rfl h
  | cons p ps => rfl

theorem sumDurations_error_of_missing (env : Env) (paths : List Path)
    (h : ∃ p ∈ paths, env.existsSync p = false) (total : JsNum) :
    ∃ error, sumDurations env paths total = .error error := by
  induction paths generalizing total with
  | nil =>
    obtain ⟨p, hp, _⟩ := h
    simp at hp
  | cons a rest ih =>
    unfold sumDurations
    cases hex : env.existsSync a with
    | false => exact ⟨mkError ("Audio file not found: " ++ a), by simp⟩
    | true =>
      have hrest : ∃ p ∈ rest, env.existsSync p = false := by
        obtain ⟨p, hp, hq⟩ := h
        rcases List.mem_cons.mp hp with rfl | hp
        · rw [hex] at hq
          cases hq
        · exact ⟨p, hp, hq⟩
      cases hd : env.getAudioDurationInSeconds a with
      | error e => exact ⟨e, by simp⟩
      | ok d =>
        obtain ⟨e, he⟩ := ih hrest (total.add d)
        exact ⟨e, by simpa using he⟩

theorem sumDurations_first_missing (env : Env) (pre : List Path) (m : Path)
    (post : List Path)
    (hex : ∀ p ∈ pre, env.existsSync p = true)
    (hd : ∀ p ∈ pre, ∃ d, env.getAudioDurationInSeconds p = .ok d)
    (hm : env.existsSync m = false) (total : JsNum) :
    sumDurations env (pre ++ m :: post) total =
      .error (mkError ("Audio file not found: " ++ m)) := by
  induction pre generalizing total with
  | nil => simp [sumDurations, hm]
  | cons a rest ih =>
    obtain ⟨d, hda⟩ := hd a (List.mem_cons_self _ _)
    have hexa := hex a (List.mem_cons_self _ _)
    have := ih (fun p hp => hex p (List.mem_cons_of_mem _ hp))
      (fun p hp => hd p (List.mem_cons_of_mem _ hp)) (total.add d)
    simpa [sumDurations, hexa, hda] using this

theorem combineAudio_missing_error (env : Env) (paths : List Path)
    (hne : paths ≠ []) (error : JsError)
    (hsum : sumDurations env paths (.num 0) = .error error) :
    combineAudio env { paths := .array paths } =
      { response := handleError env error []
        effects := [.console .error ("🔴 Error combining audio: " ++ error.message)] } := by
  simp only [combineAudio, combineAudioTry, validPaths_array_of_ne_nil paths hne, hsum]
  rfl

/-- C5 (as stated, refuted): `notes.txt` exists but cannot be probed and
`gone.wav` does not exist; `/combine-audio` on both answers with the probe's
error, whose text contains no path of the list. -/
theorem combineAudio_missing_path_not_named :
    unreadableEnv.existsSync "gone.wav" = false
      ∧ (combineAudio unreadableEnv { paths := .array ["notes.txt", "gone.wav"] }).response =
          localErrorAnswer unreadableEnv "No duration found!"
      ∧ ¬ textMentions (.string "No duration found!") "gone.wav" := by
  refine ⟨rfl, rfl, ?_⟩
  unfold textMentions
  decide

/-- C5 (amended): on a non-empty path list with a path that does not exist,
`/combine-audio` answers with the error object and never calls the backend;
when the probe succeeds on every path before the first missing one, the answer
is status 500 with the message `Audio file not found: <that path>`. -/
theorem combineAudio_missing_path_rejected (env : Env) (paths : List Path)
    (hne : paths ≠ [])
    (hmiss : ∃ p ∈ paths, env.existsSync p = false) :
    (combineAudio env { paths := .array paths }).response.isError = true
      ∧ backendCalls (combineAudio env { paths := .array paths }).effects = []
      ∧ (∀ (pre : List Path) (m : Path) (post : List Path),
          paths = pre ++ m :: post →
          (∀ p ∈ pre, env.existsSync p = true) →
          (∀ p ∈ pre, ∃ d, env.getAudioDurationInSeconds p = .ok d) →
          env.existsSync m = false →
          (combineAudio env { paths := .array paths }).response =
            localErrorAnswer env ("Audio file not found: " ++ m)) := by
  obtain ⟨error, herr⟩ := sumDurations_error_of_missing env paths hmiss (.num 0)
  rw [combineAudio_missing_error env paths hne error herr]
  refine ⟨handleError_isError _ _ _, rfl, ?_⟩
  intro pre m post hsplit hex hd hm
  subst hsplit
  rw [sumDurations_first_missing env pre m post hex hd hm] at herr
  cases herr
  rfl

theorem combineAudio_missing_path_rejected_witness :
    (combineAudio oneFileEnv { paths := .array ["gone.wav", "a.wav"] }).response =
      localErrorAnswer oneFileEnv ("Audio file not found: " ++ "gone.wav") :=
  (combineAudio_missing_path_rejected oneFileEnv ["gone.wav", "a.wav"] (by simp)
    ⟨"gone.wav", by simp, rfl⟩).2.2 [] "gone.wav" ["a.wav"] rfl
    (by simp) (by simp) rfl

theorem threeSegments_exist : ∀ p ∈ threeSegments, threeSegmentsEnv.existsSync p = true := by
  intro p hp
  simp only [threeSegments, List.mem_cons, List.mem_singleton, List.not_mem_nil, or_false] at hp
  rcases hp with rfl | rfl | rfl <;> rfl

theorem threeSegments_probed :
    List.Forall₂ (fun p d => threeSegmentsEnv.getAudioDurationInSeconds p = .ok (.num d))
      threeSegments [2, 3 / 2, 3] :=
  .cons rfl (.cons rfl (.cons rfl .nil))

theorem srtDocuments_append (xs ys : List ArchiveEntry) :
    srtDocuments (xs ++ ys) = srtDocuments xs ++ srtDocuments ys := by
  simp [srtDocuments]

theorem srtDocuments_allSrtStep (env : Env) (i : Nat) (p : Path) :
    srtDocuments (allSrtStep env i p).1 =
      match env.postGenerateSrt p with
      | .ok data => [{ name := .srt (i + 1), data := data }]
      | .error _ => [] := by
  unfold allSrtStep
  cases env.postGenerateSrt p with
  | error e => rfl
  | ok data =>
    simp only
    split
    · cases env.readFileSync (metadataPathOf p) <;> rfl
    · rfl

theorem srtDocuments_allSrtLoop (env : Env) (paths : List Path) (i : Nat) :
    srtDocuments (allSrtLoop env i paths).1 =
      (List.range paths.length).filterMap (srtDocumentAt env paths i) := by
  induction paths generalizing i with
  | nil => rfl
  | cons p rest ih =>
    have hshift : (srtDocumentAt env (p :: rest) i) ∘ Nat.succ = srtDocumentAt env rest (i + 1) := by
      funext j
      simp only [Function.comp, srtDocumentAt, List.getElem?_cons_succ]
      have : i + j.succ + 1 = i + 1 + j + 1 := by omega
      rw [this]
    simp only [allSrtLoop, srtDocuments_append, srtDocuments_allSrtStep, ih, List.length_cons,
      List.range_succ_eq_map, List.filterMap_cons, List.filterMap_map, hshift]
    cases hpost : env.postGenerateSrt p with
    | error e => simp [srtDocumentAt, hpost]
    | ok data => simp [srtDocumentAt, hpost]

theorem filterMap_ite_eq_map_filter {α β : Type} (keep : α → Bool) (g : α → β) (l : List α) :
    l.filterMap (fun a => if keep a then some (g a) else none) = (l.filter keep).map g := by
  induction l with
  | nil => rfl
  | cons a l ih =>
    by_cases h : keep a = true
    · simp [List.filterMap_cons, List.filter_cons, h, ih]
    · simp [List.filterMap_cons, List.filter_cons, h, ih]

theorem length_range_filter_ne (K k : Nat) (hk : k < K) :
    ((List.range K).filter (· != k)).length = K - 1 := by
  rw [← List.Nodup.erase_eq_filter (List.nodup_range K) k,
    List.length_erase_of_mem (List.mem_range.mpr hk), List.length_range]

theorem finalize_mem_generateAllSrt (env : Env) (paths : List Path) (hne : paths ≠ []) :
    Effect.finalize ∈ (generateAllSrt env { paths := .array paths }).effects := by
  simp [generateAllSrt, validPaths_array_of_ne_nil paths hne]

theorem archiveEntries_generateAllSrt (env : Env) (paths : List Path) (hne : paths ≠ []) :
    (generateAllSrt env { paths := .array paths }).response.archiveEntries =
      (allSrtLoop env 0 paths).1 := by
  simp [generateAllSrt, validPaths_array_of_ne_nil paths hne, Response.archiveEntries]

/-- C8: on K >= 1 paths where the subtitle backend fails for exactly one
position `k` and answers the bytes `b i` at every other position `i`, the bulk
export is not aborted: the answer is the archive, it is finalized, and its
subtitle documents are exactly the K-1 entries `segment_<i+1>.srt` with data
`b i` for the positions `i` other than `k`, in order. -/
theorem generateAllSrt_one_failure (env : Env) (paths : List Path) (k : Nat)
    (b : Nat → Bytes)
    (hk : k < paths.length)
    (hfail : ∀ p, paths[k]? = some p → ∃ error, env.postGenerateSrt p = .error error)
    (hok : ∀ i p, paths[i]? = some p → i ≠ k → env.postGenerateSrt p = .ok (b i)) :
    (generateAllSrt env { paths := .array paths }).response.isArchive = true
      ∧ (generateAllSrt env { paths := .array paths }).response.isError = false
      ∧ Effect.finalize ∈ (generateAllSrt env { paths := .array paths }).effects
      ∧ srtDocuments (generateAllSrt env { paths := .array paths }).response.archiveEntries =
          ((List.range paths.length).filter (· != k)).map
            (fun i => { name := .srt (i + 1), data := b i })
      ∧ (srtDocuments
          (generateAllSrt env { paths := .array paths }).response.archiveEntries).length =
            paths.length - 1 := by
  have hne : paths ≠ [] := by
    intro h
    subst h
    simp at hk
  have hdocs : srtDocuments (generateAllSrt env { paths := .array paths }).response.archiveEntries =
      ((List.range paths.length).filter (· != k)).map
        (fun i => { name := .srt (i + 1), data := b i }) := by
    rw [archiveEntries_generateAllSrt env paths hne, srtDocuments_allSrtLoop,
      ← filterMap_ite_eq_map_filter]
    apply List.filterMap_congr
    intro j hj
    have hjlt : j < paths.length := List.mem_range.mp hj
    have hget : paths[j]? = some paths[j] := List.getElem?_eq_getElem hjlt
    by_cases hjk : j = k
    · subst hjk
      obtain ⟨error, herr⟩ := hfail _ hget
      simp [srtDocumentAt, hget, herr]
    · have := hok j _ hget hjk
      simp [srtDocumentAt, hget, this, hjk]
  refine ⟨?_, ?_, finalize_mem_generateAllSrt env paths hne, hdocs, ?_⟩
  · simp [generateAllSrt, validPaths_array_of_ne_nil paths hne, Response.isArchive]
  · simp [generateAllSrt, validPaths_array_of_ne_nil paths hne, Response.isError]
  · rw [hdocs, List.length_map, length_range_filter_ne _ _ hk]

theorem generateAllSrt_one_failure_witness :
    srtDocuments
        (generateAllSrt oneFailureEnv
          { paths := .array ["a.wav", "b.wav", "c.wav"] }).response.archiveEntries =
      [{ name := .srt 1, data := [1, 2, 3] }, { name := .srt 3, data := [1, 2, 3] }] :=
  (generateAllSrt_one_failure oneFailureEnv ["a.wav", "b.wav", "c.wav"] 1
    (fun _ => [1, 2, 3]) (by decide)
    (by
      intro p hp
      cases hp
      exact ⟨_, rfl⟩)
    (by
      intro i p hp hik
      match i, hp, hik with
      | 0, hp, _ => cases hp; rfl
      | 1, _, hik => exact absurd rfl hik
      | 2, hp, _ => cases hp; rfl
      | (n + 3), hp, _ => cases hp)).2.2.2.1

theorem allSrtStep_entries (env : Env) (i : Nat) (p : Path) :
    ∀ e ∈ (allSrtStep env i p).1,
      (∃ data, env.postGenerateSrt p = .ok data) ∧ e.name.segment = i + 1 := by
  intro e he
  unfold allSrtStep at he
  cases hpost : env.postGenerateSrt p with
  | error err =>
    rw [hpost] at he
    simp at he
  | ok data =>
    rw [hpost] at he
    refine ⟨⟨data, rfl⟩, ?_⟩
    simp only at he
    split at he
    · cases hread : env.readFileSync (metadataPathOf p) with
      | error err =>
        rw [hread] at he
        simp only [List.mem_singleton] at he
        subst he
        rfl
      | ok metadata =>
        rw [hread] at he
        simp only [List.mem_cons, List.mem_singleton, List.not_mem_nil, or_false] at he
        rcases he with rfl | rfl <;> rfl
    · simp only [List.mem_singleton] at he
      subst he
      rfl

theorem allSrtLoop_entries (env : Env) (paths : List Path) (i : Nat) :
    ∀ e ∈ (allSrtLoop env i paths).1,
      ∃ j p data, paths[j]? = some p ∧ env.postGenerateSrt p = .ok data
        ∧ e.name.segment = i + j + 1 := by
  induction paths generalizing i with
  | nil =>
    intro e he
    simp [allSrtLoop] at he
  | cons a rest ih =>
    intro e he
    simp only [allSrtLoop, List.mem_append] at he
    rcases he with he | he
    · obtain ⟨⟨data, hdata⟩, hseg⟩ := allSrtStep_entries env i a e he
      exact ⟨0, a, data, List.getElem?_cons_zero, hdata, by simpa using hseg⟩
    · obtain ⟨j, p, data, hj, hdata, hseg⟩ := ih (i + 1) e he
      refine ⟨j + 1, p, data, by simpa using hj, hdata, ?_⟩
      rw [hseg]
      omega

theorem allSrtLoop_failure_logged (env : Env) (paths : List Path) (i j : Nat) (p : Path)
    (error : JsError) (hp : paths[j]? = some p)
    (hfail : env.postGenerateSrt p = .error error) :
    Effect.console .error ("🔴 Error processing segment " ++ toString (i + j + 1) ++ ": "
        ++ error.message) ∈ (allSrtLoop env i paths).2 := by
  induction paths generalizing i j with
  | nil => simp at hp
  | cons a rest ih =>
    simp only [allSrtLoop, List.mem_append]
    cases j with
    | zero =>
      simp only [List.getElem?_cons_zero, Option.some.injEq] at hp
      subst hp
      left
      simp [allSrtStep, hfail]
    | succ j =>
      simp only [List.getElem?_cons_succ] at hp
      right
      have := ih (i + 1) j hp
      have hidx : i + 1 + j + 1 = i + (j + 1) + 1 := by omega
      rw [hidx] at this
      exact this

/-- C9 (as stated, refuted): the backend fails on `b.wav`, the second of two
paths; the archive produced holds the single entry `segment_1.srt` and nothing
for the failed position. -/
theorem generateAllSrt_no_failure_marker :
    oneFailureEnv.postGenerateSrt "b.wav" =
        .error (mkError "Request failed with status code 404")
      ∧ (generateAllSrt oneFailureEnv
          { paths := .array ["a.wav", "b.wav"] }).response.archiveEntries =
          [{ name := .srt 1, data := [1, 2, 3] }] :=
  ⟨rfl, rfl⟩

/-- C9 (amended): in bulk export, when the backend call for the path at
position `i` fails, the archive holds no entry at all for segment `i + 1`
(no document, no metadata, no marker); the failure is written to the console
as an error line naming segment `i + 1`, and the archive is still produced and
finalized. -/
theorem generateAllSrt_failure_only_logged (env : Env) (paths : List Path) (i : Nat)
    (p : Path) (error : JsError)
    (hp : paths[i]? = some p)
    (hfail : env.postGenerateSrt p = .error error) :
    (∀ e ∈ (generateAllSrt env { paths := .array paths }).response.archiveEntries,
        e.name.segment ≠ i + 1)
      ∧ Effect.console .error ("🔴 Error processing segment " ++ toString (i + 1) ++ ": "
          ++ error.message) ∈ (generateAllSrt env { paths := .array paths }).effects
      ∧ (generateAllSrt env { paths := .array paths }).response.isArchive = true
      ∧ Effect.finalize ∈ (generateAllSrt env { paths := .array paths }).effects := by
  have hne : paths ≠ [] := by
    intro h
    subst h
    simp at hp
  refine ⟨?_, ?_, ?_, finalize_mem_generateAllSrt env paths hne⟩
  · intro e he hseg
    rw [archiveEntries_generateAllSrt env paths hne] at he
    obtain ⟨j, q, data, hj, hdata, hsegj⟩ := allSrtLoop_entries env paths 0 e he
    have hji : j = i := by omega
    subst hji
    rw [hp] at hj
    cases hj
    rw [hfail] at hdata
    cases hdata
  · have := allSrtLoop_failure_logged env paths 0 i p error hp hfail
    rw [zero_add] at this
    simp only [generateAllSrt, validPaths_array_of_ne_nil paths hne, List.mem_append]
    exact Or.inl this
  · simp [generateAllSrt, validPaths_array_of_ne_nil paths hne, Response.isArchive]

theorem generateAllSrt_failure_only_logged_witness :
    Effect.console .error "🔴 Error processing segment 2: Request failed with status code 404" ∈
      (generateAllSrt oneFailureEnv { paths := .array ["a.wav", "b.wav"] }).effects :=
  (generateAllSrt_failure_only_logged oneFailureEnv ["a.wav", "b.wav"] 1 "b.wav"
    (mkError "Request failed with status code 404") rfl rfl).2.1

theorem sumDurations_ok_of_probed (env : Env) (paths : List Path)
    (hex : ∀ p ∈ paths, env.existsSync p = true)
    (hd : ∀ p ∈ paths, ∃ d, env.getAudioDurationInSeconds p = .ok d)
    (total : JsNum) :
    ∃ t, sumDurations env paths total = .ok t := by
  induction paths generalizing total with
  | nil => exact ⟨total, rfl⟩
  | cons a rest ih =>
    obtain ⟨d, hda⟩ := hd a (List.mem_cons_self _ _)
    have hexa := hex a (List.mem_cons_self _ _)
    obtain ⟨t, ht⟩ := ih (fun p hp => hex p (List.mem_cons_of_mem _ hp))
      (fun p hp => hd p (List.mem_cons_of_mem _ hp)) (total.add d)
    exact ⟨t, by simpa [sumDurations, hexa, hda] using ht⟩

theorem backendCalls_combineAudio_of_sum (env : Env) (paths : List Path)
    (hne : paths ≠ []) (t : JsNum)
    (hsum : sumDurations env paths (.num 0) = .ok t) :
    backendCalls (combineAudio env { paths := .array paths }).effects =
      [.combineAudioSegments paths] := by
  simp only [combineAudio, combineAudioTry, validPaths_array_of_ne_nil paths hne, hsum]
  cases env.postCombineAudioSegments paths with
  | error e => rfl
  | ok data =>
    simp only
    cases env.getAudioDurationInSeconds data.full_path with
    | error e => rfl
    | ok finalDuration =>
      simp only
      split <;> rfl

theorem checkPathsExist_none (env : Env) (paths : List Path)
    (hex : ∀ p ∈ paths, env.existsSync p = true) : checkPathsExist env paths = none := by
  induction paths with
  | nil => rfl
  | cons a rest ih =>
    have hexa := hex a (List.mem_cons_self _ _)
    simp [checkPathsExist, hexa, ih (fun p hp => hex p (List.mem_cons_of_mem _ hp))]

/-- C11 (as stated, refuted): `notes.txt` exists but the duration probe fails
on it; `/combine-audio` on the one-element list issues no backend call. -/
theorem combineAudio_existing_path_no_call :
    unreadableEnv.existsSync "notes.txt" = true
      ∧ backendCalls (combineAudio unreadableEnv { paths := .array ["notes.txt"] }).effects =
          [] :=
  ⟨rfl, rfl⟩

/-- C11 (amended): on a non-empty list of existing paths, `/generate-combined-srt`
issues exactly one backend call whose payload is the input list unchanged, and
so does `/combine-audio` whenever the duration probe succeeds on every path. -/
theorem combined_modes_single_backend_call (env : Env) (paths : List Path)
    (hne : paths ≠ [])
    (hex : ∀ p ∈ paths, env.existsSync p = true) :
    backendCalls (generateCombinedSrt env { paths := .array paths }).effects =
        [.generateCombinedSrt paths]
      ∧ ((∀ p ∈ paths, ∃ d, env.getAudioDurationInSeconds p = .ok d) →
          backendCalls (combineAudio env { paths := .array paths }).effects =
            [.combineAudioSegments paths]) := by
  constructor
  · simp only [generateCombinedSrt, generateCombinedSrtTry,
      validPaths_array_of_ne_nil paths hne, checkPathsExist_none env paths hex]
    cases env.postGenerateCombinedSrt paths <;> rfl
  · intro hd
    obtain ⟨t, ht⟩ := sumDurations_ok_of_probed env paths hex hd (.num 0)
    exact backendCalls_combineAudio_of_sum env paths hne t ht

theorem combined_modes_single_backend_call_witness :
    backendCalls (combineAudio threeSegmentsEnv { paths := .array threeSegments }).effects =
      [.combineAudioSegments threeSegments] :=
  (combined_modes_single_backend_call threeSegmentsEnv threeSegments
    (by simp [threeSegments]) threeSegments_exist).2
    (by
      intro p hp
      simp only [threeSegments, List.mem_cons, List.mem_singleton, List.not_mem_nil,
        or_false] at hp
      rcases hp with rfl | rfl | rfl
      · exact ⟨.num 2, rfl⟩
      · exact ⟨.num (3 / 2), rfl⟩
      · exact ⟨.num 3, rfl⟩)

theorem setHeader_ok (env : Env) (headers : List (String × JsValue)) (name : String)
    (value : JsValue) (hdef : value ≠ .undefined)
    (hchar : env.checkInvalidHeaderChar value = false) :
    setHeader env headers name value = .ok (headers ++ [(name, value)]) := by
  cases value <;> simp_all [setHeader]

theorem generateSrtTry_of_valid (env : Env) (p : Path) (data : Bytes)
    (hp : p ≠ "") (hex : env.existsSync p = true)
    (hpost : env.postGenerateSrt p = .ok data) :
    generateSrtTry env { audioPath := .string p } =
      match attachMetadata env p with
      | (headers, some error) => ([.post (.generateSrt p)], headers, .error error)
      | (headers, none) =>
        ([.post (.generateSrt p)],
          headers ++ [("Content-Type", .string "application/x-subrip"),
                      ("Content-Disposition", .string "attachment; filename=generated.srt")],
          .ok data) := by
  simp [generateSrtTry, JsValue.truthy, existsSyncValue, hp, hex, hpost]

theorem allSrtLoop_mem_of_step (env : Env) (paths : List Path) (i j : Nat) (p : Path)
    (e : ArchiveEntry) (hp : paths[j]? = some p)
    (he : e ∈ (allSrtStep env (i + j) p).1) :
    e ∈ (allSrtLoop env i paths).1 := by
  induction paths generalizing i j with
  | nil => simp at hp
  | cons a rest ih =>
    simp only [allSrtLoop, List.mem_append]
    cases j with
    | zero =>
      simp only [List.getElem?_cons_zero, Option.some.injEq] at hp
      subst hp
      exact Or.inl he
    | succ j =>
      simp only [List.getElem?_cons_succ] at hp
      have hidx : i + (j + 1) = i + 1 + j := by omega
      rw [hidx] at he
      exact Or.inr (ih (i + 1) j hp he)

theorem allSrtStep_srt_mem (env : Env) (i : Nat) (p : Path) (data : Bytes)
    (hpost : env.postGenerateSrt p = .ok data) :
    ({ name := .srt (i + 1), data := data } : ArchiveEntry) ∈ (allSrtStep env i p).1 := by
  unfold allSrtStep
  rw [hpost]
  simp only
  split
  · cases env.readFileSync (metadataPathOf p) <;> simp
  · simp

theorem allSrtStep_metadata_mem (env : Env) (i : Nat) (p : Path) (data metadata : Bytes)
    (hpost : env.postGenerateSrt p = .ok data)
    (hex : env.existsSync (metadataPathOf p) = true)
    (hread : env.readFileSync (metadataPathOf p) = .ok metadata) :
    ({ name := .metadata (i + 1), data := metadata } : ArchiveEntry) ∈
      (allSrtStep env i p).1 := by
  simp [allSrtStep, hpost, hex, hread]

theorem allSrtStep_srt_data (env : Env) (i : Nat) (p : Path) (e : ArchiveEntry)
    (he : e ∈ (allSrtStep env i p).1) (hsrt : e.name.isSrt = true) :
    env.postGenerateSrt p = .ok e.data := by
  unfold allSrtStep at he
  cases hpost : env.postGenerateSrt p with
  | error err =>
    rw [hpost] at he
    simp at he
  | ok data =>
    rw [hpost] at he
    simp only at he
    split at he
    · cases hread : env.readFileSync (metadataPathOf p) with
      | error err =>
        rw [hread] at he
        simp only [List.mem_singleton] at he
        subst he
        rfl
      | ok metadata =>
        rw [hread] at he
        simp only [List.mem_cons, List.mem_singleton, List.not_mem_nil, or_false] at he
        rcases he with rfl | rfl
        · rfl
        · cases hsrt
    · simp only [List.mem_singleton] at he
      subst he
      rfl

theorem allSrtLoop_srt_data (env : Env) (paths : List Path) (i : Nat) (e : ArchiveEntry)
    (he : e ∈ (allSrtLoop env i paths).1) (hsrt : e.name.isSrt = true) :
    ∃ j p, paths[j]? = some p ∧ e.name.segment = i + j + 1
      ∧ env.postGenerateSrt p = .ok e.data := by
  induction paths generalizing i with
  | nil => simp [allSrtLoop] at he
  | cons a rest ih =>
    simp only [allSrtLoop, List.mem_append] at he
    rcases he with he | he
    · exact ⟨0, a, List.getElem?_cons_zero, (allSrtStep_entries env i a e he).2,
        allSrtStep_srt_data env i a e he hsrt⟩
    · obtain ⟨j, p, hj, hseg, hdata⟩ := ih (i + 1) he
      refine ⟨j + 1, p, by simpa using hj, ?_, hdata⟩
      rw [hseg]
      omega

/-- C12 (as stated, refuted): `a.wav` has the sidecar `a.json`, yet the answer
of `/generate-combined-srt` carries the document and the two download headers
only: no metadata is attached in combined mode. -/
theorem generateCombinedSrt_ignores_sidecar :
    sidecarEnv.existsSync (metadataPathOf "a.wav") = true
      ∧ (generateCombinedSrt sidecarEnv { paths := .array ["a.wav"] }).response =
          { status := 200
            headers := [("Content-Type", .string "application/x-subrip"),
                        ("Content-Disposition", .string "attachment; filename=combined.srt")]
            body := .bytes [7, 8] } :=
  ⟨rfl, rfl⟩

theorem attachMetadata_of_wellformed (env : Env) (p : Path) (content : Bytes)
    (metadata a s : JsValue)
    (hex : env.existsSync (metadataPathOf p) = true)
    (hread : env.readFileSync (metadataPathOf p) = .ok content)
    (hparse : env.jsonParse content = .ok metadata)
    (ha : metadata.getField "actual_duration" = .ok a)
    (hadef : a ≠ .undefined) (hachar : env.checkInvalidHeaderChar a = false)
    (hs : metadata.getField "scale_factor" = .ok s)
    (hsdef : s ≠ .undefined) (hschar : env.checkInvalidHeaderChar s = false) :
    attachMetadata env p =
      ([("X-Audio-Duration", a), ("X-Scale-Factor", s)], none) := by
  simp only [attachMetadata, hex, if_true, hread, hparse, ha, hs,
    setHeader_ok env [] "X-Audio-Duration" a hadef hachar,
    setHeader_ok env _ "X-Scale-Factor" s hsdef hschar]
  rfl

theorem attachMetadata_of_no_sidecar (env : Env) (p : Path)
    (hex : env.existsSync (metadataPathOf p) = false) :
    attachMetadata env p = ([], none) := by
  simp [attachMetadata, hex]

/-- C12 (amended): single mode attaches the sidecar as the headers
`X-Audio-Duration` and `X-Scale-Factor` when the sidecar exists, is readable
and parses to a value with both members usable as header values, and bulk mode
attaches a readable sidecar as the entry `segment_<i+1>_metadata.json`;
combined mode attaches no metadata.  In each of these cases the subtitle
document returned is exactly the backend's bytes, with or without sidecar. -/
theorem export_modes_metadata_and_content (env : Env) :
    (∀ (p : Path) (data content : Bytes) (metadata a s : JsValue),
        p ≠ "" → env.existsSync p = true → env.postGenerateSrt p = .ok data →
        env.existsSync (metadataPathOf p) = true →
        env.readFileSync (metadataPathOf p) = .ok content →
        env.jsonParse content = .ok metadata →
        metadata.getField "actual_duration" = .ok a →
        a ≠ .undefined → env.checkInvalidHeaderChar a = false →
        metadata.getField "scale_factor" = .ok s →
        s ≠ .undefined → env.checkInvalidHeaderChar s = false →
        (generateSrt env { audioPath := .string p }).response =
          { status := 200
            headers := [("X-Audio-Duration", a), ("X-Scale-Factor", s),
                        ("Content-Type", .string "application/x-subrip"),
                        ("Content-Disposition", .string "attachment; filename=generated.srt")]
            body := .bytes data })
      ∧ (∀ (p : Path) (data : Bytes),
          p ≠ "" → env.existsSync p = true → env.postGenerateSrt p = .ok data →
          env.existsSync (metadataPathOf p) = false →
          (generateSrt env { audioPath := .string p }).response =
            { status := 200
              headers := [("Content-Type", .string "application/x-subrip"),
                          ("Content-Disposition",
                            .string "attachment; filename=generated.srt")]
              body := .bytes data })
      ∧ (∀ (paths : List Path) (i : Nat) (p : Path) (data : Bytes),
          paths[i]? = some p → env.postGenerateSrt p = .ok data →
          ({ name := .srt (i + 1), data := data } : ArchiveEntry) ∈
              (generateAllSrt env { paths := .array paths }).response.archiveEntries
            ∧ (∀ e ∈ (generateAllSrt env { paths := .array paths }).response.archiveEntries,
                e.name = .srt (i + 1) → e.data = data)
            ∧ (∀ m : Bytes, env.existsSync (metadataPathOf p) = true →
                env.readFileSync (metadataPathOf p) = .ok m →
                ({ name := .metadata (i + 1), data := m } : ArchiveEntry) ∈
                  (generateAllSrt env { paths := .array paths }).response.archiveEntries))
      ∧ (∀ (paths : List Path) (data : Bytes),
          paths ≠ [] → (∀ p ∈ paths, env.existsSync p = true) →
          env.postGenerateCombinedSrt paths = .ok data →
          (generateCombinedSrt env { paths := .array paths }).response =
            { status := 200
              headers := [("Content-Type", .string "application/x-subrip"),
                          ("Content-Disposition",
                            .string "attachment; filename=combined.srt")]
              body := .bytes data }) := by
  refine ⟨?_, ?_, ?_, ?_⟩
  · intro p data content metadata a s hp hex hpost hside hread hparse ha hadef hachar hs
      hsdef hschar
    simp only [generateSrt, generateSrtTry_of_valid env p data hp hex hpost,
      attachMetadata_of_wellformed env p content metadata a s hside hread hparse ha hadef
        hachar hs hsdef hschar]
    rfl
  · intro p data hp hex hpost hside
    simp only [generateSrt, generateSrtTry_of_valid env p data hp hex hpost,
      attachMetadata_of_no_sidecar env p hside]
    rfl
  · intro paths i p data hget hpost
    have hne : paths ≠ [] := by
      intro h
      subst h
      simp at hget
    rw [archiveEntries_generateAllSrt env paths hne]
    refine ⟨?_, ?_, ?_⟩
    · exact allSrtLoop_mem_of_step env paths 0 i p _ hget
        (by simpa using allSrtStep_srt_mem env i p data hpost)
    · intro e he hname
      have hsrt : e.name.isSrt = true := by rw [hname]; rfl
      obtain ⟨j, q, hj, hseg, hdata⟩ := allSrtLoop_srt_data env paths 0 e he hsrt
      have hji : j = i := by
        rw [hname] at hseg
        simp only [EntryName.segment] at hseg
        omega
      subst hji
      rw [hget] at hj
      cases hj
      rw [hpost] at hdata
      cases hdata
      rfl
    · intro m hside hread
      exact allSrtLoop_mem_of_step env paths 0 i p _ hget
        (by simpa using allSrtStep_metadata_mem env i p data m hpost hside hread)
  · intro paths data hne hex hpost
    simp only [generateCombinedSrt, generateCombinedSrtTry,
      validPaths_array_of_ne_nil paths hne, checkPathsExist_none env paths hex, hpost]

theorem export_modes_metadata_and_content_witness :
    (generateSrt sidecarEnv { audioPath := .string "a.wav" }).response =
      { status := 200
        headers := [("X-Audio-Duration", .number (.num 2)),
                    ("X-Scale-Factor", .number (.num 1)),
                    ("Content-Type", .string "application/x-subrip"),
                    ("Content-Disposition", .string "attachment; filename=generated.srt")]
        body := .bytes [7, 8] } :=
  (export_modes_metadata_and_content sidecarEnv).1 "a.wav" [7, 8] [123, 125]
    (.object [("actual_duration", .number (.num 2)), ("scale_factor", .number (.num 1))])
    (.number (.num 2)) (.number (.num 1)) (by decide) rfl rfl rfl rfl rfl rfl
    (by simp) rfl rfl (by simp) rfl

theorem replaceFirstChars_final (pat rep : List Char) (hpat : pat ≠ []) (b : List Char)
    (honly : ∀ pre suf : List Char, b ++ pat = pre ++ pat ++ suf → suf = []) :
    replaceFirstChars pat rep (b ++ pat) = b ++ rep := by
  induction b with
  | nil =>
    cases pat with
    | nil => exact absurd rfl hpat
    | cons c cs =>
      have hself : (c :: cs).isPrefixOf (c :: cs) = true :=
        List.isPrefixOf_iff_prefix.mpr (List.prefix_refl _)
      simp only [List.nil_append, replaceFirstChars, hself, if_true, List.drop_length,
        List.append_nil]
  | cons x b ih =>
    have hnot : pat.isPrefixOf (x :: (b ++ pat)) = false := by
      cases hpre : pat.isPrefixOf (x :: (b ++ pat)) with
      | false => rfl
      | true =>
        obtain ⟨t, ht⟩ := List.isPrefixOf_iff_prefix.mp hpre
        have hnil : t = [] := honly [] t (by simpa using ht.symm)
        subst hnil
        have hlen := congrArg List.length ht
        simp at hlen
        omega
    have hrest : ∀ pre suf : List Char, b ++ pat = pre ++ pat ++ suf → suf = [] := by
      intro pre suf h
      exact honly (x :: pre) suf (by simp [h])
    have hstep : replaceFirstChars pat rep (x :: (b ++ pat)) =
        x :: replaceFirstChars pat rep (b ++ pat) := by
      rw [replaceFirstChars, hnot]
      rfl
    rw [List.cons_append, hstep, ih hrest, List.cons_append]

/-- Where the code agrees with the extension swap: when `.wav` occurs in
`base ++ ".wav"` only as the final extension, the sidecar path is
`base ++ ".json"`. -/
theorem metadataPathOf_final_extension (base : String)
    (honly : ∀ pre suf : List Char,
      base.data ++ ".wav".data = pre ++ ".wav".data ++ suf → suf = []) :
    metadataPathOf (base ++ ".wav") = base ++ ".json" := by
  have h := replaceFirstChars_final ".wav".data ".json".data (by decide) base.data honly
  unfold metadataPathOf
  have hdata : (base ++ ".wav").data = base.data ++ ".wav".data := String.data_append _ _
  rw [hdata, h]
  rfl

/-- C13: at the audio path `clips.wav/segment_0.wav`, which ends in `.wav`, the
exporter computes the sidecar path `clips.json/segment_0.wav`: the first
occurrence of `.wav` is replaced, the final extension is kept and the
directory changes; the path `clips.wav/segment_0.json` is not what is
computed. -/
theorem metadataPathOf_earlier_occurrence :
    metadataPathOf "clips.wav/segment_0.wav" = "clips.json/segment_0.wav"
      ∧ metadataPathOf "clips.wav/segment_0.wav" ≠ "clips.wav/segment_0.json" := by
  constructor
  · rfl
  · decide

/-- C14 (as stated, refuted): the error object written for a local failure
carries the member `status: 500`, the same member an upstream failure with
status 500 gets. -/
theorem handleError_local_has_status :
    (handleError emptyEnv (mkError "Valid audio path is required") []).statusMember = some 500
      ∧ (handleError emptyEnv (upstreamError "Internal Server Error") []).statusMember =
          some 500 :=
  ⟨rfl, rfl⟩

/-- C14 (amended): `handleError` gives a failure with an upstream answer of
non-zero status `s` the error object with `status = s`, sent with HTTP status
`s`; a failure without upstream answer gets the error object with the fixed
`status = 500`, sent with HTTP status 500. -/
theorem handleError_status (env : Env) (error : JsError)
    (headers : List (String × JsValue)) :
    (∀ response, error.response = some response → response.status ≠ 0 →
        (handleError env error headers).status = response.status
          ∧ (handleError env error headers).statusMember = some response.status)
      ∧ (error.response = none →
          (handleError env error headers).status = 500
            ∧ (handleError env error headers).statusMember = some 500) := by
  constructor
  · intro response hresp hs
    simp [handleError, hresp, hs, Response.statusMember]
  · intro hnone
    simp [handleError, hnone, Response.statusMember]

theorem handleError_status_witness :
    (handleError emptyEnv
        { message := "Request failed with status code 404"
          response := some { status := 404, data := .undefined } } []).status = 404 :=
  ((handleError_status emptyEnv
      { message := "Request failed with status code 404"
        response := some { status := 404, data := .undefined } } []).1
    { status := 404, data := .undefined } rfl (by decide)).1

theorem generateAudio_short_artifact_response (env : Env) (req : GenerateRequest)
    (file : UploadedFile) (data : BackendData) (q : ℚ)
    (hfile : req.file = some file)
    (href : fieldTruthy req.ref_text = true)
    (hgen : fieldTruthy req.gen_text = true)
    (hpost : env.postGenerateAudio (req.form file) = .ok data)
    (hprobe : env.getAudioDurationInSeconds data.full_path = .ok (.num q))
    (hshort : q < 1 / 10) :
    (generateAudio env req).response =
      localErrorAnswer env ("Generated audio validation failed. Duration: "
        ++ env.showNum (.num q) ++ " seconds") := by
  have hnot : ¬ (1 / 10 : ℚ) ≤ q := not_le.mpr hshort
  have hv : validateAudioDuration env data.full_path =
      (false, [.console .log ("Audio duration: " ++ env.showNum (.num q) ++ " seconds")]) := by
    simp only [validateAudioDuration, hprobe, JsNum.ge, decide_eq_false hnot]
  have hrun : (generateAudioTry env req).2 =
      .error (mkError ("Generated audio validation failed. Duration: "
              ++ env.showNum (.num q) ++ " seconds")) := by
    simp [generateAudioTry, hfile, href, hgen, hpost, hv, hprobe]
  unfold generateAudio
  simp only [hrun]
  rfl

theorem combineAudio_backend_failure (env : Env) (paths : List Path) (hne : paths ≠ [])
    (t : JsNum) (error : JsError)
    (hsum : sumDurations env paths (.num 0) = .ok t)
    (hpost : env.postCombineAudioSegments paths = .error error) :
    (combineAudio env { paths := .array paths }).response = handleError env error [] := by
  simp only [combineAudio, combineAudioTry, validPaths_array_of_ne_nil paths hne, hsum, hpost]

theorem handleError_members (env : Env) (error : JsError)
    (headers : List (String × JsValue)) :
    (handleError env error headers).statusMember = some (handleError env error headers).status
      ∧ (handleError env error headers).timestampMember = some env.timestamp := by
  unfold handleError
  cases error.response <;> exact ⟨rfl, rfl⟩

/-- C15 (as stated, refuted): an empty path list and a failure of the
combination backend (upstream status 500 with the same text as `detail`) are
answered with one and the same error object, so the two failures cannot carry
different kinds. -/
theorem empty_list_and_backend_failure_same_object :
    (combineAudio backendDownEnv { paths := .array [] }).response =
        localErrorAnswer backendDownEnv "Valid array of audio paths is required"
      ∧ (combineAudio backendDownEnv { paths := .array ["a.wav"] }).response =
        localErrorAnswer backendDownEnv "Valid array of audio paths is required"
      ∧ backendCalls (combineAudio backendDownEnv { paths := .array ["a.wav"] }).effects =
          [.combineAudioSegments ["a.wav"]] :=
  ⟨rfl, rfl, rfl⟩

/-- C15 (amended): every failure is written by `handleError` as one object
`{ error, status, timestamp }` without a kind; an empty path list, a missing
path and a too-short artifact all get status 500 and differ in the message
text only, a backend failure gets what `handleError` derives from the upstream
answer, and the frontend's `handleApiError` turns such an answer into
`{ message, status, timestamp }` with the same three values. -/
theorem failures_normalized_without_kind (env : Env) :
    (∀ (error : JsError) (headers : List (String × JsValue)),
        (handleError env error headers).isError = true
          ∧ (handleError env error headers).statusMember =
              some (handleError env error headers).status
          ∧ (handleError env error headers).timestampMember = some env.timestamp)
      ∧ (combineAudio env { paths := .array [] }).response =
          localErrorAnswer env "Valid array of audio paths is required"
      ∧ (∀ (p : Path) (rest : List Path), env.existsSync p = false →
          (combineAudio env { paths := .array (p :: rest) }).response =
            localErrorAnswer env ("Audio file not found: " ++ p))
      ∧ (∀ (req : GenerateRequest) (file : UploadedFile) (data : BackendData) (q : ℚ),
          req.file = some file → fieldTruthy req.ref_text = true →
          fieldTruthy req.gen_text = true →
          env.postGenerateAudio (req.form file) = .ok data →
          env.getAudioDurationInSeconds data.full_path = .ok (.num q) → q < 1 / 10 →
          (generateAudio env req).response =
            localErrorAnswer env ("Generated audio validation failed. Duration: "
              ++ env.showNum (.num q) ++ " seconds"))
      ∧ (∀ (paths : List Path) (t : JsNum) (error : JsError), paths ≠ [] →
          sumDurations env paths (.num 0) = .ok t →
          env.postCombineAudioSegments paths = .error error →
          (combineAudio env { paths := .array paths }).response = handleError env error [])
      ∧ (∀ (now : String) (error : JsError) (headers : List (String × JsValue))
          (message : JsValue) (status : Nat) (timestamp : String),
          (handleError env error headers).body = .errorObj message status timestamp →
          handleApiError now (axiosErrorOf (handleError env error headers)) =
            .ok { message := message.or (.string "Server error")
                  status := (handleError env error headers).status
                  timestamp := .string timestamp }) := by
  refine ⟨?_, rfl, ?_, ?_, ?_, ?_⟩
  · intro error headers
    exact ⟨handleError_isError env error headers, handleError_members env error headers⟩
  · intro p rest hmiss
    have hsum : sumDurations env (p :: rest) (.num 0) =
        .error (mkError ("Audio file not found: " ++ p)) :=
      sumDurations_first_missing env [] p rest (by simp) (by simp) hmiss (.num 0)
    rw [combineAudio_missing_error env (p :: rest) (by simp) _ hsum]
    rfl
  · intro req file data q hfile href hgen hpost hprobe hshort
    exact generateAudio_short_artifact_response env req file data q hfile href hgen hpost
      hprobe hshort
  · intro paths t error hne hsum hpost
    exact combineAudio_backend_failure env paths hne t error hsum hpost
  · intro now error headers message status timestamp hbody
    simp [handleApiError, axiosErrorOf, Response.errorJson, hbody, JsValue.getField,
      JsValue.optField, List.lookup]

theorem failures_normalized_without_kind_witness :
    (combineAudio oneFileEnv { paths := .array ["gone.wav", "a.wav"] }).response =
      localErrorAnswer oneFileEnv ("Audio file not found: " ++ "gone.wav") :=
  (failures_normalized_without_kind oneFileEnv).2.2.1 "gone.wav" ["a.wav"] rfl

theorem unlinkRequests_append (xs ys : List Effect) :
    unlinkRequests (xs ++ ys) = unlinkRequests xs ++ unlinkRequests ys := by
  simp [unlinkRequests, List.filterMap_append]

theorem unlinkRequests_generateAudioTry (env : Env) (req : GenerateRequest) :
    unlinkRequests (generateAudioTry env req).1 = [] := by
  unfold generateAudioTry validateAudioDuration
  cases req.file with
  | none => rfl
  | some file =>
    simp only
    split
    · rfl
    · cases env.postGenerateAudio (req.form file) with
      | error e => rfl
      | ok data =>
        simp only
        cases env.getAudioDurationInSeconds data.full_path with
        | error e => rfl
        | ok d =>
          simp only
          split <;> rfl

theorem unlinkRequests_generateAudioFinally (env : Env) (p : Path) :
    unlinkRequests (generateAudioFinally env (some p)) =
      if p ≠ "" ∧ env.existsSync p = true then [p] else [] := by
  unfold generateAudioFinally
  by_cases hp : p = ""
  · simp [hp, unlinkRequests]
  · cases hex : env.existsSync p with
    | false => simp [hp, hex, unlinkRequests]
    | true => cases hu : env.unlinkError p <;> simp [hp, hex, hu, unlinkRequests]

theorem unlinkRequests_generateAudio (env : Env) (req : GenerateRequest) :
    unlinkRequests (generateAudio env req).effects =
      match req.file with
      | none => []
      | some file => if file.path ≠ "" ∧ env.existsSync file.path = true then [file.path] else [] := by
  unfold generateAudio
  cases hfile : req.file with
  | none =>
    simp only [Option.map_none']
    cases hrun : (generateAudioTry env req).2 with
    | ok response =>
      simp only [unlinkRequests_append, unlinkRequests_generateAudioTry]
      rfl
    | error error =>
      simp only [unlinkRequests_append, unlinkRequests_generateAudioTry]
      rfl
  | some file =>
    simp only [Option.map_some']
    cases hrun : (generateAudioTry env req).2 with
    | ok response =>
      simp only [unlinkRequests_append, unlinkRequests_generateAudioTry,
        unlinkRequests_generateAudioFinally, List.nil_append]
    | error error =>
      simp only [unlinkRequests_append, unlinkRequests_generateAudioTry,
        unlinkRequests_generateAudioFinally, List.nil_append]
      rfl

theorem generateAudio_response_unlinkError (env : Env) (req : GenerateRequest)
    (u : Path → Option JsError) :
    (generateAudio { env with unlinkError := u } req).response =
      (generateAudio env req).response := by
  have htry : generateAudioTry { env with unlinkError := u } req = generateAudioTry env req :=
    rfl
  have herr : ∀ error, handleError { env with unlinkError := u } error [] =
      handleError env error [] := fun _ => rfl
  unfold generateAudio
  simp only [htry, herr]
  cases h : (generateAudioTry env req).2 <;> rfl

theorem generateAudioFinally_logs_failure (env : Env) (p : Path) (err : JsError)
    (hp : p ≠ "") (hex : env.existsSync p = true) (hfail : env.unlinkError p = some err) :
    Effect.console .error ("🔴 Error deleting uploaded file: " ++ err.message) ∈
      generateAudioFinally env (some p) := by
  simp [generateAudioFinally, hp, hex, hfail]

/-- C16: when `/generate-audio` received an uploaded file, then on every exit
path the `finally` block hands that file, if it still exists, to `fs.unlink`
(and nothing else); the file is absent afterwards unless the deletion reports
an error; a deletion error is only written to the console, and the answer sent
does not depend on the outcome of the deletion. -/
theorem generateAudio_upload_deleted (env : Env) (req : GenerateRequest)
    (file : UploadedFile)
    (hfile : req.file = some file) (hpath : file.path ≠ "") :
    (env.existsSync file.path = true →
        unlinkRequests (generateAudio env req).effects = [file.path])
      ∧ (env.unlinkError file.path = none →
          existsAfter env (generateAudio env req).effects file.path = false)
      ∧ (∀ err, env.existsSync file.path = true → env.unlinkError file.path = some err →
          Effect.console .error ("🔴 Error deleting uploaded file: " ++ err.message) ∈
            (generateAudio env req).effects)
      ∧ (∀ u : Path → Option JsError,
          (generateAudio { env with unlinkError := u } req).response =
            (generateAudio env req).response) := by
  have hreq := unlinkRequests_generateAudio env req
  rw [hfile] at hreq
  simp only at hreq
  refine ⟨?_, ?_, ?_, generateAudio_response_unlinkError env req⟩
  · intro hex
    rw [hreq, if_pos ⟨hpath, hex⟩]
  · intro hok
    unfold existsAfter
    rw [hreq]
    cases hex : env.existsSync file.path with
    | false => rfl
    | true => simp [hpath, hok]
  · intro err hex hfail
    have hmem := generateAudioFinally_logs_failure env file.path err hpath hex hfail
    unfold generateAudio
    simp only [hfile, Option.map_some']
    cases (generateAudioTry env req).2 with
    | ok response => exact List.mem_append_right _ hmem
    | error error => exact List.mem_append_right _ hmem

theorem generateAudio_upload_deleted_witness :
    existsAfter shortArtifactEnv
      (generateAudio shortArtifactEnv sampleGenerateRequest).effects "uploads/ref" = false :=
  (generateAudio_upload_deleted shortArtifactEnv sampleGenerateRequest
    { path := "uploads/ref" } rfl (by decide)).2.1 rfl

/-- C20: the only path `/generate-audio` ever hands to `fs.unlink` is the path
of the uploaded reference file; on every outcome every other file, the
artifact returned by the backend included, exists afterwards exactly when it
existed before. -/
theorem generateAudio_deletes_only_upload (env : Env) (req : GenerateRequest) :
    (∀ p ∈ unlinkRequests (generateAudio env req).effects,
        ∃ file, req.file = some file ∧ p = file.path)
      ∧ (∀ p : Path, (∀ file, req.file = some file → p ≠ file.path) →
          existsAfter env (generateAudio env req).effects p = env.existsSync p) := by
  have hreq := unlinkRequests_generateAudio env req
  have hmem : ∀ p ∈ unlinkRequests (generateAudio env req).effects,
      ∃ file, req.file = some file ∧ p = file.path := by
    intro p hp
    rw [hreq] at hp
    cases hfile : req.file with
    | none =>
      rw [hfile] at hp
      simp at hp
    | some file =>
      rw [hfile] at hp
      simp only at hp
      split at hp
      · simp only [List.mem_singleton] at hp
        exact ⟨file, rfl, hp⟩
      · simp at hp
  refine ⟨hmem, ?_⟩
  intro p hp
  have hnot : p ∉ unlinkRequests (generateAudio env req).effects := by
    intro h
    obtain ⟨file, hfile, heq⟩ := hmem p h
    exact hp file hfile heq
  simp [existsAfter, hnot]

theorem generateAudio_deletes_only_upload_witness :
    existsAfter shortArtifactEnv
      (generateAudio shortArtifactEnv sampleGenerateRequest).effects "out.wav" = true :=
  ((generateAudio_deletes_only_upload shortArtifactEnv sampleGenerateRequest).2 "out.wav"
    (by
      intro file hfile
      cases hfile
      decide)).trans rfl

theorem formGetAll_formSet_same (form : FormFields) (name value : String) :
    formGetAll (formSet form name value) name = [value] := by
  induction form with
  | nil => simp [formSet, formGetAll]
  | cons kv rest ih =>
    obtain ⟨k, v⟩ := kv
    by_cases hk : k = name
    · simp only [formSet, hk, if_true, formGetAll]
      simp [List.filter_cons, List.filter_filter]
    · have := ih
      simp only [formGetAll] at this ⊢
      simp only [formSet, hk, if_false, List.filter_cons, decide_eq_true_eq]
      simpa using this

theorem formGetAll_formSet_other (form : FormFields) (name value other : String)
    (hne : other ≠ name) :
    formGetAll (formSet form name value) other = formGetAll form other := by
  induction form with
  | nil =>
    have : ¬ name = other := fun h => hne h.symm
    simp [formSet, formGetAll, this]
  | cons kv rest ih =>
    obtain ⟨k, v⟩ := kv
    by_cases hk : k = name
    · have hno : ¬ name = other := fun h => hne h.symm
      subst hk
      simp only [formSet, if_true, formGetAll, List.filter_cons, decide_eq_true_eq, hno,
        if_false, List.filter_filter]
      congr 1
      apply List.filter_congr
      intro x _
      by_cases hx : x.1 = other
      · have : x.1 ≠ k := by rw [hx]; exact hne
        simp [hx, hne]
      · simp [hx]
    · simp only [formGetAll] at ih ⊢
      simp only [formSet, hk, if_false, List.filter_cons, decide_eq_true_eq]
      by_cases hko : k = other
      · simp [hko, ih]
      · simp [hko, ih]

theorem clientForm_fields (form : FormFields) (text : String) (i : Nat) :
    formGetAll (clientForm form text i) "segment_index" = [toString i]
      ∧ formGetAll (clientForm form text i) "gen_text" = [text] := by
  unfold clientForm
  refine ⟨formGetAll_formSet_same _ _ _, ?_⟩
  rw [formGetAll_formSet_other _ _ _ _ (by decide), formGetAll_formSet_same]

theorem pageForm_fields (refText audioFile text : String) (i : Nat) :
    formGetAll (pageForm refText audioFile text i) "segment_index" = [toString i]
      ∧ formGetAll (pageForm refText audioFile text i) "gen_text" = [text] := by
  constructor <;> rfl

theorem generateSegment_generated (browser : Browser) (formData : FormFields) (status : Nat)
    (data : GeneratedData) (duration : JsNum)
    (hfetch : browser.fetchGenerateAudio formData = .answered status (.ok data))
    (hok : statusOk status = true)
    (hload : browser.loadedmetadata ("/generated_audio_files/" ++ data.filename) =
      some duration) :
    generateSegment browser formData = .generated data duration := by
  simp [generateSegment, hfetch, hok, hload]

theorem generateSegment_thrown (browser : Browser) (formData : FormFields) (error : JsError)
    (hfail : GenerationFails browser formData error) :
    generateSegment browser formData = .thrown error := by
  rcases hfail with h | ⟨status, json, h, hok, herr⟩ | ⟨status, h, hok⟩
  · simp [generateSegment, h]
  · simp [generateSegment, h, hok, herr]
  · simp [generateSegment, h, hok]

theorem handleFormSubmitLoop_success (browser : Browser) (form : FormFields)
    (data : Nat → GeneratedData) (dur : Nat → JsNum) (segs : List String) (i : Nat)
    (st : ClientState)
    (h : ∀ j text, segs[j]? = some text →
      generateSegment browser (clientForm form text (i + j)) =
        .generated (data (i + j)) (dur (i + j))) :
    handleFormSubmitLoop browser form i segs st =
      ({ requests := st.requests ++ clientGenerateRequests form i segs
         results := st.results ++ (List.range' i segs.length).map data
         currentSegmentPaths := st.currentSegmentPaths ++
           (List.range' i segs.length).map fun j => (data j).full_path
         segmentDurations := st.segmentDurations ++ (List.range' i segs.length).map dur },
        .done) := by
  induction segs generalizing i st with
  | nil => simp [handleFormSubmitLoop, clientGenerateRequests]
  | cons text rest ih =>
    have h0 := h 0 text List.getElem?_cons_zero
    rw [Nat.add_zero] at h0
    have hrest : ∀ j t, rest[j]? = some t →
        generateSegment browser (clientForm form t (i + 1 + j)) =
          .generated (data (i + 1 + j)) (dur (i + 1 + j)) := by
      intro j t hj
      have := h (j + 1) t (by simpa using hj)
      have hidx : i + (j + 1) = i + 1 + j := by omega
      rw [hidx] at this
      exact this
    rw [handleFormSubmitLoop]
    simp only [h0]
    rw [ih (i + 1) _ hrest]
    simp [clientGenerateRequests, List.enumFrom_cons, List.range'_succ]

theorem handleFormSubmitLoop_failure (browser : Browser) (form : FormFields)
    (data : Nat → GeneratedData) (dur : Nat → JsNum) (pre : List String) (t : String)
    (post : List String) (error : JsError) (i : Nat) (st : ClientState)
    (hpre : ∀ j text, pre[j]? = some text →
      generateSegment browser (clientForm form text (i + j)) =
        .generated (data (i + j)) (dur (i + j)))
    (hfail : generateSegment browser (clientForm form t (i + pre.length)) = .thrown error) :
    handleFormSubmitLoop browser form i (pre ++ t :: post) st =
      ({ requests := st.requests ++ clientGenerateRequests form i (pre ++ [t])
         results := st.results ++ (List.range' i pre.length).map data
         currentSegmentPaths := st.currentSegmentPaths ++
           (List.range' i pre.length).map fun j => (data j).full_path
         segmentDurations := st.segmentDurations ++ (List.range' i pre.length).map dur },
        .thrown error) := by
  induction pre generalizing i st with
  | nil =>
    simp only [List.length_nil, Nat.add_zero] at hfail
    simp [handleFormSubmitLoop, hfail, clientGenerateRequests]
  | cons text rest ih =>
    have h0 := hpre 0 text List.getElem?_cons_zero
    rw [Nat.add_zero] at h0
    have hrest : ∀ j s, rest[j]? = some s →
        generateSegment browser (clientForm form s (i + 1 + j)) =
          .generated (data (i + 1 + j)) (dur (i + 1 + j)) := by
      intro j s hj
      have := hpre (j + 1) s (by simpa using hj)
      have hidx : i + (j + 1) = i + 1 + j := by omega
      rw [hidx] at this
      exact this
    have hfail2 : generateSegment browser (clientForm form t (i + 1 + rest.length)) =
        .thrown error := by
      have hidx : i + (text :: rest).length = i + 1 + rest.length := by
        simp only [List.length_cons]
        omega
      rw [hidx] at hfail
      exact hfail
    rw [List.cons_append, handleFormSubmitLoop]
    simp only [h0]
    rw [ih (i + 1) _ hrest hfail2]
    simp [clientGenerateRequests, List.enumFrom_cons, List.range'_succ]

theorem apiCall_error {α : Type} (now : String) (error : JsError) :
    apiCall now (.error error : Except JsError α) = .error (apiThrown now error) := by
  cases h : handleApiError now error <;> simp [apiCall, apiThrown, h]

theorem handleSubmitLoop_success (fe : Frontend) (refText audioFile : String)
    (data : Nat → GeneratedData) (segs : List SegmentEntry) (i : Nat) (st : PageLoopState)
    (h : ∀ j seg, segs[j]? = some seg →
      fe.postGenerateAudio (pageForm refText audioFile seg.text (i + j)) = .ok (data (i + j))) :
    (handleSubmitLoop fe refText audioFile i segs st).1.requests =
        st.requests ++ pageGenerateRequests refText audioFile i segs
      ∧ (handleSubmitLoop fe refText audioFile i segs st).1.paths =
        st.paths ++ (List.range' i segs.length).map (fun j => (data j).full_path)
      ∧ (handleSubmitLoop fe refText audioFile i segs st).2.2 = none := by
  induction segs generalizing i st with
  | nil => simp [handleSubmitLoop, pageGenerateRequests]
  | cons seg rest ih =>
    have h0 := h 0 seg List.getElem?_cons_zero
    rw [Nat.add_zero] at h0
    have hrest : ∀ j s, rest[j]? = some s →
        fe.postGenerateAudio (pageForm refText audioFile s.text (i + 1 + j)) =
          .ok (data (i + 1 + j)) := by
      intro j s hj
      have := h (j + 1) s (by simpa using hj)
      have hidx : i + (j + 1) = i + 1 + j := by omega
      rw [hidx] at this
      exact this
    rw [handleSubmitLoop]
    simp only [h0, apiCall]
    obtain ⟨h1, h2, h3⟩ := ih (i + 1)
      { requests := st.requests ++
          [ClientRequest.generateAudio (pageForm refText audioFile seg.text i)]
        paths := st.paths ++ [(data i).full_path]
        passed := st.passed ++
          [{ seg with duration := some (fe.formatTime (data i).duration) }] } hrest
    refine ⟨?_, ?_, h3⟩
    · rw [h1]
      simp [pageGenerateRequests, List.enumFrom_cons]
    · rw [h2]
      simp [List.range'_succ]

theorem handleSubmitLoop_failure (fe : Frontend) (refText audioFile : String)
    (data : Nat → GeneratedData) (pre : List SegmentEntry) (t : SegmentEntry)
    (post : List SegmentEntry) (error : JsError) (i : Nat) (st : PageLoopState)
    (hpre : ∀ j seg, pre[j]? = some seg →
      fe.postGenerateAudio (pageForm refText audioFile seg.text (i + j)) = .ok (data (i + j)))
    (hfail : fe.postGenerateAudio (pageForm refText audioFile t.text (i + pre.length)) =
      .error error) :
    (handleSubmitLoop fe refText audioFile i (pre ++ t :: post) st).1.requests =
        st.requests ++ pageGenerateRequests refText audioFile i (pre ++ [t])
      ∧ (handleSubmitLoop fe refText audioFile i (pre ++ t :: post) st).2.2 =
        some (apiThrown fe.now error) := by
  induction pre generalizing i st with
  | nil =>
    simp only [List.length_nil, Nat.add_zero] at hfail
    simp [handleSubmitLoop, hfail, apiCall_error, pageGenerateRequests]
  | cons seg rest ih =>
    have h0 := hpre 0 seg List.getElem?_cons_zero
    rw [Nat.add_zero] at h0
    have hrest : ∀ j s, rest[j]? = some s →
        fe.postGenerateAudio (pageForm refText audioFile s.text (i + 1 + j)) =
          .ok (data (i + 1 + j)) := by
      intro j s hj
      have := hpre (j + 1) s (by simpa using hj)
      have hidx : i + (j + 1) = i + 1 + j := by omega
      rw [hidx] at this
      exact this
    have hfail2 : fe.postGenerateAudio
        (pageForm refText audioFile t.text (i + 1 + rest.length)) = .error error := by
      have hidx : i + (seg :: rest).length = i + 1 + rest.length := by
        simp only [List.length_cons]
        omega
      rw [hidx] at hfail
      exact hfail
    rw [List.cons_append, handleSubmitLoop]
    simp only [h0, apiCall]
    obtain ⟨h1, h2⟩ := ih (i + 1)
      { requests := st.requests ++
          [ClientRequest.generateAudio (pageForm refText audioFile seg.text i)]
        paths := st.paths ++ [(data i).full_path]
        passed := st.passed ++
          [{ seg with duration := some (fe.formatTime (data i).duration) }] } hrest hfail2
    refine ⟨?_, h2⟩
    rw [h1]
    simp [pageGenerateRequests, List.enumFrom_cons]

theorem clientGenerateRequests_length (form : FormFields) (i : Nat) (segs : List String) :
    (clientGenerateRequests form i segs).length = segs.length := by
  simp [clientGenerateRequests]

theorem clientGenerateRequests_getElem? (form : FormFields) (segs : List String)
    (tail : List ClientRequest) (i : Nat) (text : String) (h : segs[i]? = some text) :
    (clientGenerateRequests form 0 segs ++ tail)[i]? =
      some (.generateAudio (clientForm form text i)) := by
  have hlt : i < segs.length := by
    rcases Nat.lt_or_ge i segs.length with hlt | hge
    · exact hlt
    · rw [List.getElem?_eq_none hge] at h
      cases h
  rw [List.getElem?_append_left (by rw [clientGenerateRequests_length]; exact hlt)]
  simp [clientGenerateRequests, List.getElem?_enumFrom, h]

theorem pageGenerateRequests_length (refText audioFile : String) (i : Nat)
    (segs : List SegmentEntry) :
    (pageGenerateRequests refText audioFile i segs).length = segs.length := by
  simp [pageGenerateRequests]

theorem pageGenerateRequests_getElem? (refText audioFile : String) (segs : List SegmentEntry)
    (tail : List ClientRequest) (i : Nat) (seg : SegmentEntry) (h : segs[i]? = some seg) :
    (pageGenerateRequests refText audioFile 0 segs ++ tail)[i]? =
      some (.generateAudio (pageForm refText audioFile seg.text i)) := by
  have hlt : i < segs.length := by
    rcases Nat.lt_or_ge i segs.length with hlt | hge
    · exact hlt
    · rw [List.getElem?_eq_none hge] at h
      cases h
  rw [List.getElem?_append_left (by rw [pageGenerateRequests_length]; exact hlt)]
  simp [pageGenerateRequests, List.getElem?_enumFrom, h]

theorem combine_not_mem_clientGenerateRequests (form : FormFields) (i : Nat)
    (segs : List String) (paths : List Path) :
    ClientRequest.combineAudio paths ∉ clientGenerateRequests form i segs := by
  simp [clientGenerateRequests]

theorem combine_not_mem_pageGenerateRequests (refText audioFile : String) (i : Nat)
    (segs : List SegmentEntry) (paths : List Path) :
    ClientRequest.combineAudio paths ∉ pageGenerateRequests refText audioFile i segs := by
  simp [pageGenerateRequests]

theorem handleFormSubmit_of_failure (browser : Browser) (form : FormFields)
    (textareas : List String) (data : Nat → GeneratedData) (dur : Nat → JsNum)
    (pre : List String) (t : String) (post : List String) (error : JsError)
    (hsegs : clientSegments browser textareas = pre ++ t :: post)
    (hpre : ∀ i text, pre[i]? = some text →
      generateSegment browser (clientForm form text i) = .generated (data i) (dur i))
    (hfail : generateSegment browser (clientForm form t pre.length) = .thrown error) :
    handleFormSubmit browser form textareas =
      { requests := clientGenerateRequests form 0 (pre ++ [t])
        currentSegmentPaths := (List.range' 0 pre.length).map fun j => (data j).full_path
        segmentDurations := (List.range' 0 pre.length).map dur
        errorText := error.message
        finalAudioSrc := none, resultShown := false, finished := true } := by
  have hloop := handleFormSubmitLoop_failure browser form data dur pre t post error 0
    { requests := [], results := [], currentSegmentPaths := [], segmentDurations := [] }
    (by simpa using hpre) (by simpa using hfail)
  have hsegs2 : (List.filter (fun text => decide (text.length > 0))
      (List.map browser.trim textareas)) = pre ++ t :: post := hsegs
  simp only [handleFormSubmit, hsegs2, hloop, List.nil_append]

theorem handleFormSubmit_of_success (browser : Browser) (form : FormFields)
    (textareas : List String) (data : Nat → GeneratedData) (dur : Nat → JsNum)
    (cstatus : Nat) (combined : CombinedData)
    (hgen : ∀ i text, (clientSegments browser textareas)[i]? = some text →
      generateSegment browser (clientForm form text i) = .generated (data i) (dur i))
    (hcomb : browser.fetchCombineAudio
        ((List.range (clientSegments browser textareas).length).map
          fun i => (data i).full_path) = .answered cstatus (.ok combined))
    (hok : statusOk cstatus = true) :
    handleFormSubmit browser form textareas =
      { requests := clientGenerateRequests form 0 (clientSegments browser textareas) ++
          [.combineAudio ((List.range (clientSegments browser textareas).length).map
            fun i => (data i).full_path)]
        currentSegmentPaths := (List.range (clientSegments browser textareas).length).map
          fun i => (data i).full_path
        segmentDurations := (List.range (clientSegments browser textareas).length).map dur
        errorText := ""
        finalAudioSrc := some ("/generated_audio_files/" ++ combined.filename)
        resultShown := true, finished := true } := by
  have hloop := handleFormSubmitLoop_success browser form data dur
    (clientSegments browser textareas) 0
    { requests := [], results := [], currentSegmentPaths := [], segmentDurations := [] }
    (by simpa using hgen)
  have hloop2 : handleFormSubmitLoop browser form 0
      (List.filter (fun text => decide (text.length > 0)) (List.map browser.trim textareas))
      { requests := [], results := [], currentSegmentPaths := [], segmentDurations := [] } = _ :=
    hloop
  simp only [List.nil_append, ← List.range_eq_range'] at hloop2
  simp only [handleFormSubmit, hloop2, hcomb, hok]
  rfl

theorem handleSubmit_of_success (fe : Frontend) (page : PageState)
    (data : Nat → GeneratedData) (combined : CombinedData)
    (hgen : ∀ i seg, page.segments[i]? = some seg →
      fe.postGenerateAudio (pageForm page.refText page.audioFile seg.text i) = .ok (data i))
    (hcomb : fe.postCombineAudio
        ((List.range page.segments.length).map fun i => (data i).full_path) = .ok combined) :
    (handleSubmit fe page).requests =
        pageGenerateRequests page.refText page.audioFile 0 page.segments ++
          [.combineAudio ((List.range page.segments.length).map fun i => (data i).full_path)]
      ∧ (handleSubmit fe page).state.currentSegmentPaths =
          (List.range page.segments.length).map (fun i => (data i).full_path)
      ∧ (handleSubmit fe page).state.finalAudioUrl =
          some ("/generated_audio_files/" ++ combined.filename) := by
  obtain ⟨h1, h2, h3⟩ := handleSubmitLoop_success fe page.refText page.audioFile data
    page.segments 0 { requests := [], paths := [], passed := [] } (by simpa using hgen)
  simp only [List.nil_append, ← List.range_eq_range'] at h1 h2
  unfold handleSubmit
  generalize hrun : handleSubmitLoop fe page.refText page.audioFile 0 page.segments
    { requests := [], paths := [], passed := [] } = run at h1 h2 h3
  obtain ⟨st, rest, thrown⟩ := run
  simp only at h1 h2 h3
  subst h3
  simp [h1, h2, hcomb, apiCall]

theorem handleSubmit_of_failure (fe : Frontend) (page : PageState)
    (data : Nat → GeneratedData) (pre : List SegmentEntry) (t : SegmentEntry)
    (post : List SegmentEntry) (error : JsError)
    (hsegs : page.segments = pre ++ t :: post)
    (hpre : ∀ i seg, pre[i]? = some seg →
      fe.postGenerateAudio (pageForm page.refText page.audioFile seg.text i) = .ok (data i))
    (hfail : fe.postGenerateAudio (pageForm page.refText page.audioFile t.text pre.length) =
      .error error) :
    (handleSubmit fe page).requests =
        pageGenerateRequests page.refText page.audioFile 0 (pre ++ [t])
      ∧ (handleSubmit fe page).state.error = (apiThrown fe.now error).message
      ∧ (handleSubmit fe page).state.finalAudioUrl = page.finalAudioUrl
      ∧ (handleSubmit fe page).state.currentSegmentPaths = page.currentSegmentPaths := by
  obtain ⟨h1, h2⟩ := handleSubmitLoop_failure fe page.refText page.audioFile data pre t post
    error 0 { requests := [], paths := [], passed := [] } (by simpa using hpre)
    (by simpa using hfail)
  simp only [List.nil_append] at h1
  unfold handleSubmit
  rw [hsegs]
  generalize hrun : handleSubmitLoop fe page.refText page.audioFile 0 (pre ++ t :: post)
    { requests := [], paths := [], passed := [] } = run at h1 h2
  obtain ⟨st, rest, thrown⟩ := run
  simp only at h1 h2
  subst h2
  simp [h1]

/-- C17: in a session of N >= 1 segments in which every generation and the
combination succeed, both orchestrators (`handleFormSubmit` of client.js, where
a generation counts as done once the audio metadata has loaded, and
`handleSubmit` of the React page) issue exactly the N generation requests in
segment order followed by the one combine request; request `i` carries
`segment_index = i` and the text of segment `i`; the run ends with exactly the
N paths returned, in segment order, and that list is the combine payload. -/
theorem orchestrators_success_in_order :
    (∀ (browser : Browser) (form : FormFields) (textareas : List String)
        (data : Nat → GeneratedData) (status : Nat → Nat) (dur : Nat → JsNum)
        (cstatus : Nat) (combined : CombinedData),
        1 ≤ (clientSegments browser textareas).length →
        (∀ i text, (clientSegments browser textareas)[i]? = some text →
          browser.fetchGenerateAudio (clientForm form text i) =
              .answered (status i) (.ok (data i))
            ∧ statusOk (status i) = true
            ∧ browser.loadedmetadata ("/generated_audio_files/" ++ (data i).filename) =
                some (dur i)) →
        browser.fetchCombineAudio
            ((List.range (clientSegments browser textareas).length).map
              fun i => (data i).full_path) = .answered cstatus (.ok combined) →
        statusOk cstatus = true →
        (handleFormSubmit browser form textareas).requests =
            clientGenerateRequests form 0 (clientSegments browser textareas) ++
              [.combineAudio ((List.range (clientSegments browser textareas).length).map
                fun i => (data i).full_path)]
          ∧ (handleFormSubmit browser form textareas).requests.length =
              (clientSegments browser textareas).length + 1
          ∧ (∀ i text, (clientSegments browser textareas)[i]? = some text →
              (handleFormSubmit browser form textareas).requests[i]? =
                some (ClientRequest.generateAudio (clientForm form text i)))
          ∧ (handleFormSubmit browser form textareas).currentSegmentPaths =
              (List.range (clientSegments browser textareas).length).map
                (fun i => (data i).full_path)
          ∧ (handleFormSubmit browser form textareas).currentSegmentPaths.length =
              (clientSegments browser textareas).length
          ∧ (handleFormSubmit browser form textareas).finished = true
          ∧ (handleFormSubmit browser form textareas).errorText = "")
      ∧ (∀ (fe : Frontend) (page : PageState) (data : Nat → GeneratedData)
          (combined : CombinedData),
          1 ≤ page.segments.length →
          (∀ i seg, page.segments[i]? = some seg →
            fe.postGenerateAudio (pageForm page.refText page.audioFile seg.text i) =
              .ok (data i)) →
          fe.postCombineAudio
              ((List.range page.segments.length).map fun i => (data i).full_path) =
            .ok combined →
          (handleSubmit fe page).requests =
              pageGenerateRequests page.refText page.audioFile 0 page.segments ++
                [.combineAudio
                  ((List.range page.segments.length).map fun i => (data i).full_path)]
            ∧ (handleSubmit fe page).requests.length = page.segments.length + 1
            ∧ (∀ i seg, page.segments[i]? = some seg →
                (handleSubmit fe page).requests[i]? =
                  some (ClientRequest.generateAudio
                    (pageForm page.refText page.audioFile seg.text i)))
            ∧ (handleSubmit fe page).state.currentSegmentPaths =
                (List.range page.segments.length).map (fun i => (data i).full_path)
            ∧ (handleSubmit fe page).state.currentSegmentPaths.length =
                page.segments.length)
      ∧ (∀ (form : FormFields) (text : String) (i : Nat),
          formGetAll (clientForm form text i) "segment_index" = [toString i]
            ∧ formGetAll (clientForm form text i) "gen_text" = [text])
      ∧ (∀ (refText audioFile text : String) (i : Nat),
          formGetAll (pageForm refText audioFile text i) "segment_index" = [toString i]
            ∧ formGetAll (pageForm refText audioFile text i) "gen_text" = [text]) := by
  refine ⟨?_, ?_, clientForm_fields, pageForm_fields⟩
  · intro browser form textareas data status dur cstatus combined _ hgen hcomb hok
    have hrun := handleFormSubmit_of_success browser form textareas data dur cstatus combined
      (fun i text h =>
        generateSegment_generated browser _ (status i) (data i) (dur i) (hgen i text h).1
          (hgen i text h).2.1 (hgen i text h).2.2)
      hcomb hok
    rw [hrun]
    refine ⟨rfl, ?_, ?_, rfl, ?_, rfl, rfl⟩
    · simp [clientGenerateRequests_length]
    · intro i text h
      exact clientGenerateRequests_getElem? form _ _ i text h
    · simp
  · intro fe page data combined _ hgen hcomb
    obtain ⟨h1, h2, _⟩ := handleSubmit_of_success fe page data combined hgen hcomb
    refine ⟨h1, ?_, ?_, h2, ?_⟩
    · rw [h1]
      simp [pageGenerateRequests_length]
    · intro i seg h
      rw [h1]
      exact pageGenerateRequests_getElem? page.refText page.audioFile _ _ i seg h
    · rw [h2]
      simp

theorem orchestrators_success_in_order_witness :
    (handleFormSubmit failOnBadBrowser [] ["one", "two"]).requests =
      [.generateAudio [("gen_text", "one"), ("segment_index", "0")],
       .generateAudio [("gen_text", "two"), ("segment_index", "1")],
       .combineAudio ["out.wav", "out.wav"]] :=
  (orchestrators_success_in_order.1 failOnBadBrowser [] ["one", "two"]
    (fun _ => { full_path := "out.wav", filename := "out.wav", duration := .num 1 })
    (fun _ => 200) (fun _ => .num 1) 200 { filename := "combined.wav" } (by decide)
    (by
      intro i text h
      have hsegs : clientSegments failOnBadBrowser ["one", "two"] = ["one", "two"] := by
        decide
      rw [hsegs] at h
      match i, h with
      | 0, h => cases h; exact ⟨rfl, rfl, rfl⟩
      | 1, h => cases h; exact ⟨rfl, rfl, rfl⟩
      | (n + 2), h => cases h)
    rfl rfl).1

/-- C18: when generation of segment `k` is the first to fail, both
orchestrators issue the generation requests for segments 0..k once each and
nothing more: no request for a later segment, no second request for segment
`k`, no combine request; the run ends with the error message shown and no
result. -/
theorem orchestrators_halt_on_first_failure :
    (∀ (browser : Browser) (form : FormFields) (textareas : List String)
        (data : Nat → GeneratedData) (status : Nat → Nat) (dur : Nat → JsNum)
        (pre : List String) (t : String) (post : List String) (error : JsError),
        clientSegments browser textareas = pre ++ t :: post →
        (∀ i text, pre[i]? = some text →
          browser.fetchGenerateAudio (clientForm form text i) =
              .answered (status i) (.ok (data i))
            ∧ statusOk (status i) = true
            ∧ browser.loadedmetadata ("/generated_audio_files/" ++ (data i).filename) =
                some (dur i)) →
        GenerationFails browser (clientForm form t pre.length) error →
        (handleFormSubmit browser form textareas).requests =
            clientGenerateRequests form 0 (pre ++ [t])
          ∧ (handleFormSubmit browser form textareas).requests.length = pre.length + 1
          ∧ (∀ paths, ClientRequest.combineAudio paths ∉
              (handleFormSubmit browser form textareas).requests)
          ∧ (handleFormSubmit browser form textareas).errorText = error.message
          ∧ (handleFormSubmit browser form textareas).finished = true
          ∧ (handleFormSubmit browser form textareas).resultShown = false
          ∧ (handleFormSubmit browser form textareas).finalAudioSrc = none)
      ∧ (∀ (fe : Frontend) (page : PageState) (data : Nat → GeneratedData)
          (pre : List SegmentEntry) (t : SegmentEntry) (post : List SegmentEntry)
          (error : JsError),
          page.segments = pre ++ t :: post →
          (∀ i seg, pre[i]? = some seg →
            fe.postGenerateAudio (pageForm page.refText page.audioFile seg.text i) =
              .ok (data i)) →
          fe.postGenerateAudio (pageForm page.refText page.audioFile t.text pre.length) =
            .error error →
          (handleSubmit fe page).requests =
              pageGenerateRequests page.refText page.audioFile 0 (pre ++ [t])
            ∧ (handleSubmit fe page).requests.length = pre.length + 1
            ∧ (∀ paths, ClientRequest.combineAudio paths ∉ (handleSubmit fe page).requests)
            ∧ (handleSubmit fe page).state.error = (apiThrown fe.now error).message
            ∧ (handleSubmit fe page).state.finalAudioUrl = page.finalAudioUrl) := by
  constructor
  · intro browser form textareas data status dur pre t post error hsegs hpre hfail
    have hrun := handleFormSubmit_of_failure browser form textareas data dur pre t post error
      hsegs
      (fun i text h =>
        generateSegment_generated browser _ (status i) (data i) (dur i) (hpre i text h).1
          (hpre i text h).2.1 (hpre i text h).2.2)
      (generateSegment_thrown browser _ error hfail)
    rw [hrun]
    refine ⟨rfl, ?_, ?_, rfl, rfl, rfl, rfl⟩
    · simp [clientGenerateRequests_length]
    · intro paths
      exact combine_not_mem_clientGenerateRequests form 0 _ paths
  · intro fe page data pre t post error hsegs hpre hfail
    obtain ⟨h1, h2, h3, _⟩ := handleSubmit_of_failure fe page data pre t post error hsegs
      hpre hfail
    refine ⟨h1, ?_, ?_, h2, h3⟩
    · rw [h1]
      simp [pageGenerateRequests_length]
    · intro paths
      rw [h1]
      exact combine_not_mem_pageGenerateRequests _ _ 0 _ paths

theorem orchestrators_halt_on_first_failure_witness :
    (handleFormSubmit failOnBadBrowser [] ["fine", "bad", "later"]).requests =
      [.generateAudio [("gen_text", "fine"), ("segment_index", "0")],
       .generateAudio [("gen_text", "bad"), ("segment_index", "1")]] :=
  (orchestrators_halt_on_first_failure.1 failOnBadBrowser [] ["fine", "bad", "later"]
    (fun _ => { full_path := "out.wav", filename := "out.wav", duration := .num 1 })
    (fun _ => 200) (fun _ => .num 1) ["fine"] "bad" ["later"]
    (mkError ("Server error: " ++ toString 500)) (by decide)
    (by
      intro i text h
      match i, h with
      | 0, h => cases h; exact ⟨rfl, rfl, rfl⟩
      | (n + 1), h => cases h)
    (Or.inr (Or.inl ⟨500, _, rfl, rfl, rfl⟩))).1

/-- C19 (as stated, refuted): two runs of `handleFormSubmit` that fail with the
same server answer 500, one at segment 0 and one at segment 1, show the same
text `Server error: 500`; the same holds for two runs of `handleSubmit`. -/
theorem failures_at_different_segments_same_text :
    (handleFormSubmit failOnBadBrowser [] ["bad", "fine"]).errorText = "Server error: 500"
      ∧ (handleFormSubmit failOnBadBrowser [] ["fine", "bad"]).errorText =
          "Server error: 500"
      ∧ (handleFormSubmit failOnBadBrowser [] ["bad", "fine"]).requests.length = 1
      ∧ (handleFormSubmit failOnBadBrowser [] ["fine", "bad"]).requests.length = 2
      ∧ (handleSubmit failOnBadFrontend (samplePage ["bad", "fine"])).state.error =
          .string "connect ECONNREFUSED"
      ∧ (handleSubmit failOnBadFrontend (samplePage ["fine", "bad"])).state.error =
          .string "connect ECONNREFUSED" :=
  ⟨rfl, rfl, rfl, rfl, rfl, rfl⟩

/-- C19 (amended): when a run fails at segment `k`, what the orchestrator shows
is the message of the thrown error alone, without the segment index: in
client.js `Server error: <status>` for an answer outside 200-299, in the React
page the `message` of what `api.js` throws for the axios error; neither
depends on `k`. -/
theorem orchestrators_surface_message_only :
    (∀ (browser : Browser) (form : FormFields) (textareas : List String)
        (data : Nat → GeneratedData) (status : Nat → Nat) (dur : Nat → JsNum)
        (pre : List String) (t : String) (post : List String) (failStatus : Nat)
        (json : Except JsError GeneratedData),
        clientSegments browser textareas = pre ++ t :: post →
        (∀ i text, pre[i]? = some text →
          browser.fetchGenerateAudio (clientForm form text i) =
              .answered (status i) (.ok (data i))
            ∧ statusOk (status i) = true
            ∧ browser.loadedmetadata ("/generated_audio_files/" ++ (data i).filename) =
                some (dur i)) →
        browser.fetchGenerateAudio (clientForm form t pre.length) =
          .answered failStatus json →
        statusOk failStatus = false →
        (handleFormSubmit browser form textareas).errorText =
          "Server error: " ++ toString failStatus)
      ∧ (∀ (fe : Frontend) (page : PageState) (data : Nat → GeneratedData)
          (pre : List SegmentEntry) (t : SegmentEntry) (post : List SegmentEntry)
          (error : JsError),
          page.segments = pre ++ t :: post →
          (∀ i seg, pre[i]? = some seg →
            fe.postGenerateAudio (pageForm page.refText page.audioFile seg.text i) =
              .ok (data i)) →
          fe.postGenerateAudio (pageForm page.refText page.audioFile t.text pre.length) =
            .error error →
          (handleSubmit fe page).state.error = (apiThrown fe.now error).message) := by
  constructor
  · intro browser form textareas data status dur pre t post failStatus json hsegs hpre
      hfetch hstatus
    have hfail : GenerationFails browser (clientForm form t pre.length)
        (mkError ("Server error: " ++ toString failStatus)) :=
      Or.inr (Or.inl ⟨failStatus, json, hfetch, hstatus, rfl⟩)
    have hrun := handleFormSubmit_of_failure browser form textareas data dur pre t post _
      hsegs
      (fun i text h =>
        generateSegment_generated browser _ (status i) (data i) (dur i) (hpre i text h).1
          (hpre i text h).2.1 (hpre i text h).2.2)
      (generateSegment_thrown browser _ _ hfail)
    rw [hrun]
    rfl
  · intro fe page data pre t post error hsegs hpre hfail
    exact (handleSubmit_of_failure fe page data pre t post error hsegs hpre hfail).2.1

theorem orchestrators_surface_message_only_witness :
    (handleFormSubmit failOnBadBrowser [] ["fine", "bad", "later"]).errorText =
      "Server error: " ++ toString 500 :=
  orchestrators_surface_message_only.1 failOnBadBrowser [] ["fine", "bad", "later"]
    (fun _ => { full_path := "out.wav", filename := "out.wav", duration := .num 1 })
    (fun _ => 200) (fun _ => .num 1) ["fine"] "bad" ["later"] 500 _ (by decide)
    (by
      intro i text h
      match i, h with
      | 0, h => cases h; exact ⟨rfl, rfl, rfl⟩
      | (n + 1), h => cases h)
    rfl rfl

theorem digitValue_digitChar (d : Nat) (hd : d < 10) : digitValue (Nat.digitChar d) = d := by
  interval_cases d <;> rfl

theorem foldl_toDigitsCore (fuel n : Nat) (ds : List Char) (h : n < fuel) :
    (Nat.toDigitsCore 10 fuel n ds).foldl (fun acc c => acc * 10 + digitValue c) 0 =
      ds.foldl (fun acc c => acc * 10 + digitValue c) n := by
  induction fuel generalizing n ds with
  | zero => omega
  | succ fuel ih =>
    have hmod : digitValue (Nat.digitChar (n % 10)) = n % 10 :=
      digitValue_digitChar _ (Nat.mod_lt _ (by decide))
    unfold Nat.toDigitsCore
    by_cases h0 : n / 10 = 0
    · simp only [h0, if_true, List.foldl_cons, hmod]
      have : n % 10 = n := Nat.mod_eq_of_lt (by omega)
      rw [Nat.zero_mul, Nat.zero_add, this]
    · simp only [h0, if_false]
      rw [ih (n / 10) _ (by omega)]
      simp only [List.foldl_cons, hmod]
      have : n / 10 * 10 + n % 10 = n := by omega
      rw [this]

theorem decimalValue_toDigits (n : Nat) : decimalValue (Nat.toDigits 10 n) = n := by
  unfold decimalValue Nat.toDigits
  rw [foldl_toDigitsCore (n + 1) n [] (Nat.lt_succ_self n)]
  rfl

theorem toString_nat_injective (n m : Nat) (h : toString n = toString m) : n = m := by
  have hdata : (Nat.toDigits 10 n) = (Nat.toDigits 10 m) := by
    have := congrArg String.data h
    simpa [toString, Nat.repr] using this
  have := congrArg decimalValue hdata
  rwa [decimalValue_toDigits, decimalValue_toDigits] at this

theorem EntryName.render_injective (a b : EntryName) (h : a.render = b.render) : a = b := by
  have hdata := congrArg String.data h
  cases a with
  | srt n =>
    cases b with
    | srt m =>
      simp only [EntryName.render, String.data_append, List.append_assoc] at hdata
      have h1 := List.append_cancel_left hdata
      have h2 := List.append_cancel_right h1
      have : toString n = toString m := String.ext h2
      rw [toString_nat_injective n m this]
    | metadata m =>
      simp only [EntryName.render, String.data_append, List.append_assoc] at hdata
      have h1 := List.append_cancel_left hdata
      have h2 := congrArg List.getLast? h1
      simp [List.getLast?_append] at h2
  | metadata n =>
    cases b with
    | srt m =>
      simp only [EntryName.render, String.data_append, List.append_assoc] at hdata
      have h1 := List.append_cancel_left hdata
      have h2 := congrArg List.getLast? h1
      simp [List.getLast?_append] at h2
    | metadata m =>
      simp only [EntryName.render, String.data_append, List.append_assoc] at hdata
      have h1 := List.append_cancel_left hdata
      have h2 := List.append_cancel_right h1
      have : toString n = toString m := String.ext h2
      rw [toString_nat_injective n m this]

theorem allSrtStep_names (env : Env) (i : Nat) (p : Path) :
    ∀ e ∈ (allSrtStep env i p).1, e.name = .srt (i + 1) ∨ e.name = .metadata (i + 1) := by
  intro e he
  unfold allSrtStep at he
  cases hpost : env.postGenerateSrt p with
  | error err =>
    rw [hpost] at he
    simp at he
  | ok data =>
    rw [hpost] at he
    simp only at he
    split at he
    · cases hread : env.readFileSync (metadataPathOf p) with
      | error err =>
        rw [hread] at he
        simp only [List.mem_singleton] at he
        subst he
        exact Or.inl rfl
      | ok metadata =>
        rw [hread] at he
        simp only [List.mem_cons, List.mem_singleton, List.not_mem_nil, or_false] at he
        rcases he with rfl | rfl
        · exact Or.inl rfl
        · exact Or.inr rfl
    · simp only [List.mem_singleton] at he
      subst he
      exact Or.inl rfl

theorem allSrtLoop_names (env : Env) (paths : List Path) (i : Nat) :
    ∀ e ∈ (allSrtLoop env i paths).1,
      ∃ j p, paths[j]? = some p
        ∧ (e.name = .srt (i + j + 1) ∨ e.name = .metadata (i + j + 1)) := by
  induction paths generalizing i with
  | nil =>
    intro e he
    simp [allSrtLoop] at he
  | cons a rest ih =>
    intro e he
    simp only [allSrtLoop, List.mem_append] at he
    rcases he with he | he
    · exact ⟨0, a, List.getElem?_cons_zero, by simpa using allSrtStep_names env i a e he⟩
    · obtain ⟨j, p, hj, hname⟩ := ih (i + 1) e he
      refine ⟨j + 1, p, by simpa using hj, ?_⟩
      have hidx : i + 1 + j + 1 = i + (j + 1) + 1 := by omega
      rw [hidx] at hname
      exact hname

theorem allSrtStep_pairwise (env : Env) (i : Nat) (p : Path) :
    (allSrtStep env i p).1.Pairwise
      (fun a b => a.name.segment ≤ b.name.segment ∧ a.name ≠ b.name) := by
  unfold allSrtStep
  cases env.postGenerateSrt p with
  | error err => simp
  | ok data =>
    simp only
    split
    · cases env.readFileSync (metadataPathOf p) with
      | error err => simp
      | ok metadata => simp [EntryName.segment]
    · simp

theorem allSrtLoop_pairwise (env : Env) (paths : List Path) (i : Nat) :
    (allSrtLoop env i paths).1.Pairwise
      (fun a b => a.name.segment ≤ b.name.segment ∧ a.name ≠ b.name) := by
  induction paths generalizing i with
  | nil => simp [allSrtLoop]
  | cons a rest ih =>
    simp only [allSrtLoop]
    rw [List.pairwise_append]
    refine ⟨allSrtStep_pairwise env i a, ih (i + 1), ?_⟩
    intro x hx y hy
    have hxseg := (allSrtStep_entries env i a x hx).2
    obtain ⟨j, q, data, _, _, hyseg⟩ := allSrtLoop_entries env rest (i + 1) y hy
    constructor
    · omega
    · intro hxy
      rw [hxy] at hxseg
      omega

/-- C21: in the bulk archive every entry produced for the path at 0-based
position `i` is named `segment_<i+1>.srt` (document) or
`segment_<i+1>_metadata.json` (sidecar), whatever happens at the other
positions; the entry names, as written into the archive, are pairwise
distinct, the entries appear in input order, and the number in a name is the
position of its path plus one. -/
theorem bulk_archive_entry_names (env : Env) (paths : List Path) :
    (∀ e ∈ (generateAllSrt env { paths := .array paths }).response.archiveEntries,
        ∃ i p, paths[i]? = some p
          ∧ (e.name = .srt (i + 1) ∨ e.name = .metadata (i + 1))
          ∧ e.name.segment = i + 1)
      ∧ (∀ (i : Nat) (p : Path) (data : Bytes),
          paths[i]? = some p → env.postGenerateSrt p = .ok data →
          ({ name := .srt (i + 1), data := data } : ArchiveEntry) ∈
              (generateAllSrt env { paths := .array paths }).response.archiveEntries
            ∧ (∀ m : Bytes, env.existsSync (metadataPathOf p) = true →
                env.readFileSync (metadataPathOf p) = .ok m →
                ({ name := .metadata (i + 1), data := m } : ArchiveEntry) ∈
                  (generateAllSrt env { paths := .array paths }).response.archiveEntries))
      ∧ ((generateAllSrt env { paths := .array paths }).response.archiveEntries.map
          fun e => e.name.render).Nodup
      ∧ ((generateAllSrt env { paths := .array paths }).response.archiveEntries.map
          fun e => e.name.segment).Pairwise (fun a b => a ≤ b)
      ∧ (∀ n : Nat, (EntryName.srt n).render = "segment_" ++ toString n ++ ".srt"
          ∧ (EntryName.metadata n).render = "segment_" ++ toString n ++ "_metadata.json") := by
  by_cases hne : paths = []
  · subst hne
    refine ⟨?_, ?_, ?_, ?_, fun n => ⟨rfl, rfl⟩⟩
    · intro e he
      simp [generateAllSrt, validPaths, JsValue.truthy, JsValue.isArray, handleError,
        Response.archiveEntries, mkError] at he
    · intro i p data hp
      simp at hp
    · simp [generateAllSrt, validPaths, JsValue.truthy, JsValue.isArray, handleError,
        Response.archiveEntries, mkError]
    · simp [generateAllSrt, validPaths, JsValue.truthy, JsValue.isArray, handleError,
        Response.archiveEntries, mkError]
  · rw [archiveEntries_generateAllSrt env paths hne]
    have hpw := allSrtLoop_pairwise env paths 0
    refine ⟨?_, ?_, ?_, ?_, fun n => ⟨rfl, rfl⟩⟩
    · intro e he
      obtain ⟨j, p, hj, hname⟩ := allSrtLoop_names env paths 0 e he
      rw [Nat.zero_add] at hname
      refine ⟨j, p, hj, hname, ?_⟩
      rcases hname with h | h <;> rw [h] <;> rfl
    · intro i p data hget hpost
      refine ⟨?_, ?_⟩
      · exact allSrtLoop_mem_of_step env paths 0 i p _ hget
          (by simpa using allSrtStep_srt_mem env i p data hpost)
      · intro m hside hread
        exact allSrtLoop_mem_of_step env paths 0 i p _ hget
          (by simpa using allSrtStep_metadata_mem env i p data m hpost hside hread)
    · rw [List.Nodup, List.pairwise_map]
      refine hpw.imp ?_
      intro a b hab hrender
      exact hab.2 (EntryName.render_injective _ _ hrender)
    · rw [List.pairwise_map]
      exact hpw.imp fun hab => hab.1

theorem bulk_archive_entry_names_witness :
    ({ name := .srt 3, data := [1, 2, 3] } : ArchiveEntry) ∈
      (generateAllSrt oneFailureEnv
        { paths := .array ["a.wav", "b.wav", "c.wav"] }).response.archiveEntries :=
  ((bulk_archive_entry_names oneFailureEnv ["a.wav", "b.wav", "c.wav"]).2.1 2 "c.wav"
    [1, 2, 3] rfl rfl).1

theorem replaceFirstChars_of_no_occurrence (pat rep : List Char) (hpat : pat ≠ [])
    (l : List Char) (hno : ¬ pat <:+: l) :
    replaceFirstChars pat rep l = l := by
  induction l with
  | nil => simp [replaceFirstChars, hpat]
  | cons c cs ih =>
    have hnot : pat.isPrefixOf (c :: cs) = false := by
      cases hpre : pat.isPrefixOf (c :: cs) with
      | false => rfl
      | true => exact absurd (List.isPrefixOf_iff_prefix.mp hpre).isInfix hno
    have htail : ¬ pat <:+: cs := by
      intro h
      obtain ⟨s, t, hst⟩ := h
      exact hno ⟨c :: s, t, by simp [hst]⟩
    rw [replaceFirstChars, hnot, ih htail]
    rfl

theorem metadataPathOf_of_no_wav (p : Path) (hno : ¬ ".wav".data <:+: p.data) :
    metadataPathOf p = p := by
  unfold metadataPathOf
  rw [replaceFirstChars_of_no_occurrence ".wav".data ".json".data (by decide) p.data hno]

/-- C22: for an audio path without the substring `.wav` the sidecar path
computed by the exporter is the audio path itself; hence a `/generate-srt`
request for such an existing file whose content is not valid JSON is answered
with the error object for the parse error and not with the subtitle document,
although the call to the subtitle backend was issued and succeeded. -/
theorem generateSrt_without_wav_parses_audio_file (env : Env) (p : Path)
    (hno : ¬ ".wav".data <:+: p.data) :
    metadataPathOf p = p
      ∧ (∀ (data content : Bytes) (error : JsError),
          p ≠ "" → env.existsSync p = true → env.postGenerateSrt p = .ok data →
          env.readFileSync p = .ok content → env.jsonParse content = .error error →
          (generateSrt env { audioPath := .string p }).response = handleError env error []
            ∧ (generateSrt env { audioPath := .string p }).response.isError = true
            ∧ backendCalls (generateSrt env { audioPath := .string p }).effects =
                [.generateSrt p]) := by
  have hmeta := metadataPathOf_of_no_wav p hno
  refine ⟨hmeta, ?_⟩
  intro data content error hp hex hpost hread hparse
  have hattach : attachMetadata env p = ([], some error) := by
    simp [attachMetadata, hmeta, hex, hread, hparse]
  have hrun : generateSrt env { audioPath := .string p } =
      { response := handleError env error []
        effects := [.post (.generateSrt p)] ++
          [.console .error ("🔴 Error generating SRT: " ++ error.message)] } := by
    simp only [generateSrt, generateSrtTry_of_valid env p data hp hex hpost, hattach]
  rw [hrun]
  exact ⟨rfl, handleError_isError env error [], rfl⟩

theorem generateSrt_without_wav_parses_audio_file_witness :
    (generateSrt plainFileEnv { audioPath := .string "notes.txt" }).response =
      localErrorAnswer plainFileEnv "Unexpected token h in JSON at position 0" :=
  ((generateSrt_without_wav_parses_audio_file plainFileEnv "notes.txt" (by decide)).2
    [7, 8] [104, 105] (mkError "Unexpected token h in JSON at position 0")
    (by decide) rfl rfl rfl rfl).1

theorem truncate_of_floor_zero (q : ℚ) (h0 : 0 ≤ q) (h1 : q < 1) : truncate q = 0 := by
  unfold truncate
  rw [if_pos h0, Int.floor_eq_iff]
  constructor <;> simpa

/-- C25: at `s = 59.9996` the function `formatTime` returns `00:00:60.000`:
the value `s mod 60 = 59.9996` is rounded to three decimals by `toFixed(3)`
without a carry into the minutes, so the seconds field shown is 60.000 and not
below 60. -/
theorem formatTime_rounds_seconds_to_sixty :
    formatTime (.num (599996 / 10000)) = "00:00:60.000" := by
  have h1 : ⌊(599996 / 10000 : ℚ) / 3600⌋ = 0 := by
    rw [Int.floor_eq_iff]
    norm_num
  have ht1 : truncate ((599996 / 10000 : ℚ) / 3600) = 0 :=
    truncate_of_floor_zero _ (by norm_num) (by norm_num)
  have ht2 : truncate ((599996 / 10000 : ℚ) / 60) = 0 :=
    truncate_of_floor_zero _ (by norm_num) (by norm_num)
  have h2 : ⌊((599996 / 10000 : ℚ) - 3600 * ((0 : ℤ) : ℚ)) / 60⌋ = 0 := by
    rw [Int.floor_eq_iff]
    norm_num
  have h3 : fixedScaled 3 |(599996 / 10000 : ℚ) - 60 * ((0 : ℤ) : ℚ)| = 60000 := by
    unfold fixedScaled
    have : ⌊|(599996 / 10000 : ℚ) - 60 * ((0 : ℤ) : ℚ)| * 10 ^ 3 + 1 / 2⌋ = 60000 := by
      rw [Int.floor_eq_iff]
      norm_num [abs_of_pos]
    rw [this]
    rfl
  have hpos : ¬ ((599996 / 10000 : ℚ) - 60 * ((0 : ℤ) : ℚ) < 0) := by norm_num
  simp only [formatTime, JsNum.div, JsNum.mod, JsNum.floor, integerToString, toFixed,
    show (3600 : ℚ) ≠ 0 by norm_num, show (60 : ℚ) ≠ 0 by norm_num, if_false, h1, ht1, ht2,
    h2, h3, hpos, Int.floor_intCast]
  rfl

theorem durationOr0_of_finite (ds : List ℚ) (i : Nat) (d : ℚ) (h : ds[i]? = some d) :
    durationOr0 (ds.map JsNum.num) i = .num d := by
  unfold durationOr0
  rw [List.getElem?_map, h]
  by_cases hd : d = 0
  · simp [JsNum.truthy, hd]
  · simp [JsNum.truthy, hd]

/-! ### Importing an SRT document: `parseSrtContent` and the editor's split -/

theorem run_seq {α : Type} (a b : Regex) (s : List Char) (k : List Char → Option α) :
    (Regex.seq a b).run s k = a.run s fun s1 => b.run s1 k := rfl

theorem run_alt {α : Type} (a b : Regex) (s : List Char) (k : List Char → Option α) :
    (Regex.alt a b).run s k =
      match a.run s k with
      | some r => some r
      | none => b.run s k := rfl

theorem run_chr {α : Type} (c : Char) (cs : List Char) (k : List Char → Option α) :
    (Regex.chr c).run (c :: cs) k = k cs := by
  simp [Regex.chr, Regex.run]

theorem run_cls {α : Type} (p : Char → Bool) (c : Char) (cs : List Char)
    (k : List Char → Option α) (hp : p c = true) :
    (Regex.cls p).run (c :: cs) k = k cs := by
  simp [Regex.run, hp]

theorem run_lineBreak {α : Type} (s : List Char) (k : List Char → Option α) :
    lineBreak.run s k =
      match stripLineBreak s with
      | some r => k r
      | none => none := by
  unfold lineBreak
  cases s with
  | nil => simp [Regex.run, Regex.chr, stripLineBreak]
  | cons c cs =>
    by_cases hn : c = '\n'
    · subst hn
      simp [Regex.run, Regex.chr, stripLineBreak]
    · by_cases hr : c = '\r'
      · subst hr
        cases cs with
        | nil => simp [Regex.run, Regex.chr, stripLineBreak]
        | cons d ds =>
          by_cases hd : d = '\n'
          · subst hd
            simp [Regex.run, Regex.chr, stripLineBreak]
            cases k ds <;> rfl
          · simp [Regex.run, Regex.chr, stripLineBreak, hd]
      · simp [Regex.run, Regex.chr, stripLineBreak, hn, hr]

theorem stripLineBreak_eq_some (s r : List Char) (h : stripLineBreak s = some r) :
    s = '\n' :: r ∨ s = '\r' :: '\n' :: r := by
  cases s with
  | nil => simp [stripLineBreak] at h
  | cons c cs =>
    by_cases hn : c = '\n'
    · subst hn
      simp [stripLineBreak] at h
      exact Or.inl (by rw [h])
    · by_cases hr : c = '\r'
      · subst hr
        cases cs with
        | nil => simp [stripLineBreak] at h
        | cons d ds =>
          by_cases hd : d = '\n'
          · subst hd
            simp [stripLineBreak] at h
            exact Or.inr (by rw [h])
          · simp [stripLineBreak, hd] at h
      · simp [stripLineBreak, hn, hr] at h

theorem run_cueEnd {α : Type} (s : List Char) (k : List Char → Option α) :
    cueEnd.run s k =
      match (stripLineBreak s).bind stripLineBreak with
      | some r =>
        (match k r with
          | some v => some v
          | none => if s = [] then k s else none)
      | none => if s = [] then k s else none := by
  have hseq : (Regex.seq lineBreak lineBreak).run s k =
      match (stripLineBreak s).bind stripLineBreak with
      | some r => k r
      | none => none := by
    rw [run_seq, run_lineBreak]
    cases h1 : stripLineBreak s with
    | none => rfl
    | some r1 =>
      simp only [run_lineBreak, Option.some_bind]
  have hend : Regex.endOfInput.run s k = if s = [] then k s else none := by
    cases s <;> simp [Regex.run]
  unfold cueEnd
  rw [run_alt, hseq, hend]
  cases h : (stripLineBreak s).bind stripLineBreak with
  | none => rfl
  | some r => rfl

theorem isTimestamp_eq (ts : List Char) (h : isTimestamp ts = true) :
    ∃ a b c d e f g h i : Char, ts = [a, b, ':', c, d, ':', e, f, ',', g, h, i]
      ∧ isDigit a = true ∧ isDigit b = true ∧ isDigit c = true ∧ isDigit d = true
      ∧ isDigit e = true ∧ isDigit f = true ∧ isDigit g = true ∧ isDigit h = true
      ∧ isDigit i = true := by
  unfold isTimestamp at h
  split at h
  · rename_i a b p c d q e f r g h' i
    simp only [Bool.and_eq_true, decide_eq_true_eq] at h
    obtain ⟨⟨⟨⟨⟨⟨⟨⟨⟨⟨⟨ha, hb⟩, hp⟩, hc⟩, hd⟩, hq⟩, he⟩, hf⟩, hr⟩, hg⟩, hh⟩, hi⟩ := h
    subst hp hq hr
    exact ⟨a, b, c, d, e, f, g, h', i, rfl, ha, hb, hc, hd, he, hf, hg, hh, hi⟩
  · cases h

theorem run_timestamp {α : Type} (ts r : List Char) (k : List Char → Option α)
    (h : isTimestamp ts = true) :
    timestampPattern.run (ts ++ r) k = k r := by
  obtain ⟨a, b, c, d, e, f, g, h', i, rfl, ha, hb, hc, hd, he, hf, hg, hh, hi⟩ :=
    isTimestamp_eq ts h
  simp [timestampPattern, twoDigits, Regex.run, Regex.chr, ha, hb, hc, hd, he, hf, hg, hh, hi]

theorem greedyRun_all {α : Type} (p : Char → Bool) (ds r : List Char)
    (k : List Char → Option α) (v : α)
    (hds : ∀ x ∈ ds, p x = true)
    (hr : ∀ c cs, r = c :: cs → p c = false)
    (hk : k r = some v) :
    greedyRun p (ds ++ r) k = some v := by
  induction ds with
  | nil =>
    cases r with
    | nil => simpa [greedyRun] using hk
    | cons c cs =>
      have := hr c cs rfl
      simp [greedyRun, this, hk]
  | cons d ds ih =>
    have hd := hds d (List.mem_cons_self _ _)
    have := ih (fun x hx => hds x (List.mem_cons_of_mem _ hx))
    simp [greedyRun, hd, this]

theorem isDigit_newline : isDigit '\n' = false := by decide

theorem run_cueHead {α : Type} (c : Cue) (rest : List Char) (k : List Char → Option α)
    (v : α)
    (hnum : c.number ≠ []) (hdig : ∀ x ∈ c.number, isDigit x = true)
    (hs : isTimestamp c.startTime = true) (he : isTimestamp c.endTime = true)
    (hk : k rest = some v) :
    cueHead.run (c.number ++ '\n' :: (c.startTime ++ (' ' :: '-' :: '-' :: '>' :: ' ' ::
      (c.endTime ++ '\n' :: rest)))) k = some v := by
  cases hn : c.number with
  | nil => exact absurd hn hnum
  | cons d ds =>
    rw [hn] at hdig
    have hd := hdig d (List.mem_cons_self _ _)
    unfold cueHead
    rw [run_seq, List.cons_append]
    have hplus : ∀ (s : List Char) (k' : List Char → Option α),
        (Regex.plus isDigit).run (d :: s) k' = greedyRun isDigit s k' := by
      intro s k'
      simp [Regex.run, hd]
    rw [hplus]
    apply greedyRun_all isDigit ds _ _ v (fun x hx => hdig x (List.mem_cons_of_mem _ hx))
    · intro c' cs hc
      cases hc
      exact isDigit_newline
    · rw [run_seq, run_lineBreak]
      simp only [stripLineBreak, if_true]
      rw [run_seq, run_timestamp _ _ _ hs]
      rw [run_seq, run_chr, run_seq, run_chr, run_seq, run_chr, run_seq, run_chr, run_seq,
        run_chr, run_seq, run_timestamp _ _ _ he, run_lineBreak]
      simp only [stripLineBreak, if_true]
      exact hk

theorem anyChar_true (c : Char) : anyChar c = true := by
  unfold anyChar
  cases isWhiteSpace c <;> rfl

theorem lazyRun_shortest {α : Type} (text tail : List Char) (k : List Char → Option α)
    (v : α)
    (hnone : ∀ pre u, text = pre ++ u → u ≠ [] → k (u ++ tail) = none)
    (hk : k tail = some v) :
    lazyRun anyChar (text ++ tail) k = some v := by
  induction text with
  | nil =>
    cases tail with
    | nil => simpa [lazyRun] using hk
    | cons c cs => simp [lazyRun, hk]
  | cons a u ih =>
    have h0 : k (a :: u ++ tail) = none := hnone [] (a :: u) rfl (by simp)
    have hrest : ∀ pre u', u = pre ++ u' → u' ≠ [] → k (u' ++ tail) = none := by
      intro pre u' hu hne
      exact hnone (a :: pre) u' (by simp [hu]) hne
    have h0' : k (a :: (u ++ tail)) = none := h0
    simp [lazyRun, h0', anyChar_true, ih hrest]

theorem suffix_pattern_contra (text pre u tail P r : List Char)
    (hP : ∀ x ∈ P, isWhiteSpace x = true)
    (hblank : ['\n', '\n'] <:+: P ∨ ['\n', '\r', '\n'] <:+: P)
    (hno1 : ¬ ['\n', '\n'] <:+: text) (hno2 : ¬ ['\n', '\r', '\n'] <:+: text)
    (hlast : ∀ x, text.getLast? = some x → isWhiteSpace x = false)
    (htext : text = pre ++ u) (hu : u ≠ [])
    (heq : u ++ tail = P ++ r) : False := by
  rcases List.append_eq_append_iff.mp heq with ⟨a', hPu, _⟩ | ⟨c', huP, _⟩
  · -- `u` is a prefix of the pattern: the last character of the text is white space
    obtain ⟨x, hx⟩ : ∃ x, u.getLast? = some x := by
      cases h : u.getLast? with
      | none => exact absurd (List.getLast?_eq_none_iff.mp h) hu
      | some x => exact ⟨x, rfl⟩
    have hxu : x ∈ u := List.mem_of_getLast?_eq_some hx
    have hxP : x ∈ P := by
      rw [hPu]
      exact List.mem_append_left _ hxu
    have hws := hP x hxP
    have hlast' : text.getLast? = some x := by
      rw [htext, List.getLast?_append, hx]
      rfl
    rw [hlast x hlast'] at hws
    cases hws
  · -- the pattern is a prefix of `u`: the text holds a blank line
    have hinfix : P <:+: text := ⟨pre, c', by rw [htext, huP]; simp⟩
    rcases hblank with h | h
    · exact hno1 (h.trans hinfix)
    · exact hno2 (h.trans hinfix)

theorem no_separator_inside (text pre u tail : List Char)
    (hno1 : ¬ ['\n', '\n'] <:+: text) (hno2 : ¬ ['\n', '\r', '\n'] <:+: text)
    (hlast : ∀ x, text.getLast? = some x → isWhiteSpace x = false)
    (htext : text = pre ++ u) (hu : u ≠ []) :
    (stripLineBreak (u ++ tail)).bind stripLineBreak = none := by
  cases h : (stripLineBreak (u ++ tail)).bind stripLineBreak with
  | none => rfl
  | some r2 =>
    exfalso
    obtain ⟨r1, h1, h2⟩ := Option.bind_eq_some.mp h
    have hws : ∀ P : List Char, (∀ x ∈ P, x = '\n' ∨ x = '\r') →
        ∀ x ∈ P, isWhiteSpace x = true := by
      intro P hP x hx
      rcases hP x hx with rfl | rfl <;> decide
    rcases stripLineBreak_eq_some _ _ h1 with e1 | e1 <;>
      rcases stripLineBreak_eq_some _ _ h2 with e2 | e2
    · refine suffix_pattern_contra text pre u tail ['\n', '\n'] r2
        (hws _ (by simp)) (Or.inl (List.infix_refl _)) hno1 hno2 hlast htext hu ?_
      rw [e1, e2]
      rfl
    · refine suffix_pattern_contra text pre u tail ['\n', '\r', '\n'] r2
        (hws _ (by simp)) (Or.inr (List.infix_refl _)) hno1 hno2 hlast htext hu ?_
      rw [e1, e2]
      rfl
    · refine suffix_pattern_contra text pre u tail ['\r', '\n', '\n'] r2
        (hws _ (by simp)) (Or.inl ⟨['\r'], [], rfl⟩) hno1 hno2 hlast htext hu ?_
      rw [e1, e2]
      rfl
    · refine suffix_pattern_contra text pre u tail ['\r', '\n', '\r', '\n'] r2
        (hws _ (by simp)) (Or.inr ⟨['\r'], [], rfl⟩) hno1 hno2 hlast htext hu ?_
      rw [e1, e2]
      rfl

theorem matchCueAt_cue (c : Cue) (hc : c.WellFormed) (tail after : List Char)
    (htail : (tail = [] ∧ after = []) ∨ tail = '\n' :: '\n' :: after) :
    matchCueAt (c.render ++ tail) = some (c.text, after) := by
  obtain ⟨hnum, hdig, hs, he, _, hno1, hno2, _, hlast⟩ := hc
  have hshape : c.render ++ tail =
      c.number ++ '\n' :: (c.startTime ++ (' ' :: '-' :: '-' :: '>' :: ' ' ::
        (c.endTime ++ '\n' :: (c.text ++ tail)))) := by
    simp [Cue.render, List.append_assoc]
  rw [hshape]
  unfold matchCueAt
  apply run_cueHead c (c.text ++ tail) _ _ hnum hdig hs he
  show lazyRun anyChar (c.text ++ tail) _ = _
  apply lazyRun_shortest
  · intro pre u htext hu
    rw [run_cueEnd, no_separator_inside c.text pre u tail hno1 hno2 hlast htext hu]
    have hne : u ++ tail ≠ [] := by simp [hu]
    simp [hne]
  · rw [run_cueEnd]
    rcases htail with ⟨rfl, rfl⟩ | rfl
    · simp [stripLineBreak]
    · simp [stripLineBreak]

theorem render_ne_nil (c : Cue) (hc : c.WellFormed) : c.render ≠ [] := by
  have hnum := hc.1
  unfold Cue.render
  cases hn : c.number with
  | nil => exact absurd hn hnum
  | cons d ds => simp

theorem execFrom_cue (c : Cue) (hc : c.WellFormed) (tail after : List Char)
    (htail : (tail = [] ∧ after = []) ∨ tail = '\n' :: '\n' :: after) :
    execFrom (c.render ++ tail) = some (c.text, after) := by
  have hm := matchCueAt_cue c hc tail after htail
  cases hr : c.render ++ tail with
  | nil =>
    have := render_ne_nil c hc
    simp at hr
    exact absurd hr.1 this
  | cons x xs =>
    rw [hr] at hm
    simp [execFrom, hm]

theorem execFrom_nil : execFrom [] = none := by
  simp [execFrom, matchCueAt, cueHead, Regex.run]

theorem jsTrim_clean (l w : List Char)
    (hhead : ∀ x, l.head? = some x → isWhiteSpace x = false)
    (hlast : ∀ x, l.getLast? = some x → isWhiteSpace x = false)
    (hw : ∀ x ∈ w, isWhiteSpace x = true) :
    jsTrim (l ++ w) = l := by
  unfold jsTrim
  cases l with
  | nil =>
    have : List.dropWhile isWhiteSpace w = [] := List.dropWhile_eq_nil_iff.mpr hw
    simp [this]
  | cons a l' =>
    have ha := hhead a rfl
    have h1 : List.dropWhile isWhiteSpace (a :: l' ++ w) = a :: l' ++ w := by
      simp [List.dropWhile, ha]
    rw [h1, List.reverse_append]
    rw [List.dropWhile_append_of_pos (by
      intro x hx
      exact hw x (List.mem_reverse.mp hx))]
    have h2 : List.dropWhile isWhiteSpace (a :: l').reverse = (a :: l').reverse := by
      cases hrev : (a :: l').reverse with
      | nil => rfl
      | cons b bs =>
        have hb : (a :: l').getLast? = some b := by
          rw [List.getLast?_eq_head?_reverse, hrev]
          rfl
        have := hlast b hb
        simp [List.dropWhile, this]
    rw [h2, List.reverse_reverse]

theorem renderCues_cons (c : Cue) (more : List Cue) :
    ∃ tail, renderCues (c :: more) = c.render ++ tail
      ∧ ((tail = [] ∧ renderCues more = []) ∨ tail = '\n' :: '\n' :: renderCues more) := by
  cases more with
  | nil => exact ⟨[], by simp [renderCues, joinBlank], Or.inl ⟨rfl, rfl⟩⟩
  | cons c' r => exact ⟨'\n' :: '\n' :: renderCues (c' :: r), rfl, Or.inr rfl⟩

theorem jsTrim_text (c : Cue) (hc : c.WellFormed) : jsTrim c.text = c.text := by
  have := jsTrim_clean c.text [] hc.2.2.2.2.2.2.2.1 hc.2.2.2.2.2.2.2.2 (by simp)
  simpa using this

theorem parseSrtLoop_cues (cues : List Cue) (hwf : ∀ c ∈ cues, c.WellFormed)
    (turns : Nat) (parsedText : List Char) (hturns : cues.length < turns) :
    parseSrtLoop turns (renderCues cues) parsedText =
      some (parsedText ++ (cues.map fun c => c.text ++ ['\n', '\n']).flatten) := by
  induction cues generalizing turns parsedText with
  | nil =>
    cases turns with
    | zero => omega
    | succ t => simp [parseSrtLoop, renderCues, joinBlank, execFrom_nil]
  | cons c more ih =>
    cases turns with
    | zero => omega
    | succ t =>
      have hc := hwf c (List.mem_cons_self _ _)
      obtain ⟨tail, hrender, htail⟩ := renderCues_cons c more
      have hexec : execFrom (renderCues (c :: more)) = some (c.text, renderCues more) := by
        rw [hrender]
        apply execFrom_cue c hc
        rcases htail with ⟨h1, h2⟩ | h
        · exact Or.inl ⟨h1, h2⟩
        · exact Or.inr h
      rw [parseSrtLoop]
      simp only [hexec]
      rw [ih (fun c' hc' => hwf c' (List.mem_cons_of_mem _ hc')) t _
        (by simp only [List.length_cons] at hturns; omega), jsTrim_text c hc]
      simp [List.append_assoc]

theorem join_texts (texts : List (List Char)) (hne : texts ≠ []) :
    (texts.map fun t => t ++ ['\n', '\n']).flatten = joinBlank texts ++ ['\n', '\n'] := by
  induction texts with
  | nil => exact absurd rfl hne
  | cons t rest ih =>
    cases rest with
    | nil => simp [joinBlank]
    | cons y r =>
      have := ih (by simp)
      simp only [List.map_cons, List.flatten_cons] at this ⊢
      rw [this]
      simp [joinBlank, List.append_assoc]

theorem joinBlank_head (t : List Char) (rest : List (List Char)) (ht : t ≠ []) :
    (joinBlank (t :: rest)).head? = t.head? := by
  cases rest with
  | nil => rfl
  | cons y r =>
    cases t with
    | nil => exact absurd rfl ht
    | cons a t' => rfl

theorem joinBlank_ne_nil (texts : List (List Char)) (hne : texts ≠ [])
    (hall : ∀ t ∈ texts, t ≠ []) : joinBlank texts ≠ [] := by
  cases texts with
  | nil => exact absurd rfl hne
  | cons t rest =>
    have ht := hall t (List.mem_cons_self _ _)
    intro h
    have := joinBlank_head t rest ht
    rw [h] at this
    cases t with
    | nil => exact ht rfl
    | cons a t' => cases this

theorem joinBlank_getLast (texts : List (List Char)) (hall : ∀ t ∈ texts, t ≠ [])
    (hlast : ∀ t ∈ texts, ∀ x, t.getLast? = some x → isWhiteSpace x = false) :
    ∀ x, (joinBlank texts).getLast? = some x → isWhiteSpace x = false := by
  induction texts with
  | nil =>
    intro x hx
    simp [joinBlank] at hx
  | cons t rest ih =>
    cases rest with
    | nil =>
      intro x hx
      exact hlast t (List.mem_cons_self _ _) x hx
    | cons y r =>
      intro x hx
      have hrest : joinBlank (y :: r) ≠ [] :=
        joinBlank_ne_nil (y :: r) (by simp) (fun t' ht' => hall t' (List.mem_cons_of_mem _ ht'))
      have hx' : (joinBlank (y :: r)).getLast? = some x := by
        have hjoin : joinBlank (t :: y :: r) = (t ++ ['\n', '\n']) ++ joinBlank (y :: r) := by
          simp [joinBlank, List.append_assoc]
        rw [hjoin, List.getLast?_append] at hx
        cases hl : (joinBlank (y :: r)).getLast? with
        | none => exact absurd (List.getLast?_eq_none_iff.mp hl) hrest
        | some z =>
          rw [hl] at hx
          simpa using hx
      exact ih (fun t' ht' => hall t' (List.mem_cons_of_mem _ ht'))
        (fun t' ht' => hlast t' (List.mem_cons_of_mem _ ht')) x hx'

theorem length_le_renderCues (cues : List Cue) (hwf : ∀ c ∈ cues, c.WellFormed) :
    cues.length ≤ (renderCues cues).length := by
  induction cues with
  | nil => simp
  | cons c more ih =>
    have hc := render_ne_nil c (hwf c (List.mem_cons_self _ _))
    have hlen : 1 ≤ c.render.length := by
      cases h : c.render with
      | nil => exact absurd h hc
      | cons a l => simp
    have := ih (fun c' hc' => hwf c' (List.mem_cons_of_mem _ hc'))
    obtain ⟨tail, hrender, htail⟩ := renderCues_cons c more
    rw [hrender]
    rcases htail with ⟨h1, h2⟩ | h
    · rw [h2] at this
      simp only [List.length_nil, Nat.le_zero] at this
      simp only [List.length_cons, this, List.length_append]
      omega
    · rw [h]
      simp only [List.length_cons, List.length_append]
      omega

theorem parseSrtContent_cues (cues : List Cue) (hne : cues ≠ [])
    (hwf : ∀ c ∈ cues, c.WellFormed) :
    parseSrtContent (String.mk (renderCues cues)) =
      some (String.mk (joinBlank (cues.map fun c => c.text))) := by
  have hloop := parseSrtLoop_cues cues hwf ((renderCues cues).length + 1) []
    (Nat.lt_succ_of_le (length_le_renderCues cues hwf))
  have hjoin : (cues.map fun c => c.text ++ ['\n', '\n']).flatten =
      joinBlank (cues.map fun c => c.text) ++ ['\n', '\n'] := by
    have := join_texts (cues.map fun c => c.text) (by simpa using hne)
    simpa [List.map_map] using this
  have htrim : jsTrim (joinBlank (cues.map fun c => c.text) ++ ['\n', '\n']) =
      joinBlank (cues.map fun c => c.text) := by
    apply jsTrim_clean
    · intro x hx
      cases hcs : cues with
      | nil => exact absurd hcs hne
      | cons c more =>
        rw [hcs] at hx hwf
        have hc := hwf c (List.mem_cons_self _ _)
        rw [List.map_cons, joinBlank_head _ _ hc.2.2.2.2.1] at hx
        exact hc.2.2.2.2.2.2.2.1 x hx
    · apply joinBlank_getLast
      · intro t ht
        obtain ⟨c, hc, rfl⟩ := List.mem_map.mp ht
        exact (hwf c hc).2.2.2.2.1
      · intro t ht
        obtain ⟨c, hc, rfl⟩ := List.mem_map.mp ht
        exact (hwf c hc).2.2.2.2.2.2.2.2
    · intro x hx
      simp only [List.mem_cons, List.mem_singleton, List.not_mem_nil, or_false, or_self] at hx
      subst hx
      decide
  unfold parseSrtContent
  have hlen : (String.mk (renderCues cues)).length = (renderCues cues).length := rfl
  rw [hlen]
  simp only [hloop, List.nil_append, hjoin, Option.map_some', htrim]

theorem splitBlankLines_last (t piece : List Char) (hblank : ¬ ['\n', '\n'] <:+: t) :
    splitBlankLines t piece = [piece.reverse ++ t] := by
  induction t generalizing piece with
  | nil => simp [splitBlankLines]
  | cons a t ih =>
    cases t with
    | nil => simp [splitBlankLines]
    | cons b r =>
      have hnot : ¬ (a = '\n' ∧ b = '\n') := by
        rintro ⟨rfl, rfl⟩
        exact hblank ⟨[], r, rfl⟩
      rw [splitBlankLines, if_neg hnot, ih]
      · simp
      · intro h
        exact hblank (h.trans (List.infix_cons List.infix_rfl))

theorem splitBlankLines_paragraph (t rest piece : List Char) (hblank : ¬ ['\n', '\n'] <:+: t)
    (hlast : ∀ x, t.getLast? = some x → isWhiteSpace x = false) :
    splitBlankLines (t ++ '\n' :: '\n' :: rest) piece =
      (piece.reverse ++ t) :: splitBlankLines rest [] := by
  induction t generalizing piece with
  | nil => simp [splitBlankLines]
  | cons a t ih =>
    cases t with
    | nil =>
      have ha : a ≠ '\n' := by
        rintro rfl
        exact absurd (hlast '\n' rfl) (by decide)
      simp only [List.singleton_append]
      rw [splitBlankLines, if_neg (fun h => ha h.1)]
      simp [splitBlankLines]
    | cons b r =>
      have hnot : ¬ (a = '\n' ∧ b = '\n') := by
        rintro ⟨rfl, rfl⟩
        exact hblank ⟨[], r, rfl⟩
      simp only [List.cons_append]
      rw [splitBlankLines, if_neg hnot]
      have := ih (a :: piece) (fun h => hblank (h.trans (List.infix_cons List.infix_rfl)))
        (fun x hx => hlast x (by simpa [List.getLast?_cons_cons] using hx))
      simp only [List.cons_append] at this
      rw [this]
      simp

theorem splitBlankLines_joinBlank (texts : List (List Char)) (hne : texts ≠ [])
    (hblank : ∀ t ∈ texts, ¬ ['\n', '\n'] <:+: t)
    (hlast : ∀ t ∈ texts, ∀ x, t.getLast? = some x → isWhiteSpace x = false) :
    splitBlankLines (joinBlank texts) [] = texts := by
  induction texts with
  | nil => exact absurd rfl hne
  | cons t rest ih =>
    cases rest with
    | nil =>
      simpa [joinBlank] using splitBlankLines_last t [] (hblank t (List.mem_cons_self _ _))
    | cons y r =>
      have hjoin : joinBlank (t :: y :: r) = t ++ '\n' :: '\n' :: joinBlank (y :: r) := rfl
      rw [hjoin, splitBlankLines_paragraph t _ [] (hblank t (List.mem_cons_self _ _))
        (hlast t (List.mem_cons_self _ _)),
        ih (by simp) (fun t' ht' => hblank t' (List.mem_cons_of_mem _ ht'))
          (fun t' ht' => hlast t' (List.mem_cons_of_mem _ ht'))]
      simp

theorem subtitlesOf_texts (now imageCount : Nat) (previous : List Subtitle)
    (cues : List Cue) (hne : cues ≠ []) (hwf : ∀ c ∈ cues, c.WellFormed) :
    (subtitlesOf now imageCount previous (String.mk (joinBlank (cues.map fun c => c.text)))).map
      (fun s => s.text) = cues.map fun c => String.mk c.text := by
  have hsplit : splitBlankLines (joinBlank (cues.map fun c => c.text)) [] =
      cues.map fun c => c.text := by
    apply splitBlankLines_joinBlank
    · simpa using hne
    · intro t ht
      obtain ⟨c, hc, rfl⟩ := List.mem_map.mp ht
      exact (hwf c hc).2.2.2.2.2.1
    · intro t ht
      obtain ⟨c, hc, rfl⟩ := List.mem_map.mp ht
      exact (hwf c hc).2.2.2.2.2.2.2.2
  have hnonempty : String.mk (joinBlank (cues.map fun c => c.text)) ≠ "" := by
    intro h
    have hdata := congrArg String.data h
    exact joinBlank_ne_nil (cues.map fun c => c.text) (by simpa using hne)
      (by
        intro t ht
        obtain ⟨c, hc, rfl⟩ := List.mem_map.mp ht
        exact (hwf c hc).2.2.2.2.1) hdata
  have hfilter : ((cues.map fun c => c.text).filter fun p => jsTrim p ≠ []) =
      cues.map fun c => c.text := by
    apply List.filter_eq_self.mpr
    intro t ht
    obtain ⟨c, hc, rfl⟩ := List.mem_map.mp ht
    rw [jsTrim_text c (hwf c hc)]
    simpa using (hwf c hc).2.2.2.2.1
  unfold subtitlesOf
  rw [if_pos hnonempty]
  simp only [hsplit, hfilter, List.map_map]
  apply List.ext_getElem?
  intro i
  simp only [List.getElem?_map, List.getElem?_enum, Function.comp]
  cases hget : cues[i]? with
  | none => simp
  | some c =>
    have hc : c ∈ cues := List.getElem?_mem hget
    simp [jsTrim_text c (hwf c hc)]

theorem sampleCues_wellFormed : ∀ c ∈ sampleCues, c.WellFormed := by
  intro c hc
  simp only [sampleCues, List.mem_cons, List.mem_singleton, List.not_mem_nil, or_false] at hc
  rcases hc with rfl | rfl
  · refine ⟨by decide, by decide, by rfl, by rfl, by decide, by decide, by decide, ?_, ?_⟩
    · intro x hx
      cases hx
      decide
    · intro x hx
      cases hx
      decide
  · refine ⟨by decide, by decide, by rfl, by rfl, by decide, by decide, by decide, ?_, ?_⟩
    · intro x hx
      cases hx
      decide
    · intro x hx
      cases hx
      decide

/-- C23: an SRT document made of n ≥ 1 cues (number line, timestamp line, text) separated by one
blank line, every text non-empty, free of blank lines and of leading or trailing whitespace, is
parsed by `parseSrtContent` into exactly the cue texts in order joined by a blank line, and the
subtitle editor's split of that result on blank lines gives exactly n subtitles whose texts are
the cue texts in the same order. -/
theorem parseSrtContent_recovers_cue_texts (cues : List Cue) (now imageCount : Nat)
    (previous : List Subtitle) (hne : cues ≠ []) (hwf : ∀ c ∈ cues, c.WellFormed) :
    parseSrtContent (String.mk (renderCues cues)) =
        some (String.mk (joinBlank (cues.map fun c => c.text)))
      ∧ (subtitlesOf now imageCount previous
          (String.mk (joinBlank (cues.map fun c => c.text)))).map (fun s => s.text) =
        cues.map (fun c => String.mk c.text)
      ∧ (subtitlesOf now imageCount previous
          (String.mk (joinBlank (cues.map fun c => c.text)))).length = cues.length := by
  have htexts := subtitlesOf_texts now imageCount previous cues hne hwf
  refine ⟨parseSrtContent_cues cues hne hwf, htexts, ?_⟩
  have := congrArg List.length htexts
  simpa using this

theorem parseSrtContent_recovers_cue_texts_witness :
    sampleCues ≠ [] ∧ (∀ c ∈ sampleCues, c.WellFormed)
      ∧ parseSrtContent (String.mk (renderCues sampleCues)) = some "Hello\nthere\n\nWorld"
      ∧ (subtitlesOf 0 3 [] "Hello\nthere\n\nWorld").map (fun s => s.text) =
        ["Hello\nthere", "World"]
      ∧ (subtitlesOf 0 3 [] "Hello\nthere\n\nWorld").length = 2 :=
  ⟨List.cons_ne_nil _ _, sampleCues_wellFormed,
    parseSrtContent_recovers_cue_texts sampleCues 0 3 [] (List.cons_ne_nil _ _)
      sampleCues_wellFormed⟩

theorem truncate_of_nonneg (q : ℚ) (h0 : 0 ≤ q) : truncate q = ⌊q⌋ := by
  unfold truncate
  rw [if_pos h0]

/-- The seconds field of `formatTime` for a non-negative value: the remainder `r` of the division
by 60 lies in `[0, 60)`, its rounding to three decimals is at most 60.000, and it is below
60.000 exactly when `r < 59.9995`. -/
theorem formatTime_seconds_field (s : ℚ) (hs : 0 ≤ s) :
    ∃ r : ℚ, JsNum.mod (.num s) (.num 60) = .num r ∧ 0 ≤ r ∧ r < 60
      ∧ fixedScaled 3 |r| ≤ 60000 ∧ (fixedScaled 3 |r| < 60000 ↔ r < 599995 / 10000) := by
  have hdiv : (0 : ℚ) ≤ s / 60 := by positivity
  have hfloor := Int.floor_le (s / 60)
  have hlt := Int.lt_floor_add_one (s / 60)
  have hr0 : 0 ≤ s - 60 * (⌊s / 60⌋ : ℚ) := by linarith
  have hr1 : s - 60 * (⌊s / 60⌋ : ℚ) < 60 := by linarith
  refine ⟨s - 60 * (⌊s / 60⌋ : ℚ), ?_, hr0, hr1, ?_, ?_⟩
  · simp only [JsNum.mod]
    rw [if_neg (by norm_num), truncate_of_nonneg _ hdiv]
  · unfold fixedScaled
    rw [abs_of_nonneg hr0]
    have : ⌊(s - 60 * (⌊s / 60⌋ : ℚ)) * 10 ^ 3 + 1 / 2⌋ < 60001 := by
      rw [Int.floor_lt]
      push_cast
      linarith
    omega
  · unfold fixedScaled
    rw [abs_of_nonneg hr0]
    have hnonneg : 0 ≤ ⌊(s - 60 * (⌊s / 60⌋ : ℚ)) * 10 ^ 3 + 1 / 2⌋ := by
      apply Int.floor_nonneg.mpr
      linarith
    constructor
    · intro h
      have h2 : ⌊(s - 60 * (⌊s / 60⌋ : ℚ)) * 10 ^ 3 + 1 / 2⌋ < 60000 := by omega
      rw [Int.floor_lt] at h2
      push_cast at h2
      linarith
    · intro h
      have h2 : ⌊(s - 60 * (⌊s / 60⌋ : ℚ)) * 10 ^ 3 + 1 / 2⌋ < 60000 := by
        rw [Int.floor_lt]
        push_cast
        linarith
      omega

/-! ### `/combine-audio`: the duration check in binary64 -/

theorem sumDurations_ok (env : Env) (paths : List Path) (ds : List ℚ)
    (hex : ∀ p ∈ paths, env.existsSync p = true)
    (hd : List.Forall₂ (fun p d => env.getAudioDurationInSeconds p = .ok (.num d)) paths ds)
    (total : ℚ) :
    sumDurations env paths (.num total) =
      .ok (.num (ds.foldl (fun total d => roundBinary64 (total + d)) total)) := by
  induction hd generalizing total with
  | nil => simp [sumDurations]
  | @cons p d ps ds hpd _ ih =>
    have hexp := hex p (List.mem_cons_self _ _)
    have := ih (fun q hq => hex q (List.mem_cons_of_mem _ hq)) (roundBinary64 (total + d))
    simp only [sumDurations, hexp, hpd, JsNum.add, List.foldl_cons]
    simpa using this

/-- What `/combine-audio` does on existing, probed segments when the backend
answers and the combined artifact is probed at `F`. -/
theorem combineAudio_ok (env : Env) (paths : List Path) (ds : List ℚ)
    (data : BackendData) (F : ℚ)
    (hne : paths ≠ [])
    (hex : ∀ p ∈ paths, env.existsSync p = true)
    (hd : List.Forall₂ (fun p d => env.getAudioDurationInSeconds p = .ok (.num d)) paths ds)
    (hpost : env.postCombineAudioSegments paths = .ok data)
    (hF : env.getAudioDurationInSeconds data.full_path = .ok (.num F)) :
    combineAudio env { paths := .array paths } =
      { response := { status := 200, headers := [], body := .combined data (.num F) }
        effects :=
          if roundBinary64 ((paths.length : ℚ) * roundBinary64 (1 / 10))
              < |roundBinary64 (F - binary64Sum ds)| then
            [.post (.combineAudioSegments paths),
             .console .warn ("Duration mismatch - Expected: "
                ++ env.showNum (.num (binary64Sum ds)) ++ ", Actual: "
                ++ env.showNum (.num F))]
          else [.post (.combineAudioSegments paths)] } := by
  have hsum := sumDurations_ok env paths ds hex hd 0
  simp only [combineAudio, combineAudioTry, validPaths_array_of_ne_nil paths hne, hsum, hpost,
    hF, JsNum.sub, JsNum.abs, JsNum.mul, JsNum.gt, JsNum.literal, binary64Sum]
  by_cases hc : roundBinary64 ((paths.length : ℚ) * roundBinary64 (1 / 10))
      < |roundBinary64 (F - List.foldl (fun total d => roundBinary64 (total + d)) 0 ds)|
  · simp [hc]
  · simp [hc]

/-- The threshold `3 * 0.1` of a request with three paths is the binary64 value
`1351079888211149 / 2^52` (0.30000000000000004...). -/
theorem roundBinary64_three_tenths :
    roundBinary64 (3 * roundBinary64 (1 / 10)) = 1351079888211149 / 4503599627370496 := by
  rw [roundBinary64_tenth,
    roundBinary64_eq _ (-2) 5404319552844596 (by norm_num) (by norm_num) (by norm_num)
      (by
        have h := roundHalfEven_half_odd 5404319552844595 (by norm_num)
        have hy : (3 * (3602879701896397 / 36028797018963968) / 2 ^ ((-2 : ℤ) - 52) : ℚ) =
            ((5404319552844595 : ℤ) : ℚ) + 1 / 2 := by norm_num
        rw [hy, h]
        norm_num)]
  norm_num

theorem roundBinary64_intCast (m : ℤ) (hm : |m| < 2 ^ 53) : roundBinary64 (m : ℚ) = m := by
  have := roundBinary64_representable m 0 hm (by norm_num)
  simpa using this

theorem roundBinary64_half_intCast (m : ℤ) (hm : |m| < 2 ^ 53) :
    roundBinary64 ((m : ℚ) / 2) = (m : ℚ) / 2 := by
  have := roundBinary64_representable m (-1) hm (by norm_num)
  have h2 : (m : ℚ) * 2 ^ (-1 : ℤ) = (m : ℚ) / 2 := by
    rw [zpow_neg_one]
    ring
  rw [h2] at this
  exact this

theorem binary64Sum_two_sesqui_three : binary64Sum [2, 3 / 2, 3] = 13 / 2 := by
  have h1 : roundBinary64 (0 + 2) = 2 := by
    have := roundBinary64_intCast 2 (by norm_num)
    simpa using this
  have h2 : roundBinary64 (2 + 3 / 2) = 7 / 2 := by
    have := roundBinary64_half_intCast 7 (by norm_num)
    have h7 : ((7 : ℤ) : ℚ) / 2 = 2 + 3 / 2 := by norm_num
    rw [h7] at this
    rw [this]
    norm_num
  have h3 : roundBinary64 (7 / 2 + 3) = 13 / 2 := by
    have := roundBinary64_half_intCast 13 (by norm_num)
    have h13 : ((13 : ℤ) : ℚ) / 2 = 7 / 2 + 3 := by norm_num
    rw [h13] at this
    rw [this]
    norm_num
  simp only [binary64Sum, List.foldl_cons, List.foldl_nil, h1, h2, h3]


theorem binary64_grid (F : ℚ) (e : ℤ) (hF : roundBinary64 F = F) (hlo : (2 : ℚ) ^ e ≤ F)
    (hhi : F < 2 ^ (e + 1)) (he : -1022 ≤ e) : ∃ n : ℤ, F = n * 2 ^ (e - 52) :=
  ⟨roundHalfEven (F / 2 ^ (e - 52)), by
    have := roundBinary64_eq F e _ hlo hhi he rfl
    rw [hF] at this
    exact this⟩

theorem one_le_abs_roundBinary64 (x : ℚ) (h : 1 ≤ |x|) : 1 ≤ |roundBinary64 x| := by
  rcases le_abs.mp h with h1 | h1
  · have := zpow_le_roundBinary64 x 0 (by norm_num) (by simpa using h1)
    rw [zpow_zero] at this
    exact le_trans this (le_abs_self _)
  · have := zpow_le_roundBinary64 (-x) 0 (by norm_num) (by simpa using h1)
    rw [zpow_zero, roundBinary64_neg] at this
    exact le_trans this (neg_le_abs _)

/-- For a binary64 value `F`, the rounded difference from 6.5 exceeds the
threshold of three paths exactly when `F` lies outside [6.2, 6.8]. -/
theorem three_segment_threshold (F : ℚ) (hF : roundBinary64 F = F) :
    roundBinary64 (3 * roundBinary64 (1 / 10)) < |roundBinary64 (F - 13 / 2)| ↔
      ¬ (31 / 5 ≤ F ∧ F ≤ 34 / 5) := by
  rw [roundBinary64_three_tenths]
  by_cases hmid : 4 ≤ F ∧ F < 8
  · obtain ⟨n, hn⟩ := binary64_grid F 2 hF (by norm_num; exact hmid.1) (by norm_num; exact hmid.2)
      (by norm_num)
    have hpow : (2 : ℚ) ^ ((2 : ℤ) - 52) = 1 / 1125899906842624 := by norm_num
    rw [hpow] at hn
    have hn1 : (4503599627370496 : ℤ) ≤ n := by
      have : ((4503599627370496 : ℤ) : ℚ) ≤ n := by
        push_cast
        linarith [hmid.1]
      exact_mod_cast this
    have hn2 : n < (9007199254740992 : ℤ) := by
      have : (n : ℚ) < ((9007199254740992 : ℤ) : ℚ) := by
        push_cast
        linarith [hmid.2]
      exact_mod_cast this
    have hexact : roundBinary64 (F - 13 / 2) = F - 13 / 2 := by
      have := roundBinary64_representable (n - 7318349394477056) (-50)
        (by
          rw [abs_lt]
          constructor <;> omega)
        (by norm_num)
      have hval : (((n - 7318349394477056 : ℤ) : ℚ)) * 2 ^ (-50 : ℤ) = F - 13 / 2 := by
        rw [hn]
        push_cast
        norm_num
        ring
      rw [hval] at this
      exact this
    rw [hexact, lt_abs]
    have hcases : n ≤ 6980579422424268 ∨ (6980579422424269 ≤ n ∧ n ≤ 7656119366529843)
        ∨ 7656119366529844 ≤ n := by omega
    rcases hcases with h | ⟨h1, h2⟩ | h
    · have hq : (n : ℚ) ≤ 6980579422424268 := by exact_mod_cast h
      constructor
      · intro _ hin
        linarith [hin.1]
      · intro _
        right
        linarith
    · have hq1 : (6980579422424269 : ℚ) ≤ n := by exact_mod_cast h1
      have hq2 : (n : ℚ) ≤ 7656119366529843 := by exact_mod_cast h2
      constructor
      · intro hw
        rcases hw with hw | hw <;> linarith
      · intro hout
        exact absurd ⟨by linarith, by linarith⟩ hout
    · have hq : (7656119366529844 : ℚ) ≤ n := by exact_mod_cast h
      constructor
      · intro _ hin
        linarith [hin.2]
      · intro _
        left
        linarith
  · have hout : ¬ (31 / 5 ≤ F ∧ F ≤ 34 / 5) := by
      rintro ⟨h1, h2⟩
      exact hmid ⟨by linarith, by linarith⟩
    have hbig : 1 ≤ |F - 13 / 2| := by
      rw [le_abs]
      by_cases h4 : 4 ≤ F
      · left
        have : 8 ≤ F := by
          by_contra hc
          exact hmid ⟨h4, not_le.mp hc⟩
        linarith
      · right
        linarith [not_le.mp h4]
    have := one_le_abs_roundBinary64 _ hbig
    constructor
    · intro _
      exact hout
    · intro _
      refine lt_of_lt_of_le ?_ this
      norm_num


theorem quarterSegments_exist : ∀ p ∈ threeSegments, quarterSegmentsEnv.existsSync p = true := by
  intro p hp
  simp only [threeSegments, List.mem_cons, List.mem_singleton, List.not_mem_nil, or_false] at hp
  rcases hp with rfl | rfl | rfl <;> rfl

theorem quarterSegments_probed :
    List.Forall₂ (fun p d => quarterSegmentsEnv.getAudioDurationInSeconds p = .ok (.num d))
      threeSegments [1 / 4, 1 / 4, 1 / 2] :=
  .cons rfl (.cons rfl (.cons rfl .nil))

theorem roundBinary64_quarter_intCast (m : ℤ) (hm : |m| < 2 ^ 53) :
    roundBinary64 ((m : ℚ) / 4) = (m : ℚ) / 4 := by
  have := roundBinary64_representable m (-2) hm (by norm_num)
  have h2 : (m : ℚ) * 2 ^ (-2 : ℤ) = (m : ℚ) / 4 := by
    norm_num
    ring
  rw [h2] at this
  exact this

theorem binary64Sum_quarters : binary64Sum [1 / 4, 1 / 4, 1 / 2] = 1 := by
  have h1 : roundBinary64 (0 + 1 / 4) = 1 / 4 := by
    have := roundBinary64_quarter_intCast 1 (by norm_num)
    simpa using this
  have h2 : roundBinary64 (1 / 4 + 1 / 4) = 1 / 2 := by
    have := roundBinary64_quarter_intCast 2 (by norm_num)
    have h : ((2 : ℤ) : ℚ) / 4 = 1 / 4 + 1 / 4 := by norm_num
    rw [h] at this
    rw [this]
    norm_num
  have h3 : roundBinary64 (1 / 2 + 1 / 2) = 1 := by
    have := roundBinary64_intCast 1 (by norm_num)
    have h : ((1 : ℤ) : ℚ) = 1 / 2 + 1 / 2 := by norm_num
    rw [h] at this
    rw [this]
    norm_num
  simp only [binary64Sum, List.foldl_cons, List.foldl_nil, h1, h2, h3]

/-- The value `binary64OnePointThree` is what the literal `1.3` denotes. -/
theorem roundBinary64_onePointThree : roundBinary64 (13 / 10) = binary64OnePointThree := by
  rw [roundBinary64_eq (13 / 10) 0 5854679515581645 (by norm_num) (by norm_num) (by norm_num)
    (roundHalfEven_of_abs_lt _ _ (by
      rw [abs_lt]
      constructor <;> norm_num))]
  unfold binary64OnePointThree
  norm_num

theorem roundBinary64_onePointThree_sub_one :
    roundBinary64 (binary64OnePointThree - 1) = 1351079888211149 / 4503599627370496 := by
  have := roundBinary64_representable 1351079888211149 (-52) (by norm_num) (by norm_num)
  have h : ((1351079888211149 : ℤ) : ℚ) * 2 ^ (-52 : ℤ) = binary64OnePointThree - 1 := by
    unfold binary64OnePointThree
    norm_num
  rw [h] at this
  rw [this]
  unfold binary64OnePointThree
  norm_num

/-- C6 (as stated, refuted): three segments probed at 0.25 s, 0.25 s and 0.5 s
whose combined artifact is probed at 1.3 s, the binary64 value of `1.3`.  The
difference `|F - (d1 + d2 + d3)|` exceeds `0.1 * 3`, with `0.1` read as one
tenth as well as read as the binary64 value of the literal, and yet
`/combine-audio` answers without a warning: the program compares the rounded
difference with the rounded product, which are the same binary64 value. -/
theorem combineAudio_excess_below_rounding_not_flagged :
    threeSegments.map quarterSegmentsEnv.getAudioDurationInSeconds =
        [.ok (.num (1 / 4)), .ok (.num (1 / 4)), .ok (.num (1 / 2))]
      ∧ quarterSegmentsEnv.getAudioDurationInSeconds "combined.wav" =
          .ok (.num binary64OnePointThree)
      ∧ roundBinary64 (13 / 10) = binary64OnePointThree
      ∧ |binary64OnePointThree - (1 / 4 + 1 / 4 + 1 / 2)| > 1 / 10 * (threeSegments.length : ℚ)
      ∧ |binary64OnePointThree - (1 / 4 + 1 / 4 + 1 / 2)| >
          roundBinary64 (1 / 10) * (threeSegments.length : ℚ)
      ∧ (combineAudio quarterSegmentsEnv { paths := .array threeSegments }).response =
          { status := 200, headers := []
            body := .combined { full_path := "combined.wav", extra := [] }
              (.num binary64OnePointThree) }
      ∧ warnings (combineAudio quarterSegmentsEnv { paths := .array threeSegments }).effects
          = [] := by
  have hok := combineAudio_ok quarterSegmentsEnv threeSegments [1 / 4, 1 / 4, 1 / 2]
    { full_path := "combined.wav", extra := [] } binary64OnePointThree (by simp [threeSegments])
    quarterSegments_exist quarterSegments_probed rfl rfl
  have hlen : ((threeSegments.length : ℕ) : ℚ) = 3 := by
    simp [threeSegments]
  rw [binary64Sum_quarters, hlen, roundBinary64_three_tenths,
    roundBinary64_onePointThree_sub_one,
    if_neg (by rw [abs_of_pos (by norm_num)]; exact lt_irrefl _)] at hok
  refine ⟨rfl, rfl, roundBinary64_onePointThree, ?_, ?_, ?_, ?_⟩
  · rw [hlen]
    unfold binary64OnePointThree
    norm_num [abs_of_pos]
  · rw [hlen, roundBinary64_tenth]
    unfold binary64OnePointThree
    norm_num [abs_of_pos]
  · rw [hok]
  · rw [hok]
    rfl

/-- C6 (amended): on K >= 1 existing segment paths with probed durations `ds`,
when the backend answers and the combined artifact is probed at `F`,
`/combine-audio` answers 200 with the backend's object and
`total_duration = F`, with or without the warning.  The warning is written
exactly when the binary64 difference `|F - S|` is greater than the binary64
product `K * 0.1`, where `S` is the sum of the durations accumulated from 0 in
binary64 and `0.1` is the binary64 value of the literal; equal values are not
flagged. -/
theorem combineAudio_total_duration_and_warning (env : Env) (paths : List Path)
    (ds : List ℚ) (data : BackendData) (F : ℚ)
    (hne : paths ≠ [])
    (hex : ∀ p ∈ paths, env.existsSync p = true)
    (hd : List.Forall₂ (fun p d => env.getAudioDurationInSeconds p = .ok (.num d)) paths ds)
    (hpost : env.postCombineAudioSegments paths = .ok data)
    (hF : env.getAudioDurationInSeconds data.full_path = .ok (.num F)) :
    (combineAudio env { paths := .array paths }).response =
        { status := 200, headers := [], body := .combined data (.num F) }
      ∧ (combineAudio env { paths := .array paths }).response.isError = false
      ∧ (warnings (combineAudio env { paths := .array paths }).effects ≠ [] ↔
          |roundBinary64 (F - binary64Sum ds)| >
            roundBinary64 ((paths.length : ℚ) * roundBinary64 (1 / 10)))
      ∧ (|roundBinary64 (F - binary64Sum ds)| =
            roundBinary64 ((paths.length : ℚ) * roundBinary64 (1 / 10)) →
          warnings (combineAudio env { paths := .array paths }).effects = []) := by
  rw [combineAudio_ok env paths ds data F hne hex hd hpost hF]
  refine ⟨rfl, rfl, ?_, ?_⟩
  · by_cases hc : roundBinary64 ((paths.length : ℚ) * roundBinary64 (1 / 10))
        < |roundBinary64 (F - binary64Sum ds)|
    · simp only [hc, if_true, gt_iff_lt, iff_true]
      simp [warnings]
    · simp only [hc, if_false, gt_iff_lt, iff_false, not_not]
      simp [warnings]
  · intro heq
    have hc : ¬ roundBinary64 ((paths.length : ℚ) * roundBinary64 (1 / 10))
        < |roundBinary64 (F - binary64Sum ds)| := by
      rw [heq]
      exact lt_irrefl _
    simp only [hc, if_false]
    simp [warnings]

theorem combineAudio_total_duration_and_warning_witness :
    (combineAudio threeSegmentsEnv { paths := .array threeSegments }).response.isError = false :=
  (combineAudio_total_duration_and_warning threeSegmentsEnv threeSegments [2, 3 / 2, 3]
    { full_path := "combined.wav", extra := [] } 100 (by simp [threeSegments])
    threeSegments_exist threeSegments_probed rfl rfl).2.1

/-- C7 (as stated, refuted): three segments probed at 2.0 s, 1.5 s and 3.0 s
whose combined artifact is probed at 100 s give a successful answer with
`total_duration = 100`, outside [6.2, 6.8]. -/
theorem combineAudio_known_durations_out_of_range :
    threeSegments.map threeSegmentsEnv.getAudioDurationInSeconds =
        [.ok (.num 2), .ok (.num (3 / 2)), .ok (.num 3)]
      ∧ (combineAudio threeSegmentsEnv { paths := .array threeSegments }).response =
          { status := 200, headers := []
            body := .combined { full_path := "combined.wav", extra := [] } (.num 100) }
      ∧ ¬ ((31 / 5 : ℚ) ≤ 100 ∧ (100 : ℚ) ≤ 34 / 5) := by
  refine ⟨rfl, ?_, by norm_num⟩
  rw [combineAudio_ok threeSegmentsEnv threeSegments [2, 3 / 2, 3]
    { full_path := "combined.wav", extra := [] } 100 (by simp [threeSegments])
    threeSegments_exist threeSegments_probed rfl rfl]

/-- C7 (amended): for three existing segments probed at 2.0 s, 1.5 s and 3.0 s,
when the backend answers and the combined artifact is probed at `F`, the
answer is a success with `total_duration = F`, and `F`, a binary64 value as
every probed duration is, lies in [6.2, 6.8] exactly when no mismatch warning
is written. -/
theorem combineAudio_total_in_range_iff_no_warning (env : Env) (p1 p2 p3 : Path)
    (data : BackendData) (F : ℚ)
    (hex : ∀ p ∈ [p1, p2, p3], env.existsSync p = true)
    (h1 : env.getAudioDurationInSeconds p1 = .ok (.num 2))
    (h2 : env.getAudioDurationInSeconds p2 = .ok (.num (3 / 2)))
    (h3 : env.getAudioDurationInSeconds p3 = .ok (.num 3))
    (hpost : env.postCombineAudioSegments [p1, p2, p3] = .ok data)
    (hF : env.getAudioDurationInSeconds data.full_path = .ok (.num F)) :
    (combineAudio env { paths := .array [p1, p2, p3] }).response =
        { status := 200, headers := [], body := .combined data (.num F) }
      ∧ (roundBinary64 F = F →
          (warnings (combineAudio env { paths := .array [p1, p2, p3] }).effects = [] ↔
            (31 / 5 ≤ F ∧ F ≤ 34 / 5))) := by
  have hd : List.Forall₂ (fun p d => env.getAudioDurationInSeconds p = .ok (.num d))
      [p1, p2, p3] [2, 3 / 2, 3] := .cons h1 (.cons h2 (.cons h3 .nil))
  rw [combineAudio_ok env [p1, p2, p3] [2, 3 / 2, 3] data F (by simp) hex hd hpost hF]
  refine ⟨rfl, ?_⟩
  intro hF64
  have hlen : ((([p1, p2, p3] : List Path).length : ℕ) : ℚ) = 3 := by
    simp
  rw [binary64Sum_two_sesqui_three, hlen]
  have hthreshold := three_segment_threshold F hF64
  by_cases hc : roundBinary64 (3 * roundBinary64 (1 / 10)) < |roundBinary64 (F - 13 / 2)|
  · simp only [hc, if_true]
    have hout := hthreshold.mp hc
    simp [warnings, hout]
  · simp only [hc, if_false]
    have hin : 31 / 5 ≤ F ∧ F ≤ 34 / 5 := by
      by_contra hout
      exact hc (hthreshold.mpr hout)
    simp [warnings, hin]

theorem roundBinary64_hundred : roundBinary64 100 = 100 := by
  have := roundBinary64_intCast 100 (by norm_num)
  simpa using this

theorem combineAudio_total_in_range_iff_no_warning_witness :
    (combineAudio threeSegmentsEnv { paths := .array ["s1.wav", "s2.wav", "s3.wav"] }).response =
        { status := 200, headers := []
          body := .combined { full_path := "combined.wav", extra := [] } (.num 100) }
      ∧ (warnings (combineAudio threeSegmentsEnv
            { paths := .array ["s1.wav", "s2.wav", "s3.wav"] }).effects = [] ↔
          ((31 / 5 : ℚ) ≤ 100 ∧ (100 : ℚ) ≤ 34 / 5)) :=
  ⟨(combineAudio_total_in_range_iff_no_warning threeSegmentsEnv "s1.wav" "s2.wav" "s3.wav"
      { full_path := "combined.wav", extra := [] } 100 threeSegments_exist rfl rfl rfl rfl rfl).1,
    (combineAudio_total_in_range_iff_no_warning threeSegmentsEnv "s1.wav" "s2.wav" "s3.wav"
      { full_path := "combined.wav", extra := [] } 100 threeSegments_exist rfl rfl rfl rfl rfl).2
      roundBinary64_hundred⟩

/-! ### `updateTimingDisplay`: the running time in binary64 -/

theorem roundHalfEven_le (n : ℤ) (y : ℚ) (h : y ≤ (n : ℚ)) : roundHalfEven y ≤ n := by
  have hfloor : ⌊y⌋ ≤ n := Int.floor_le_iff.mpr (by linarith)
  rcases lt_or_eq_of_le hfloor with hlt | heq
  · rcases roundHalfEven_cases y with h1 | h1 <;> omega
  · have hy : y = (n : ℚ) := by
      have := Int.floor_le y
      rw [heq] at this
      exact le_antisymm h this
    rw [hy, roundHalfEven_intCast]

theorem roundBinary64_le_zpow (x : ℚ) (e : ℤ) (he : -1074 ≤ e) (h : x ≤ (2 : ℚ) ^ e) :
    roundBinary64 x ≤ 2 ^ e := by
  rcases lt_trichotomy x 0 with hx | hx | hx
  · have := roundBinary64_nonneg (-x) (by linarith)
    rw [roundBinary64_neg] at this
    have h2 : (0 : ℚ) < 2 ^ e := by positivity
    linarith
  · subst hx
    rw [roundBinary64_of_nonneg 0 le_rfl, roundMagnitude_zero]
    positivity
  · rw [roundBinary64_of_nonneg x hx.le]
    unfold roundMagnitude
    have hq0 : (0 : ℚ) < 2 ^ quantumExponent x := by positivity
    have hqe : quantumExponent x ≤ e := by
      rcases quantumExponent_cases x hx with hc | hc
      · have := le_trans hc h
        have := (zpow_le_zpow_iff_right₀ (show (1 : ℚ) < 2 by norm_num)).mp this
        omega
      · omega
    obtain ⟨k, hk⟩ := Int.eq_ofNat_of_zero_le (show 0 ≤ e - quantumExponent x by omega)
    have hsplit : (2 : ℚ) ^ e = ((2 ^ k : ℤ) : ℚ) * 2 ^ quantumExponent x := by
      rw [show e = (k : ℤ) + quantumExponent x by omega, zpow_add₀ (by norm_num), zpow_natCast]
      push_cast
      rfl
    have hy : x / 2 ^ quantumExponent x ≤ (((2 : ℤ) ^ k : ℤ) : ℚ) := by
      rw [div_le_iff₀ hq0, ← hsplit]
      exact h
    have := roundHalfEven_le _ _ hy
    have hcast : (roundHalfEven (x / 2 ^ quantumExponent x) : ℚ) ≤ (((2 : ℤ) ^ k : ℤ) : ℚ) := by
      exact_mod_cast this
    rw [hsplit]
    exact mul_le_mul_of_nonneg_right hcast hq0.le

theorem startOf_zero (ds : List ℚ) : startOf ds 0 = 0 := by
  simp [startOf]

theorem startOf_succ (ds : List ℚ) (i : Nat) (d : ℚ) (h : ds[i]? = some d) :
    startOf ds (i + 1) =
      roundBinary64 (startOf ds i + roundBinary64 (d + roundBinary64 (1 / 10))) := by
  unfold startOf
  rw [List.take_succ, h]
  simp [List.foldl_append]

theorem updateTimingLoop_rows (ds : List ℚ) (flags : List Bool) (index : Nat)
    (hlen : index + flags.length ≤ ds.length) :
    updateTimingLoop (ds.map JsNum.num) index (.num (startOf ds index)) flags =
      (flags.enumFrom index).map fun x => expectedRow ds x.2 x.1 (ds[x.1]?.getD 0) := by
  induction flags generalizing index with
  | nil => rfl
  | cons flag rest ih =>
    have hlt : index < ds.length := by
      simp only [List.length_cons] at hlen
      omega
    have hget : ds[index]? = some ds[index] := List.getElem?_eq_getElem hlt
    have hD : ds[index]?.getD 0 = ds[index] := by
      simp [hget]
    have hrest : index + 1 + rest.length ≤ ds.length := by
      simp only [List.length_cons] at hlen
      omega
    rw [updateTimingLoop]
    simp only [durationOr0_of_finite ds index _ hget, JsNum.add, JsNum.literal]
    rw [← startOf_succ ds index _ hget, ih (index + 1) hrest]
    simp [List.enumFrom_cons, expectedRow, endOf, hD]

theorem foldl_add_finite (ds : List ℚ) (acc : ℚ) :
    (ds.map JsNum.num).foldl (fun (sum duration : JsNum) => sum.add duration) (.num acc) =
      .num (ds.foldl (fun total d => roundBinary64 (total + d)) acc) := by
  induction ds generalizing acc with
  | nil => simp
  | cons d rest ih =>
    have hstep : (JsNum.num acc).add (JsNum.num d) = .num (roundBinary64 (acc + d)) := rfl
    rw [List.map_cons, List.foldl_cons, hstep, ih, List.foldl_cons]

theorem startOf_nonneg (ds : List ℚ) (i : Nat) (hi : i ≤ ds.length) (hnonneg : ∀ d ∈ ds, 0 ≤ d) :
    0 ≤ startOf ds i := by
  induction i with
  | zero => rw [startOf_zero]
  | succ i ih =>
    have hlt : i < ds.length := by omega
    have hget : ds[i]? = some ds[i] := List.getElem?_eq_getElem hlt
    rw [startOf_succ ds i _ hget]
    have hd := hnonneg ds[i] (List.getElem_mem _)
    have hc : (0 : ℚ) ≤ roundBinary64 (1 / 10) := roundBinary64_nonneg _ (by norm_num)
    have hg := roundBinary64_nonneg (ds[i] + roundBinary64 (1 / 10)) (by linarith)
    exact roundBinary64_nonneg _ (by linarith [ih (by omega)])

/-- One turn of the loop below `2^48`: the next start lies strictly after
both the start and the end of the segment. -/
theorem next_start_gt (s d : ℚ) (hs : 0 ≤ s) (hd : 0 ≤ d)
    (hbound : roundBinary64 (s + roundBinary64 (d + roundBinary64 (1 / 10))) < 2 ^ 48) :
    s < roundBinary64 (s + roundBinary64 (d + roundBinary64 (1 / 10)))
      ∧ roundBinary64 (s + d) < roundBinary64 (s + roundBinary64 (d + roundBinary64 (1 / 10))) := by
  rw [roundBinary64_tenth] at hbound ⊢
  have hc : (0 : ℚ) < 3602879701896397 / 36028797018963968 := by norm_num
  have hg0 := roundBinary64_nonneg (d + 3602879701896397 / 36028797018963968) (by linarith)
  have hx2 : s + roundBinary64 (d + 3602879701896397 / 36028797018963968) < 2 ^ (48 : ℤ) :=
    roundBinary64_lt_zpow _ 48 (by norm_num) (by exact_mod_cast hbound)
  have hg48 : roundBinary64 (d + 3602879701896397 / 36028797018963968) < 2 ^ (48 : ℤ) := by
    linarith
  have hx1 : d + 3602879701896397 / 36028797018963968 < 2 ^ (48 : ℤ) :=
    roundBinary64_lt_zpow _ 48 (by norm_num) hg48
  have herr : (2 : ℚ) ^ ((48 : ℤ) - 54) = 1 / 64 := by norm_num
  have he1 := abs_le.mp (abs_roundBinary64_sub_le _ 48 (by linarith) hx1 (by norm_num))
  have he2 := abs_le.mp (abs_roundBinary64_sub_le _ 48 (by linarith) hx2 (by norm_num))
  rw [herr] at he1 he2
  have hx3 : s + d < 2 ^ (48 : ℤ) := by linarith [he1.1]
  have he3 := abs_le.mp (abs_roundBinary64_sub_le _ 48 (by linarith) hx3 (by norm_num))
  rw [herr] at he3
  constructor
  · linarith [he1.1, he2.1]
  · linarith [he1.1, he2.1, he3.2]


theorem roundHalfEven_mono (y z : ℚ) (h : y ≤ z) : roundHalfEven y ≤ roundHalfEven z := by
  have hfl : ⌊y⌋ ≤ ⌊z⌋ := Int.floor_mono h
  rcases lt_or_eq_of_le hfl with hlt | heq
  · have h1 : roundHalfEven y ≤ ⌊y⌋ + 1 := by
      rcases roundHalfEven_cases y with h1 | h1 <;> omega
    have h2 : ⌊z⌋ ≤ roundHalfEven z := by
      rcases roundHalfEven_cases z with h2 | h2 <;> omega
    omega
  · unfold roundHalfEven
    rw [← heq]
    have hfrac : y - ⌊y⌋ ≤ z - ⌊y⌋ := by linarith
    split_ifs <;> first | omega | (exfalso; linarith)

theorem log_two_mono (x y : ℚ) (hx : 0 < x) (h : x ≤ y) : Int.log 2 x ≤ Int.log 2 y :=
  Int.log_mono_right hx h

theorem roundMagnitude_mono (x y : ℚ) (hx : 0 < x) (h : x ≤ y) :
    roundMagnitude x ≤ roundMagnitude y := by
  have hy : 0 < y := lt_of_lt_of_le hx h
  have hlog := log_two_mono x y hx h
  by_cases hq : quantumExponent x = quantumExponent y
  · unfold roundMagnitude
    rw [hq]
    have hq0 : (0 : ℚ) < 2 ^ quantumExponent y := by positivity
    have hdiv : x / 2 ^ quantumExponent y ≤ y / 2 ^ quantumExponent y :=
      div_le_div_of_nonneg_right h hq0.le
    have := roundHalfEven_mono _ _ hdiv
    have hcast : (roundHalfEven (x / 2 ^ quantumExponent y) : ℚ)
        ≤ (roundHalfEven (y / 2 ^ quantumExponent y) : ℚ) := by exact_mod_cast this
    exact mul_le_mul_of_nonneg_right hcast hq0.le
  · have hlt : Int.log 2 x < Int.log 2 y ∧ -1022 < Int.log 2 y := by
      unfold quantumExponent at hq
      rcases le_total (Int.log 2 y) (-1022) with hy2 | hy2
      · exfalso
        apply hq
        rw [max_eq_right hy2, max_eq_right (le_trans hlog hy2)]
      · constructor
        · by_contra hc
          apply hq
          have : Int.log 2 x = Int.log 2 y := le_antisymm hlog (not_lt.mp hc)
          rw [this]
        · by_contra hc
          apply hq
          have h1022 : Int.log 2 y = -1022 := le_antisymm (not_lt.mp hc) hy2
          rw [h1022, max_eq_right (by omega : Int.log 2 x ≤ -1022)] 
          simp
    have hxup : x ≤ (2 : ℚ) ^ (Int.log 2 y) := by
      have h1 := (lt_zpow_log_succ x).le
      exact le_trans h1 (zpow_le_zpow_right₀ (by norm_num) (by omega))
    have hylo : (2 : ℚ) ^ (Int.log 2 y) ≤ y := zpow_log_le y hy
    have h1 := roundBinary64_le_zpow x (Int.log 2 y) (by omega) hxup
    have h2 := zpow_le_roundBinary64 y (Int.log 2 y) (by omega) hylo
    rw [roundBinary64_of_nonneg x hx.le] at h1
    rw [roundBinary64_of_nonneg y hy.le] at h2
    exact le_trans h1 h2

theorem roundBinary64_mono (x y : ℚ) (h : x ≤ y) : roundBinary64 x ≤ roundBinary64 y := by
  rcases lt_trichotomy x 0 with hx | hx | hx
  · rcases lt_or_le y 0 with hy | hy
    · have := roundMagnitude_mono (-y) (-x) (by linarith) (by linarith)
      unfold roundBinary64
      rw [if_neg (by linarith), if_neg (by linarith)]
      linarith
    · have h1 := roundBinary64_nonneg (-x) (by linarith)
      rw [roundBinary64_neg] at h1
      have h2 := roundBinary64_nonneg y hy
      linarith
  · subst hx
    have := roundBinary64_nonneg y h
    rw [roundBinary64_of_nonneg 0 le_rfl, roundMagnitude_zero]
    exact this
  · rw [roundBinary64_of_nonneg x hx.le, roundBinary64_of_nonneg y (by linarith)]
    exact roundMagnitude_mono x y hx h


theorem roundMagnitude_idem (x : ℚ) (hx : 0 < x) :
    roundBinary64 (roundMagnitude x) = roundMagnitude x := by
  unfold roundMagnitude
  have hq0 : (0 : ℚ) < 2 ^ quantumExponent x := by positivity
  have hqlog : Int.log 2 x - 52 ≤ quantumExponent x := by
    unfold quantumExponent
    have := le_max_left (Int.log 2 x) (-1022)
    omega
  have hy : x / 2 ^ quantumExponent x ≤ (((2 : ℤ) ^ 53 : ℤ) : ℚ) := by
    rw [div_le_iff₀ hq0]
    have h1 := (lt_zpow_log_succ x).le
    refine le_trans h1 ?_
    have h2 : (((2 : ℤ) ^ 53 : ℤ) : ℚ) * 2 ^ quantumExponent x = 2 ^ (53 + quantumExponent x) := by
      rw [zpow_add₀ (by norm_num)]
      norm_num
    rw [h2]
    exact zpow_le_zpow_right₀ (by norm_num) (by omega)
  have hn := roundHalfEven_le _ _ hy
  have hn0 : 0 ≤ roundHalfEven (x / 2 ^ quantumExponent x) :=
    le_roundHalfEven 0 _ (by
      simp only [Int.cast_zero]
      positivity)
  rcases lt_or_eq_of_le hn with hlt | heq
  · exact roundBinary64_representable _ _ (by
      rw [abs_lt]
      constructor <;> omega) (quantumExponent_ge x)
  · rw [heq]
    have := roundBinary64_representable 1 (53 + quantumExponent x) (by norm_num)
      (by
        have := quantumExponent_ge x
        omega)
    have h2 : (((2 : ℤ) ^ 53 : ℤ) : ℚ) * 2 ^ quantumExponent x =
        ((1 : ℤ) : ℚ) * 2 ^ (53 + quantumExponent x) := by
      rw [zpow_add₀ (by norm_num)]
      norm_num
    rw [h2]
    exact this

theorem roundBinary64_idem (x : ℚ) : roundBinary64 (roundBinary64 x) = roundBinary64 x := by
  rcases lt_trichotomy x 0 with hx | hx | hx
  · have h1 : roundBinary64 x = -roundMagnitude (-x) := by
      unfold roundBinary64
      rw [if_neg (by linarith)]
    rw [h1, roundBinary64_neg, roundMagnitude_idem (-x) (by linarith)]
  · subst hx
    rw [roundBinary64_of_nonneg 0 le_rfl, roundMagnitude_zero, roundBinary64_of_nonneg 0 le_rfl,
      roundMagnitude_zero]
  · rw [roundBinary64_of_nonneg x hx.le]
    exact roundMagnitude_idem x hx

theorem startOf_binary64 (ds : List ℚ) (i : Nat) (hi : i ≤ ds.length) :
    roundBinary64 (startOf ds i) = startOf ds i := by
  cases i with
  | zero =>
    rw [startOf_zero, roundBinary64_of_nonneg 0 le_rfl, roundMagnitude_zero]
  | succ i =>
    have hget : ds[i]? = some ds[i] := List.getElem?_eq_getElem (by omega)
    rw [startOf_succ ds i _ hget, roundBinary64_idem]

/-- One turn of the loop on binary64 values: the next start is not before the
start and not before the end of the segment. -/
theorem next_start_ge (s d : ℚ) (hs64 : roundBinary64 s = s) (hd64 : roundBinary64 d = d)
    (hd : 0 ≤ d) :
    s ≤ roundBinary64 (s + roundBinary64 (d + roundBinary64 (1 / 10)))
      ∧ roundBinary64 (s + d) ≤ roundBinary64 (s + roundBinary64 (d + roundBinary64 (1 / 10))) := by
  have hc : (0 : ℚ) ≤ roundBinary64 (1 / 10) := roundBinary64_nonneg _ (by norm_num)
  have hg : d ≤ roundBinary64 (d + roundBinary64 (1 / 10)) := by
    have := roundBinary64_mono d (d + roundBinary64 (1 / 10)) (by linarith)
    rw [hd64] at this
    exact this
  constructor
  · have := roundBinary64_mono s (s + roundBinary64 (d + roundBinary64 (1 / 10))) (by linarith)
    rw [hs64] at this
    exact this
  · exact roundBinary64_mono _ _ (by linarith)

theorem startOf_mono (ds : List ℚ) (hnonneg : ∀ d ∈ ds, 0 ≤ d)
    (h64 : ∀ d ∈ ds, roundBinary64 d = d) (i j : Nat)
    (hij : i ≤ j) (hj : j ≤ ds.length) : startOf ds i ≤ startOf ds j := by
  induction j with
  | zero =>
    have : i = 0 := by omega
    rw [this]
  | succ j ih =>
    rcases Nat.lt_or_ge i (j + 1) with hlt | hge
    · have hjlt : j < ds.length := by omega
      have hget : ds[j]? = some ds[j] := List.getElem?_eq_getElem hjlt
      have hstep := (next_start_ge (startOf ds j) ds[j] (startOf_binary64 ds j (by omega))
        (h64 _ (List.getElem_mem _)) (hnonneg _ (List.getElem_mem _))).1
      rw [← startOf_succ ds j _ hget] at hstep
      exact le_trans (ih (by omega) (by omega)) hstep
    · have : i = j + 1 := by omega
      rw [this]

theorem startOf_strictMono (ds : List ℚ) (hnonneg : ∀ d ∈ ds, 0 ≤ d)
    (hbound : ∀ i : Nat, i < ds.length → startOf ds (i + 1) < 2 ^ 48) (i j : Nat)
    (hij : i < j) (hj : j ≤ ds.length) : startOf ds i < startOf ds j := by
  induction j with
  | zero => omega
  | succ j ih =>
    have hlt : j < ds.length := by omega
    have hget : ds[j]? = some ds[j] := List.getElem?_eq_getElem hlt
    have hb := hbound j hlt
    rw [startOf_succ ds j _ hget] at hb ⊢
    have hstep := (next_start_gt (startOf ds j) ds[j] (startOf_nonneg ds j (by omega) hnonneg)
      (hnonneg _ (List.getElem_mem _)) hb).1
    rcases Nat.lt_succ_iff_lt_or_eq.mp hij with h | h
    · exact lt_trans (ih h (by omega)) hstep
    · rw [h]
      exact hstep

theorem roundBinary64_gap_absorbed :
    roundBinary64 (1125899906842624 + roundBinary64 (1 / 10)) = 1125899906842624 := by
  rw [roundBinary64_tenth,
    roundBinary64_eq _ 50 4503599627370496 (by norm_num) (by norm_num) (by norm_num)
      (roundHalfEven_of_abs_lt _ _ (by
        rw [abs_lt]
        constructor <;> norm_num))]
  norm_num

/-- C24 (as stated, refuted): with the durations `2^50` s and 1 s the display
gives the first segment the end `2^50` and the second segment the start
`2^50`: the 0.1 s gap is lost when `duration + 0.1` is rounded to binary64, so
the end of segment 0 is not strictly before the start of segment 1. -/
theorem updateTimingDisplay_gap_absorbed :
    (updateTimingDisplay [true, true] [.num 1125899906842624, .num 1]).rows.map
        (fun r => (r.start, r.finish)) =
      [(.num 0, .num 1125899906842624), (.num 1125899906842624, .num 1125899906842625)] := by
  have h0 : roundBinary64 (0 + 1125899906842624) = 1125899906842624 := by
    have := roundBinary64_intCast 1125899906842624 (by norm_num)
    simpa using this
  have h1 : roundBinary64 (1125899906842624 + 1) = 1125899906842625 := by
    have := roundBinary64_intCast 1125899906842625 (by norm_num)
    have h : ((1125899906842625 : ℤ) : ℚ) = 1125899906842624 + 1 := by norm_num
    rw [h] at this
    rw [this]
    norm_num
  have hd0 : durationOr0 [.num 1125899906842624, .num 1] 0 = .num 1125899906842624 := by
    simp [durationOr0, JsNum.truthy]
  have hd1 : durationOr0 [.num 1125899906842624, .num 1] 1 = .num 1 := by
    simp [durationOr0, JsNum.truthy]
  simp only [updateTimingDisplay, updateTimingLoop, hd0, hd1, JsNum.add, JsNum.literal,
    roundBinary64_gap_absorbed, h0, h1, List.map_cons, List.map_nil]

/-- C24 (amended): for non-negative finite durations `d0..d(n-1)` and as many
segment elements, `updateTimingDisplay` gives segment `i` the duration `di`,
the start `startOf ds i` and the end `endOf ds i di` (and writes them with
`toFixed(3)` and `formatTime`), where the start of segment 0 is 0, the start
of segment `i + 1` is the binary64 sum of the start of segment `i` and of the
binary64 sum `di + 0.1`, and the end is the binary64 sum of start and `di`.
As long as every start stays below `2^48` s, starts are strictly increasing
and the end of segment `i` is strictly before the start of segment `i + 1`;
for binary64 durations of any size the starts never decrease and the end of
segment `i` is never after the start of segment `i + 1`.  The total shown is
the sum of the `di` accumulated from 0 in binary64. -/
theorem updateTimingDisplay_intervals (ds : List ℚ) (segments : List Bool)
    (hnonneg : ∀ d ∈ ds, 0 ≤ d) (hlen : segments.length = ds.length) :
    (updateTimingDisplay segments (ds.map JsNum.num)).rows =
        (segments.enumFrom 0).map (fun x => expectedRow ds x.2 x.1 (ds[x.1]?.getD 0))
      ∧ (∀ (i : Nat) (d : ℚ) (flag : Bool), ds[i]? = some d → segments[i]? = some flag →
          (updateTimingDisplay segments (ds.map JsNum.num)).rows[i]? =
            some (expectedRow ds flag i d))
      ∧ startOf ds 0 = 0
      ∧ (∀ (i : Nat) (d : ℚ), ds[i]? = some d →
          startOf ds (i + 1) =
              roundBinary64 (startOf ds i + roundBinary64 (d + roundBinary64 (1 / 10)))
            ∧ endOf ds i d = roundBinary64 (startOf ds i + d))
      ∧ ((∀ i : Nat, i < ds.length → startOf ds (i + 1) < 2 ^ 48) →
          (∀ i j : Nat, i < j → j ≤ ds.length → startOf ds i < startOf ds j)
            ∧ (∀ (i : Nat) (d : ℚ), ds[i]? = some d → endOf ds i d < startOf ds (i + 1)))
      ∧ ((∀ d ∈ ds, roundBinary64 d = d) →
          (∀ i j : Nat, i ≤ j → j ≤ ds.length → startOf ds i ≤ startOf ds j)
            ∧ (∀ (i : Nat) (d : ℚ), ds[i]? = some d → endOf ds i d ≤ startOf ds (i + 1)))
      ∧ (updateTimingDisplay segments (ds.map JsNum.num)).totalDuration =
          .num (binary64Sum ds) := by
  have hrows : (updateTimingDisplay segments (ds.map JsNum.num)).rows =
      (segments.enumFrom 0).map (fun x => expectedRow ds x.2 x.1 (ds[x.1]?.getD 0)) := by
    have h := updateTimingLoop_rows ds segments 0 (by omega)
    rw [startOf_zero] at h
    exact h
  refine ⟨hrows, ?_, startOf_zero ds, ?_, ?_, ?_, ?_⟩
  · intro i d flag hd hflag
    rw [hrows]
    simp [List.getElem?_enumFrom, hflag, hd]
  · intro i d hd
    exact ⟨startOf_succ ds i d hd, rfl⟩
  · intro hbound
    refine ⟨fun i j hij hj => startOf_strictMono ds hnonneg hbound i j hij hj, ?_⟩
    intro i d hd
    have hlt : i < ds.length := by
      by_contra hc
      rw [List.getElem?_eq_none (not_lt.mp hc)] at hd
      cases hd
    have hmem : d ∈ ds := List.getElem?_mem hd
    have hb := hbound i hlt
    rw [startOf_succ ds i d hd] at hb ⊢
    exact (next_start_gt (startOf ds i) d (startOf_nonneg ds i (by omega) hnonneg)
      (hnonneg d hmem) hb).2
  · intro h64
    refine ⟨fun i j hij hj => startOf_mono ds hnonneg h64 i j hij hj, ?_⟩
    intro i d hd
    have hlt : i < ds.length := by
      by_contra hc
      rw [List.getElem?_eq_none (not_lt.mp hc)] at hd
      cases hd
    have hmem : d ∈ ds := List.getElem?_mem hd
    rw [startOf_succ ds i d hd]
    exact (next_start_ge (startOf ds i) d (startOf_binary64 ds i (by omega)) (h64 d hmem)
      (hnonneg d hmem)).2
  · exact foldl_add_finite ds 0

theorem roundBinary64_le_four (x : ℚ) (h : x ≤ 4) : roundBinary64 x ≤ 4 := by
  have h4 : (2 : ℚ) ^ (2 : ℤ) = 4 := by norm_num
  have := roundBinary64_le_zpow x 2 (by norm_num) (by rw [h4]; exact h)
  rw [h4] at this
  exact this

theorem roundBinary64_le_eight (x : ℚ) (h : x ≤ 8) : roundBinary64 x ≤ 8 := by
  have h8 : (2 : ℚ) ^ (3 : ℤ) = 8 := by norm_num
  have := roundBinary64_le_zpow x 3 (by norm_num) (by rw [h8]; exact h)
  rw [h8] at this
  exact this

theorem startOf_two_sesqui_bound :
    ∀ i : Nat, i < ([2, 3 / 2] : List ℚ).length → startOf [2, 3 / 2] (i + 1) < 2 ^ 48 := by
  have hc1 : roundBinary64 (1 / 10) ≤ 1 := by
    have := roundBinary64_le_zpow (1 / 10) 0 (by norm_num) (by norm_num)
    simpa using this
  have hg1 : roundBinary64 (2 + roundBinary64 (1 / 10)) ≤ 4 :=
    roundBinary64_le_four _ (by linarith)
  have hg2 : roundBinary64 (3 / 2 + roundBinary64 (1 / 10)) ≤ 4 :=
    roundBinary64_le_four _ (by linarith)
  have hs1 : roundBinary64 (0 + roundBinary64 (2 + roundBinary64 (1 / 10))) ≤ 4 :=
    roundBinary64_le_four _ (by linarith)
  have hs2 : roundBinary64 (roundBinary64 (0 + roundBinary64 (2 + roundBinary64 (1 / 10)))
      + roundBinary64 (3 / 2 + roundBinary64 (1 / 10))) ≤ 8 :=
    roundBinary64_le_eight _ (by linarith)
  intro i hi
  simp only [List.length_cons, List.length_nil] at hi
  have hi2 : i = 0 ∨ i = 1 := by omega
  have h48 : (8 : ℚ) < 2 ^ 48 := by norm_num
  rcases hi2 with rfl | rfl
  · have hval : startOf [2, 3 / 2] (0 + 1) =
        roundBinary64 (0 + roundBinary64 (2 + roundBinary64 (1 / 10))) := rfl
    rw [hval]
    linarith
  · have hval : startOf [2, 3 / 2] (1 + 1) =
        roundBinary64 (roundBinary64 (0 + roundBinary64 (2 + roundBinary64 (1 / 10)))
          + roundBinary64 (3 / 2 + roundBinary64 (1 / 10))) := rfl
    rw [hval]
    linarith

theorem updateTimingDisplay_intervals_witness :
    (updateTimingDisplay [true, true] (([2, 3 / 2] : List ℚ).map JsNum.num)).totalDuration =
        .num (binary64Sum [2, 3 / 2])
      ∧ endOf [2, 3 / 2] 0 2 < startOf [2, 3 / 2] 1 :=
  ⟨(updateTimingDisplay_intervals [2, 3 / 2] [true, true]
      (by
        intro d hd
        simp only [List.mem_cons, List.mem_singleton, List.not_mem_nil, or_false] at hd
        rcases hd with rfl | rfl <;> norm_num)
      rfl).2.2.2.2.2.2,
    ((updateTimingDisplay_intervals [2, 3 / 2] [true, true]
      (by
        intro d hd
        simp only [List.mem_cons, List.mem_singleton, List.not_mem_nil, or_false] at hd
        rcases hd with rfl | rfl <;> norm_num)
      rfl).2.2.2.2.1 startOf_two_sesqui_bound).2 0 2 rfl⟩

theorem formatTime_below_minute (s : ℚ) (n : ℕ) (h0 : 0 ≤ s) (h1 : s < 60)
    (hn : (n : ℚ) ≤ s * 1000 + 1 / 2) (hn1 : s * 1000 + 1 / 2 < (n : ℚ) + 1) :
    formatTime (.num s) =
      "00:00:" ++ padStart (toString (n / 10 ^ 3) ++ "." ++ padStart (toString (n % 10 ^ 3)) 3 '0')
        6 '0' := by
  have hf1 : ⌊s / 3600⌋ = 0 := by
    rw [Int.floor_eq_iff]
    constructor
    · simp only [Int.cast_zero]
      positivity
    · simp only [Int.cast_zero, zero_add]
      rw [div_lt_one (by norm_num)]
      linarith
  have ht1 : truncate (s / 3600) = 0 :=
    truncate_of_floor_zero _ (by positivity) (by
      rw [div_lt_one (by norm_num)]
      linarith)
  have ht2 : truncate (s / 60) = 0 :=
    truncate_of_floor_zero _ (by positivity) (by
      rw [div_lt_one (by norm_num)]
      linarith)
  have hf2 : ⌊(s - 3600 * ((0 : ℤ) : ℚ)) / 60⌋ = 0 := by
    rw [Int.floor_eq_iff]
    simp only [Int.cast_zero, mul_zero, sub_zero, zero_add]
    constructor
    · positivity
    · rw [div_lt_one (by norm_num)]
      exact h1
  have hfix : fixedScaled 3 |s - 60 * ((0 : ℤ) : ℚ)| = n := by
    unfold fixedScaled
    simp only [Int.cast_zero, mul_zero, sub_zero]
    rw [abs_of_nonneg h0]
    have : ⌊s * 10 ^ 3 + 1 / 2⌋ = (n : ℤ) := by
      rw [Int.floor_eq_iff]
      constructor
      · have h3 : (10 : ℚ) ^ 3 = 1000 := by norm_num
        rw [h3]
        exact_mod_cast hn
      · have h3 : (10 : ℚ) ^ 3 = 1000 := by norm_num
        rw [h3]
        exact_mod_cast hn1
    rw [this]
    rfl
  have hpos : ¬ (s - 60 * ((0 : ℤ) : ℚ) < 0) := by
    simp only [Int.cast_zero, mul_zero, sub_zero]
    exact not_lt.mpr h0
  simp only [formatTime, JsNum.div, JsNum.mod, JsNum.floor, integerToString, toFixed,
    show (3600 : ℚ) ≠ 0 by norm_num, show (60 : ℚ) ≠ 0 by norm_num, if_false, hf1, ht1, ht2,
    hf2, hfix, hpos, Int.floor_intCast]
  rfl

/-- The start shown for the second segment after a first segment of 1.0005 s
(the binary64 value of `1.0005`): the binary64 sum with `0.1` is shown as
`00:00:01.101`, where the exact sum with one tenth would be shown as
`00:00:01.100`. -/
theorem startOf_rounded_sum_text :
    roundBinary64 (10005 / 10000) = 4505851427184181 / 4503599627370496
      ∧ startOf [4505851427184181 / 4503599627370496, 1] 1 =
          4956211389921231 / 4503599627370496
      ∧ formatTime (.num (startOf [4505851427184181 / 4503599627370496, 1] 1)) = "00:00:01.101"
      ∧ formatTime (.num (4505851427184181 / 4503599627370496 + 1 / 10)) = "00:00:01.100" := by
  have hstart : startOf [4505851427184181 / 4503599627370496, 1] 1 =
      4956211389921231 / 4503599627370496 := by
    have hval : startOf [4505851427184181 / 4503599627370496, 1] 1 =
        roundBinary64 (0 + roundBinary64 (4505851427184181 / 4503599627370496
          + roundBinary64 (1 / 10))) := rfl
    have hg : roundBinary64 (4505851427184181 / 4503599627370496
        + 3602879701896397 / 36028797018963968) = 4956211389921231 / 4503599627370496 := by
      rw [roundBinary64_eq _ 0 4956211389921231 (by norm_num) (by norm_num) (by norm_num)
        (roundHalfEven_of_abs_lt _ _ (by
          rw [abs_lt]
          constructor <;> norm_num))]
      norm_num
    have hrep : roundBinary64 (0 + 4956211389921231 / 4503599627370496) =
        4956211389921231 / 4503599627370496 := by
      have := roundBinary64_representable 4956211389921231 (-52) (by norm_num) (by norm_num)
      have h : ((4956211389921231 : ℤ) : ℚ) * 2 ^ (-52 : ℤ) =
          0 + 4956211389921231 / 4503599627370496 := by norm_num
      rw [h] at this
      rw [this]
      norm_num
    rw [hval, roundBinary64_tenth, hg, hrep]
  refine ⟨?_, hstart, ?_, ?_⟩
  · rw [roundBinary64_eq (10005 / 10000) 0 4505851427184181 (by norm_num) (by norm_num)
      (by norm_num)
      (roundHalfEven_of_abs_lt _ _ (by
        rw [abs_lt]
        constructor <;> norm_num))]
    norm_num
  · rw [hstart, formatTime_below_minute _ 1101 (by norm_num) (by norm_num) (by norm_num)
      (by norm_num)]
    rfl
  · rw [formatTime_below_minute _ 1100 (by norm_num) (by norm_num) (by norm_num) (by norm_num)]
    rfl

/-- One segment probed at 1.0 s and a combined artifact probed at 1.1 s (the
binary64 value of `1.1`): the binary64 difference is greater than the binary64
value of `0.1`, and `/combine-audio` writes the warning. -/
theorem combineAudio_one_tenth_over_flagged :
    roundBinary64 (11 / 10) = binary64OnePointOne
      ∧ roundBinary64 (binary64OnePointOne - 1) > roundBinary64 (1 * roundBinary64 (1 / 10))
      ∧ warnings (combineAudio oneSecondEnv { paths := .array ["s1.wav"] }).effects ≠ [] := by
  have hF : roundBinary64 (11 / 10) = binary64OnePointOne := by
    rw [roundBinary64_eq (11 / 10) 0 4953959590107546 (by norm_num) (by norm_num) (by norm_num)
      (roundHalfEven_of_abs_lt _ _ (by
        rw [abs_lt]
        constructor <;> norm_num))]
    unfold binary64OnePointOne
    norm_num
  have hdiff : roundBinary64 (binary64OnePointOne - 1) = 225179981368525 / 2251799813685248 := by
    have := roundBinary64_representable 225179981368525 (-51) (by norm_num) (by norm_num)
    have h : ((225179981368525 : ℤ) : ℚ) * 2 ^ (-51 : ℤ) = binary64OnePointOne - 1 := by
      unfold binary64OnePointOne
      norm_num
    rw [h] at this
    rw [this]
    unfold binary64OnePointOne
    norm_num
  have hthreshold : roundBinary64 (1 * roundBinary64 (1 / 10)) =
      3602879701896397 / 36028797018963968 := by
    rw [roundBinary64_tenth]
    have := roundBinary64_representable 3602879701896397 (-55) (by norm_num) (by norm_num)
    have h : ((3602879701896397 : ℤ) : ℚ) * 2 ^ (-55 : ℤ) =
        1 * (3602879701896397 / 36028797018963968) := by norm_num
    rw [h] at this
    rw [this]
    norm_num
  have hsum : binary64Sum [1] = 1 := by
    have := roundBinary64_intCast 1 (by norm_num)
    simp only [binary64Sum, List.foldl_cons, List.foldl_nil, zero_add]
    simpa using this
  have hprobed : List.Forall₂
      (fun p d => oneSecondEnv.getAudioDurationInSeconds p = .ok (.num d)) ["s1.wav"] [1] :=
    .cons rfl .nil
  have hexist : ∀ p ∈ ["s1.wav"], oneSecondEnv.existsSync p = true := by
    intro p hp
    simp only [List.mem_singleton] at hp
    subst hp
    rfl
  have hok := combineAudio_ok oneSecondEnv ["s1.wav"] [1]
    { full_path := "combined.wav", extra := [] } binary64OnePointOne (by simp) hexist hprobed
    rfl rfl
  have hlen : (((["s1.wav"] : List Path).length : ℕ) : ℚ) = 1 := by simp
  rw [hsum, hlen, hthreshold, hdiff, if_pos (by rw [abs_of_pos (by norm_num)]; norm_num)] at hok
  refine ⟨hF, ?_, ?_⟩
  · rw [hdiff, hthreshold]
    norm_num
  · rw [hok]
    simp [warnings]

end Clone
